import Mathlib

/-!
# dhcpleased frontend (sbin/dhcpleased/frontend.c)

A shallow embedding of the frontend process of dhcpleased: the DHCP packet builder, the BPF
capture-record loop, the routing-socket address walk, the interface list and the two imsg
dispatchers, followed by theorems about them.

Bytes are natural numbers, buffers are lists of bytes, pointers into a buffer are offsets.
Fixed-width integers are natural numbers or integers reduced explicitly where the C code can wrap.
-/

namespace Dhcpleased

/-! ## Declarations taken from headers -/

/-- What frontend.c takes from headers that are not among the sources at hand (dhcpleased.h, bpf.h,
checksum.h and the system headers net/bpf.h, net/if.h, net/route.h, netinet/*.h): constants, struct
sizes and field offsets, one macro and the two checksum helpers. Every definition below takes them
as a parameter, so nothing proved depends on a particular value. -/
structure headers where
  /-- sizeof(struct dhcp_hdr) -/
  sizeof_dhcp_hdr : Nat
  /-- offsetof(struct dhcp_hdr, op) -/
  off_op : Nat
  /-- offsetof(struct dhcp_hdr, htype) -/
  off_htype : Nat
  /-- offsetof(struct dhcp_hdr, hlen) -/
  off_hlen : Nat
  /-- offsetof(struct dhcp_hdr, hops) -/
  off_hops : Nat
  /-- offsetof(struct dhcp_hdr, xid) -/
  off_xid : Nat
  /-- offsetof(struct dhcp_hdr, secs) -/
  off_secs : Nat
  /-- offsetof(struct dhcp_hdr, chaddr) -/
  off_chaddr : Nat
  DHCP_BOOTREQUEST : Nat
  HTYPE_ETHER : Nat
  DHCP_COOKIE : List Nat
  DHCPDISCOVER : Nat
  DHCPREQUEST : Nat
  DHO_SUBNET_MASK : Nat
  DHO_ROUTERS : Nat
  DHO_DOMAIN_NAME_SERVERS : Nat
  DHO_HOST_NAME : Nat
  DHO_DOMAIN_NAME : Nat
  DHO_BROADCAST_ADDRESS : Nat
  DHO_DHCP_REQUESTED_ADDRESS : Nat
  DHO_DHCP_MESSAGE_TYPE : Nat
  DHO_DHCP_SERVER_IDENTIFIER : Nat
  DHO_DHCP_PARAMETER_REQUEST_LIST : Nat
  DHO_DHCP_CLIENT_IDENTIFIER : Nat
  DHO_DOMAIN_SEARCH : Nat
  DHO_CLASSLESS_STATIC_ROUTES : Nat
  DHO_END : Nat
  SERVER_PORT : Nat
  CLIENT_PORT : Nat
  /-- sizeof(imsg_dhcp.packet), the DHCP payload capacity of struct imsg_dhcp -/
  sizeof_imsg_dhcp_packet : Nat
  /-- BPFLEN of bpf.h, the size of the per-interface capture buffer -/
  BPFLEN : Nat
  /-- sizeof(struct bpf_hdr) -/
  sizeof_bpf_hdr : Nat
  /-- the bh_caplen field as a function of the sizeof(struct bpf_hdr) bytes of a record header -/
  bh_caplen : List Nat → Nat
  /-- the bh_datalen field as a function of the bytes of a record header -/
  bh_datalen : List Nat → Nat
  /-- the bh_hdrlen field as a function of the bytes of a record header -/
  bh_hdrlen : List Nat → Nat
  /-- the macro BPF_WORDALIGN of net/bpf.h -/
  BPF_WORDALIGN : Nat → Nat
  IFXF_AUTOCONF4 : Nat
  IFF_UP : Nat
  IFF_RUNNING : Nat
  IFT_ETHER : Nat
  AF_LINK : Nat
  RTAX_MAX : Nat
  ETHERTYPE_IP : Nat
  IPTOS_LOWDELAY : Nat
  IPPROTO_UDP : Nat
  INADDR_BROADCAST : Nat
  /-- sizeof(long) -/
  sizeof_long : Nat
  /-- byte order of the host: how a uint16_t or uint32_t object lies in memory -/
  big_endian : Bool
  /-- checksum() of checksum.h: buffer, then the running sum -/
  checksum : List Nat → Nat → Nat
  /-- wrapsum() of checksum.h -/
  wrapsum : Nat → Nat

/-- INADDR_ANY, the address 0.0.0.0. -/
def INADDR_ANY : Nat := 0

/-- The size of struct ether_addr, six octets. -/
def ETHER_ADDR_LEN : Nat := 6

/-- The fields of struct dhcp_hdr that build_packet assigns lie inside the struct. -/
@[reducible]
def headers.dhcp_hdr_fields_inside (H : headers) : Prop :=
  H.off_op + 1 ≤ H.sizeof_dhcp_hdr ∧ H.off_htype + 1 ≤ H.sizeof_dhcp_hdr ∧
  H.off_hlen + 1 ≤ H.sizeof_dhcp_hdr ∧ H.off_hops + 1 ≤ H.sizeof_dhcp_hdr ∧
  H.off_xid + 4 ≤ H.sizeof_dhcp_hdr ∧ H.off_secs + 2 ≤ H.sizeof_dhcp_hdr ∧
  H.off_chaddr + ETHER_ADDR_LEN ≤ H.sizeof_dhcp_hdr

/-! ## Memory helpers -/

/-- memset(buf, c, n): the first n bytes become c. -/
def memset (buf : List Nat) (c n : Nat) : List Nat :=
  List.replicate n c ++ buf.drop n

/-- memcpy(dst + p, src, n) for the n bytes src. -/
def memcpy (dst : List Nat) (p : Nat) (src : List Nat) : List Nat :=
  dst.take p ++ src ++ dst.drop (p + src.length)

/-- The bytes of a 16-bit value, most significant first (what htons leaves in memory). -/
def be16 (v : Nat) : List Nat := [v / 256 % 256, v % 256]

/-- The bytes of a 32-bit value, most significant first (what htonl leaves in memory). -/
def be32 (v : Nat) : List Nat := [v / 16777216 % 256, v / 65536 % 256, v / 256 % 256, v % 256]

/-- Object representation of a uint16_t in host byte order. -/
def store16 (H : headers) (v : Nat) : List Nat :=
  if H.big_endian then be16 v else (be16 v).reverse

/-- Object representation of a uint32_t in host byte order. -/
def store32 (H : headers) (v : Nat) : List Nat :=
  if H.big_endian then be32 v else (be32 v).reverse

/-- struct ether_addr: six octets. -/
structure ether_addr where
  o0 : Nat
  o1 : Nat
  o2 : Nat
  o3 : Nat
  o4 : Nat
  o5 : Nat
deriving DecidableEq, Repr

/-- The six bytes of a struct ether_addr. -/
def ether_addr.ether_addr_octet (a : ether_addr) : List Nat :=
  [a.o0, a.o1, a.o2, a.o3, a.o4, a.o5]

/-- strchr(s, c) on the bytes s: offset of the first c at or before the terminating NUL. -/
def strchr : List Nat → Nat → Option Nat
  | [], _ => none
  | b :: s, c =>
    if b = c then some 0
    else if b = 0 then none
    else (strchr s c).map (· + 1)

/-- strlen(s) on the bytes s: number of bytes before the first NUL. -/
def strlen : List Nat → Nat
  | [] => 0
  | b :: s => if b = 0 then 0 else strlen s + 1

/-! ## build_packet -/

/-- sizeof(dhcp_packet), the scratch buffer. -/
def sizeof_dhcp_packet : Nat := 1500

/-- build_packet (frontend.c 744-815). The argument gethostname is what the call
gethostname(dhcp_hostname + 2, sizeof(dhcp_hostname) - 2) did: none when it failed, some name when
it returned 0 and stored name and a terminating NUL. The argument dhcp_packet is the prior content
of the scratch buffer. The result is the returned length and the new content of the buffer. The
static option arrays are written in full before they are read, so they are local here; xid,
requested_ip and server_identifier are the values of the uint32_t objects. -/
def build_packet (H : headers) (gethostname : Option (List Nat)) (dhcp_packet : List Nat)
    (message_type xid : Nat) (hw_address : ether_addr) (requested_ip server_identifier : Nat) :
    Nat × List Nat :=
  let dhcp_cookie := H.DHCP_COOKIE
  let dhcp_message_type := [H.DHO_DHCP_MESSAGE_TYPE, 1, H.DHCPDISCOVER]
  let dhcp_hostname := H.DHO_HOST_NAME :: List.replicate 254 0
  let dhcp_client_id := [H.DHO_DHCP_CLIENT_IDENTIFIER, 7, H.HTYPE_ETHER, 0, 0, 0, 0, 0, 0]
  let dhcp_req_list := [H.DHO_DHCP_PARAMETER_REQUEST_LIST, 8, H.DHO_SUBNET_MASK, H.DHO_ROUTERS,
    H.DHO_DOMAIN_NAME_SERVERS, H.DHO_HOST_NAME, H.DHO_DOMAIN_NAME, H.DHO_BROADCAST_ADDRESS,
    H.DHO_DOMAIN_SEARCH, H.DHO_CLASSLESS_STATIC_ROUTES]
  let dhcp_requested_address := [H.DHO_DHCP_REQUESTED_ADDRESS, 4, 0, 0, 0, 0]
  let dhcp_server_identifier := [H.DHO_DHCP_SERVER_IDENTIFIER, 4, 0, 0, 0, 0]
  let dhcp_packet := memset dhcp_packet 0 sizeof_dhcp_packet
  let dhcp_message_type := dhcp_message_type.set 2 message_type
  let p := 0
  let hdr := p
  let dhcp_packet := memcpy dhcp_packet (hdr + H.off_op) [H.DHCP_BOOTREQUEST]
  let dhcp_packet := memcpy dhcp_packet (hdr + H.off_htype) [H.HTYPE_ETHER]
  let dhcp_packet := memcpy dhcp_packet (hdr + H.off_hlen) [6]
  let dhcp_packet := memcpy dhcp_packet (hdr + H.off_hops) [0]
  let dhcp_packet := memcpy dhcp_packet (hdr + H.off_xid) (store32 H xid)
  let dhcp_packet := memcpy dhcp_packet (hdr + H.off_secs) (store16 H 0)
  let dhcp_packet := memcpy dhcp_packet (hdr + H.off_chaddr) hw_address.ether_addr_octet
  let p := p + H.sizeof_dhcp_hdr
  let dhcp_packet := memcpy dhcp_packet p dhcp_cookie
  let p := p + dhcp_cookie.length
  let dhcp_packet := memcpy dhcp_packet p dhcp_message_type
  let p := p + dhcp_message_type.length
  let (dhcp_packet, p) :=
    match gethostname with
    | some name =>
      let dhcp_hostname := memcpy dhcp_hostname 2 (name ++ [0])
      let dhcp_hostname :=
        match strchr (dhcp_hostname.drop 2) 46 with
        | some c => dhcp_hostname.set (2 + c) 0
        | none => dhcp_hostname
      let dhcp_hostname := dhcp_hostname.set 1 (strlen (dhcp_hostname.drop 2) % 256)
      let dhcp_packet := memcpy dhcp_packet p (dhcp_hostname.take (dhcp_hostname.getD 1 0 + 2))
      (dhcp_packet, p + (dhcp_hostname.getD 1 0 + 2))
    | none => (dhcp_packet, p)
  let dhcp_client_id := memcpy dhcp_client_id 3 hw_address.ether_addr_octet
  let dhcp_packet := memcpy dhcp_packet p dhcp_client_id
  let p := p + dhcp_client_id.length
  let dhcp_packet := memcpy dhcp_packet p dhcp_req_list
  let p := p + dhcp_req_list.length
  let (dhcp_packet, p) :=
    if message_type = H.DHCPREQUEST then
      let dhcp_requested_address := memcpy dhcp_requested_address 2 (store32 H requested_ip)
      let dhcp_packet := memcpy dhcp_packet p dhcp_requested_address
      let p := p + dhcp_requested_address.length
      if server_identifier ≠ INADDR_ANY then
        let dhcp_server_identifier := memcpy dhcp_server_identifier 2 (store32 H server_identifier)
        let dhcp_packet := memcpy dhcp_packet p dhcp_server_identifier
        (dhcp_packet, p + dhcp_server_identifier.length)
      else (dhcp_packet, p)
    else (dhcp_packet, p)
  let dhcp_packet := memcpy dhcp_packet p [H.DHO_END]
  let p := p + 1
  (p, dhcp_packet)

/-! ## Reading the packet back -/

/-- What gethostname can leave in a buffer of 253 bytes when it succeeds: a name of at most 252
bytes, none of them NUL, and the terminator. -/
def gethostname_ok : Option (List Nat) → Prop
  | none => True
  | some name => name.length + 1 ≤ 253 ∧ ∀ b ∈ name, b ≠ 0

instance gethostname_ok_decidable : (gh : Option (List Nat)) → Decidable (gethostname_ok gh)
  | none => isTrue trivial
  | some name => inferInstanceAs (Decidable (name.length + 1 ≤ 253 ∧ ∀ b ∈ name, b ≠ 0))

/-- Size of the host-name option: tag, length byte and the host name cut at its first dot (byte
46) when gethostname succeeded, nothing otherwise. -/
def host_name_option_size : Option (List Nat) → Nat
  | some name => 2 + (name.takeWhile (fun b => b != 46)).length
  | none => 0

/-- Decoding of an options area as tag, length byte, data, repeated, up to the end option, which
has to be the last byte. The first argument bounds the number of options read. -/
def decode_options (END : Nat) : Nat → List Nat → Option (List (Nat × List Nat))
  | 0, _ => none
  | _ + 1, [] => none
  | fuel + 1, tag :: rest =>
    if tag = END then (if rest = [] then some [] else none)
    else
      match rest with
      | [] => none
      | len :: data =>
        if len ≤ data.length then
          (decode_options END fuel (data.drop len)).map (fun os => (tag, data.take len) :: os)
        else none

/-- The options build_packet is said to write, as (tag, data) pairs in order. -/
def expected_options (H : headers) (gethostname : Option (List Nat))
    (message_type : Nat) (hw_address : ether_addr) (requested_ip server_identifier : Nat) :
    List (Nat × List Nat) :=
  [(H.DHO_DHCP_MESSAGE_TYPE, [message_type])] ++
  (match gethostname with
    | some name => [(H.DHO_HOST_NAME, name.takeWhile (fun b => b != 46))]
    | none => []) ++
  [(H.DHO_DHCP_CLIENT_IDENTIFIER, H.HTYPE_ETHER :: hw_address.ether_addr_octet),
   (H.DHO_DHCP_PARAMETER_REQUEST_LIST, [H.DHO_SUBNET_MASK, H.DHO_ROUTERS,
      H.DHO_DOMAIN_NAME_SERVERS, H.DHO_HOST_NAME, H.DHO_DOMAIN_NAME, H.DHO_BROADCAST_ADDRESS,
      H.DHO_DOMAIN_SEARCH, H.DHO_CLASSLESS_STATIC_ROUTES])] ++
  (if message_type = H.DHCPREQUEST then
    [(H.DHO_DHCP_REQUESTED_ADDRESS, store32 H requested_ip)] else []) ++
  (if message_type = H.DHCPREQUEST ∧ server_identifier ≠ INADDR_ANY then
    [(H.DHO_DHCP_SERVER_IDENTIFIER, store32 H server_identifier)] else [])

/-- The bytes of a list of options: tag, length, data for each. -/
def encode_options (os : List (Nat × List Nat)) : List Nat :=
  (os.map (fun o => o.1 :: o.2.length :: o.2)).flatten

/-- The option tags build_packet uses and the end marker are pairwise distinct codes. -/
@[reducible]
def headers.option_tags_distinct (H : headers) : Prop :=
  [H.DHO_DHCP_MESSAGE_TYPE, H.DHO_HOST_NAME, H.DHO_DHCP_CLIENT_IDENTIFIER,
    H.DHO_DHCP_PARAMETER_REQUEST_LIST, H.DHO_DHCP_REQUESTED_ADDRESS,
    H.DHO_DHCP_SERVER_IDENTIFIER, H.DHO_END].Nodup

/-- The option bytes build_packet writes between the cookie and the end marker. -/
def options_bytes (H : headers) (gethostname : Option (List Nat))
    (message_type : Nat) (hw_address : ether_addr) (requested_ip server_identifier : Nat) :
    List Nat :=
  [H.DHO_DHCP_MESSAGE_TYPE, 1, message_type] ++
  (match gethostname with
    | some name =>
      H.DHO_HOST_NAME :: (name.takeWhile (fun b => b != 46)).length ::
        name.takeWhile (fun b => b != 46)
    | none => []) ++
  (H.DHO_DHCP_CLIENT_IDENTIFIER :: 7 :: H.HTYPE_ETHER :: hw_address.ether_addr_octet) ++
  [H.DHO_DHCP_PARAMETER_REQUEST_LIST, 8, H.DHO_SUBNET_MASK, H.DHO_ROUTERS,
    H.DHO_DOMAIN_NAME_SERVERS, H.DHO_HOST_NAME, H.DHO_DOMAIN_NAME, H.DHO_BROADCAST_ADDRESS,
    H.DHO_DOMAIN_SEARCH, H.DHO_CLASSLESS_STATIC_ROUTES] ++
  (if message_type = H.DHCPREQUEST then
    H.DHO_DHCP_REQUESTED_ADDRESS :: 4 :: store32 H requested_ip else []) ++
  (if message_type = H.DHCPREQUEST ∧ server_identifier ≠ INADDR_ANY then
    H.DHO_DHCP_SERVER_IDENTIFIER :: 4 :: store32 H server_identifier else [])

/-- One memcpy to the write pointer followed by advancing the pointer by n. -/
def emit (s : List Nat × Nat) (c : List Nat × Nat) : List Nat × Nat :=
  (memcpy s.1 s.2 c.1, s.2 + c.2)

/-- The array dhcp_hostname as build_packet leaves it when gethostname stored name. -/
def hostname_array_of (H : headers) (name : List Nat) : List Nat :=
  (match strchr ((memcpy (H.DHO_HOST_NAME :: List.replicate 254 0) 2 (name ++ [0])).drop 2) 46 with
    | some c => (memcpy (H.DHO_HOST_NAME :: List.replicate 254 0) 2 (name ++ [0])).set (2 + c) 0
    | none => memcpy (H.DHO_HOST_NAME :: List.replicate 254 0) 2 (name ++ [0])).set 1
    (strlen ((match strchr
        ((memcpy (H.DHO_HOST_NAME :: List.replicate 254 0) 2 (name ++ [0])).drop 2) 46 with
      | some c => (memcpy (H.DHO_HOST_NAME :: List.replicate 254 0) 2 (name ++ [0])).set (2 + c) 0
      | none => memcpy (H.DHO_HOST_NAME :: List.replicate 254 0) 2 (name ++ [0])).drop 2) % 256)

/-- The pieces build_packet copies after the fixed header, each with the pointer increment. -/
def packet_chunks (H : headers) (gh : Option (List Nat)) (mt : Nat) (hw : ether_addr)
    (rip sid : Nat) : List (List Nat × Nat) :=
  [(H.DHCP_COOKIE, H.DHCP_COOKIE.length), ([H.DHO_DHCP_MESSAGE_TYPE, 1, mt], 3)] ++
  (match gh with
    | some name =>
      [((hostname_array_of H name).take ((hostname_array_of H name).getD 1 0 + 2),
        (hostname_array_of H name).getD 1 0 + 2)]
    | none => []) ++
  [(memcpy [H.DHO_DHCP_CLIENT_IDENTIFIER, 7, H.HTYPE_ETHER, 0, 0, 0, 0, 0, 0] 3
      hw.ether_addr_octet,
    (memcpy [H.DHO_DHCP_CLIENT_IDENTIFIER, 7, H.HTYPE_ETHER, 0, 0, 0, 0, 0, 0] 3
      hw.ether_addr_octet).length),
    ([H.DHO_DHCP_PARAMETER_REQUEST_LIST, 8, H.DHO_SUBNET_MASK, H.DHO_ROUTERS,
      H.DHO_DOMAIN_NAME_SERVERS, H.DHO_HOST_NAME, H.DHO_DOMAIN_NAME, H.DHO_BROADCAST_ADDRESS,
      H.DHO_DOMAIN_SEARCH, H.DHO_CLASSLESS_STATIC_ROUTES], 10)] ++
  (if mt = H.DHCPREQUEST then
    [(memcpy [H.DHO_DHCP_REQUESTED_ADDRESS, 4, 0, 0, 0, 0] 2 (store32 H rip),
      (memcpy [H.DHO_DHCP_REQUESTED_ADDRESS, 4, 0, 0, 0, 0] 2 (store32 H rip)).length)] ++
    (if sid ≠ INADDR_ANY then
      [(memcpy [H.DHO_DHCP_SERVER_IDENTIFIER, 4, 0, 0, 0, 0] 2 (store32 H sid),
        (memcpy [H.DHO_DHCP_SERVER_IDENTIFIER, 4, 0, 0, 0, 0] 2 (store32 H sid)).length)]
     else [])
   else []) ++
  [([H.DHO_END], 1)]

/-- The scratch buffer after the memset and the header assignments of build_packet. -/
def header_stage (H : headers) (old : List Nat) (xid : Nat) (hw : ether_addr) : List Nat :=
  memcpy (memcpy (memcpy (memcpy (memcpy (memcpy (memcpy (memset old 0 sizeof_dhcp_packet)
    (0 + H.off_op) [H.DHCP_BOOTREQUEST]) (0 + H.off_htype) [H.HTYPE_ETHER]) (0 + H.off_hlen) [6])
    (0 + H.off_hops) [0]) (0 + H.off_xid) (store32 H xid)) (0 + H.off_secs) (store16 H 0))
    (0 + H.off_chaddr) hw.ether_addr_octet

/-- The declarations as OpenBSD/amd64 has them (RFC 2131 header, RFC 2132 option codes). The
checksum helpers stand in for those of checksum.c. Used for concrete runs only. -/
def openbsd_amd64 : headers where
  sizeof_dhcp_hdr := 236
  off_op := 0
  off_htype := 1
  off_hlen := 2
  off_hops := 3
  off_xid := 4
  off_secs := 8
  off_chaddr := 28
  DHCP_BOOTREQUEST := 1
  HTYPE_ETHER := 1
  DHCP_COOKIE := [99, 130, 83, 99]
  DHCPDISCOVER := 1
  DHCPREQUEST := 3
  DHO_SUBNET_MASK := 1
  DHO_ROUTERS := 3
  DHO_DOMAIN_NAME_SERVERS := 6
  DHO_HOST_NAME := 12
  DHO_DOMAIN_NAME := 15
  DHO_BROADCAST_ADDRESS := 28
  DHO_DHCP_REQUESTED_ADDRESS := 50
  DHO_DHCP_MESSAGE_TYPE := 53
  DHO_DHCP_SERVER_IDENTIFIER := 54
  DHO_DHCP_PARAMETER_REQUEST_LIST := 55
  DHO_DHCP_CLIENT_IDENTIFIER := 61
  DHO_DOMAIN_SEARCH := 119
  DHO_CLASSLESS_STATIC_ROUTES := 121
  DHO_END := 255
  SERVER_PORT := 67
  CLIENT_PORT := 68
  sizeof_imsg_dhcp_packet := 1500
  BPFLEN := 2048
  sizeof_bpf_hdr := 24
  bh_caplen := fun h => h.getD 8 0 + 256 * h.getD 9 0 + 65536 * h.getD 10 0 + 16777216 * h.getD 11 0
  bh_datalen := fun h =>
    h.getD 12 0 + 256 * h.getD 13 0 + 65536 * h.getD 14 0 + 16777216 * h.getD 15 0
  bh_hdrlen := fun h => h.getD 16 0 + 256 * h.getD 17 0
  BPF_WORDALIGN := fun x => (x + 3) / 4 * 4
  IFXF_AUTOCONF4 := 128
  IFF_UP := 1
  IFF_RUNNING := 64
  IFT_ETHER := 6
  AF_LINK := 18
  RTAX_MAX := 15
  ETHERTYPE_IP := 2048
  IPTOS_LOWDELAY := 16
  IPPROTO_UDP := 17
  INADDR_BROADCAST := 4294967295
  sizeof_long := 8
  big_endian := false
  checksum := fun buf sum => sum + (buf.enum.map (fun (i, b) => if i % 2 = 0 then 256 * b else b)).sum
  wrapsum := fun sum => 65535 - (sum % 65535)

/-! ## bpf_receive -/

/-- SSIZE_MAX: ssize_t is a long. -/
def headers.SSIZE_MAX (H : headers) : Nat := 2 ^ (8 * H.sizeof_long - 1) - 1

/-- Conversion of an integer to ssize_t (two's complement wrap). -/
def to_ssize_t (H : headers) (x : Int) : Int :=
  (x + (H.SSIZE_MAX + 1 : Nat)) % (2 * (H.SSIZE_MAX + 1 : Nat)) - (H.SSIZE_MAX + 1 : Nat)

/-- struct imsg_dhcp of dhcpleased.h: interface index, length and the packet array of
sizeof_imsg_dhcp_packet bytes. -/
structure imsg_dhcp where
  if_index : Nat
  len : Nat
  packet : List Nat
deriving DecidableEq, Repr

/-- The struct bpf_hdr bytes at offset p of the capture buffer. -/
def bpf_hdr_at (H : headers) (buf : List Nat) (p : Nat) : List Nat :=
  (buf.drop p).take H.sizeof_bpf_hdr

/-- hdr->bh_caplen, a u_int32_t. -/
def bh_caplen (H : headers) (buf : List Nat) (p : Nat) : Nat :=
  H.bh_caplen (bpf_hdr_at H buf p) % 4294967296

/-- hdr->bh_datalen, a u_int32_t. -/
def bh_datalen (H : headers) (buf : List Nat) (p : Nat) : Nat :=
  H.bh_datalen (bpf_hdr_at H buf p) % 4294967296

/-- hdr->bh_hdrlen, a u_int16_t. -/
def bh_hdrlen (H : headers) (buf : List Nat) (p : Nat) : Nat :=
  H.bh_hdrlen (bpf_hdr_at H buf p) % 65536

/-- hdr->bh_hdrlen + hdr->bh_caplen, computed in unsigned int. -/
def bh_sum (H : headers) (buf : List Nat) (p : Nat) : Nat :=
  (bh_hdrlen H buf p + bh_caplen H buf p) % 4294967296

/-- The while loop of bpf_receive (frontend.c 716-741) run for at most fuel iterations on the
capture buffer buf: p is the offset of the read pointer, rem the remaining byte count (a ssize_t)
and imsg_dhcp the message struct the loop reuses. The result lists the IMSG_DHCP messages composed
to the engine, in order; none when the iterations are used up before the loop is left. -/
def bpf_receive_loop (H : headers) (buf : List Nat) :
    Nat → Nat → Int → imsg_dhcp → Option (List imsg_dhcp)
  | 0, _, rem, _ => if rem > 0 then none else some []
  | fuel + 1, p, rem, imsg_dhcp =>
    if rem > 0 then
      if rem.toNat < H.sizeof_bpf_hdr then
        -- packet too short
        some []
      else if bh_caplen H buf p ≠ bh_datalen H buf p then
        -- skipping truncated packet
        bpf_receive_loop H buf fuel (p + H.BPF_WORDALIGN (bh_sum H buf p))
          (to_ssize_t H (rem - H.BPF_WORDALIGN (bh_sum H buf p))) imsg_dhcp
      else if rem < bh_sum H buf p then
        -- we are done
        some []
      else if bh_caplen H buf p > H.sizeof_imsg_dhcp_packet then
        -- packet too big
        bpf_receive_loop H buf fuel (p + H.BPF_WORDALIGN (bh_sum H buf p))
          (to_ssize_t H (rem - H.BPF_WORDALIGN (bh_sum H buf p))) imsg_dhcp
      else
        let imsg_dhcp := { imsg_dhcp with
          packet := memcpy imsg_dhcp.packet 0
            ((buf.drop (p + bh_hdrlen H buf p)).take (bh_caplen H buf p))
          len := bh_caplen H buf p }
        (bpf_receive_loop H buf fuel (p + H.BPF_WORDALIGN (bh_sum H buf p))
          (to_ssize_t H (rem - H.BPF_WORDALIGN (bh_sum H buf p))) imsg_dhcp).map
            (fun rest => imsg_dhcp :: rest)
    else some []

/-- The loop of bpf_receive, started at offset p with rem bytes left, leaves after finitely many
iterations having composed exactly the messages frames. -/
def bpf_forwards (H : headers) (buf : List Nat) (p : Nat) (rem : Int) (imsg : imsg_dhcp)
    (frames : List imsg_dhcp) : Prop :=
  ∃ fuel, bpf_receive_loop H buf fuel p rem imsg = some frames

/-- The struct imsg_dhcp of bpf_receive before the loop: zeroed, then if_index set. -/
def imsg_dhcp_init (H : headers) (if_index : Nat) : imsg_dhcp :=
  { if_index := if_index, len := 0, packet := List.replicate H.sizeof_imsg_dhcp_packet 0 }

/-- A struct bpf_hdr as OpenBSD/amd64 lays it out (little endian): time stamp, bh_caplen,
bh_datalen, bh_hdrlen and six more bytes. -/
def sample_bpf_hdr (caplen datalen hdrlen : Nat) : List Nat :=
  [0, 0, 0, 0, 0, 0, 0, 0] ++ (be32 caplen).reverse ++ (be32 datalen).reverse ++
    (be16 hdrlen).reverse ++ [0, 0, 0, 0, 0, 0]

/-- A capture buffer with one record of 5 captured bytes, padded to the word-aligned stride 32,
and 3 leftover bytes. -/
def sample_one_record : List Nat :=
  sample_bpf_hdr 5 5 24 ++ [1, 2, 3, 4, 5, 0, 0, 0] ++ [9, 9, 9]

/-- A capture buffer with a truncated record (5 of 6 bytes captured) followed by a complete record
of 3 bytes. -/
def sample_truncated_first : List Nat :=
  sample_bpf_hdr 5 6 24 ++ [1, 2, 3, 4, 5, 0, 0, 0] ++ sample_bpf_hdr 3 3 24 ++ [7, 8, 9, 0]

/-! ## bpf_receive, one iteration at a time -/

/-- One iteration of the while loop of bpf_receive (frontend.c 716-741) from the read offset p,
the remaining count rem and the message struct imsg (imsg_dhcp in the source): none when the loop is left (the
condition is false, the return of "packet too short" or the break of "we are done"), otherwise
the offset, count and struct after the label cont, and the IMSG_DHCP composed in the iteration
if there is one. -/
def bpf_receive_step (H : headers) (buf : List Nat) (p : Nat) (rem : Int) (imsg : imsg_dhcp) :
    Option ((Nat × Int × imsg_dhcp) × Option imsg_dhcp) :=
  if rem > 0 then
    if rem.toNat < H.sizeof_bpf_hdr then none
    else if bh_caplen H buf p ≠ bh_datalen H buf p then
      some ((p + H.BPF_WORDALIGN (bh_sum H buf p),
        to_ssize_t H (rem - H.BPF_WORDALIGN (bh_sum H buf p)), imsg), none)
    else if rem < bh_sum H buf p then none
    else if bh_caplen H buf p > H.sizeof_imsg_dhcp_packet then
      some ((p + H.BPF_WORDALIGN (bh_sum H buf p),
        to_ssize_t H (rem - H.BPF_WORDALIGN (bh_sum H buf p)), imsg), none)
    else
      let imsg := { imsg with
        packet := memcpy imsg.packet 0
          ((buf.drop (p + bh_hdrlen H buf p)).take (bh_caplen H buf p))
        len := bh_caplen H buf p }
      some ((p + H.BPF_WORDALIGN (bh_sum H buf p),
        to_ssize_t H (rem - H.BPF_WORDALIGN (bh_sum H buf p)), imsg), some imsg)
  else none

/-- The offset, count and message struct after n iterations of the loop of bpf_receive started
at (p, rem, imsg); none when the loop is left before. -/
def bpf_receive_run (H : headers) (buf : List Nat) :
    Nat → Nat → Int → imsg_dhcp → Option (Nat × Int × imsg_dhcp)
  | 0, p, rem, imsg => some (p, rem, imsg)
  | n + 1, p, rem, imsg =>
    match bpf_receive_step H buf p rem imsg with
    | none => none
    | some ((p, rem, imsg), _) => bpf_receive_run H buf n p rem imsg

/-- What the claims say of a message composed from the record at offset o of a read of len
bytes: the header lies in the bytes read, captured and actual length agree, the captured length
is within the payload capacity, header length plus captured length does not wrap in 32 bits and
ends within the bytes read, and the message carries that length and exactly those bytes. -/
def frame_from_record (H : headers) (buf : List Nat) (len : Nat) (o : Nat) (frame : imsg_dhcp) :
    Prop :=
  o + H.sizeof_bpf_hdr ≤ len ∧
  bh_caplen H buf o = bh_datalen H buf o ∧
  bh_caplen H buf o ≤ H.sizeof_imsg_dhcp_packet ∧
  bh_hdrlen H buf o + bh_caplen H buf o < 4294967296 ∧
  o + bh_hdrlen H buf o + bh_caplen H buf o ≤ len ∧
  frame.len = bh_caplen H buf o ∧
  frame.packet.take frame.len = (buf.drop (o + bh_hdrlen H buf o)).take (bh_caplen H buf o) ∧
  ((buf.drop (o + bh_hdrlen H buf o)).take (bh_caplen H buf o)).length = bh_caplen H buf o

/-- A capture buffer of 24 zero bytes: one struct bpf_hdr of OpenBSD/amd64 whose bh_hdrlen,
bh_caplen and bh_datalen are all zero. -/
def sample_zero_record : List Nat := List.replicate 24 0

/-- A capture buffer of 24 bytes: one struct bpf_hdr of OpenBSD/amd64 with bh_hdrlen 24 and
bh_caplen = bh_datalen = 4294967272, so that bh_hdrlen + bh_caplen is 4294967296 and the
unsigned int sum the code computes is zero. -/
def sample_wrapped_record : List Nat := sample_bpf_hdr 4294967272 4294967272 24

/-! ## get_rtaddrs -/

/-- The macro ROUNDUP (frontend.c 673-674). -/
def ROUNDUP (H : headers) (a : Nat) : Nat :=
  if a > 0 then 1 + ((a - 1) ||| (H.sizeof_long - 1)) else H.sizeof_long

/-- The for loop of get_rtaddrs from index i on, n indexes to go: addrs holds the bits of the int
bitmask, sa is the offset of the walking pointer in the sockaddr block and sa_len o is the sa_len
field of the struct sockaddr found at offset o. The result lists the slots written, a pointer as
its offset, NULL as none. -/
def get_rtaddrs_from (H : headers) (addrs : Nat) (sa_len : Nat → Nat) :
    Nat → Nat → Nat → List (Option Nat)
  | 0, _, _ => []
  | n + 1, i, sa =>
    if addrs &&& (1 <<< i) ≠ 0 then
      some sa :: get_rtaddrs_from H addrs sa_len n (i + 1) (sa + ROUNDUP H (sa_len sa))
    else
      none :: get_rtaddrs_from H addrs sa_len n (i + 1) sa

/-- get_rtaddrs (frontend.c 676-689): the table rti_info after the call, slots 0 to
RTAX_MAX - 1. -/
def get_rtaddrs (H : headers) (addrs : Nat) (sa : Nat) (sa_len : Nat → Nat) :
    List (Option Nat) :=
  get_rtaddrs_from H addrs sa_len H.RTAX_MAX 0 sa

/-- A length rounded up to a multiple of sizeof(long), a zero length counting as
sizeof(long). -/
def round_up_long (H : headers) (a : Nat) : Nat :=
  if a = 0 then H.sizeof_long else (a + H.sizeof_long - 1) / H.sizeof_long * H.sizeof_long

/-- Offset in the block at which the address of position i lies if present: the block start plus
the rounded lengths of the addresses present at earlier positions. -/
def rtaddr_offset (H : headers) (addrs : Nat) (sa : Nat) (sa_len : Nat → Nat) : Nat → Nat
  | 0 => sa
  | i + 1 =>
    if addrs.testBit i then
      rtaddr_offset H addrs sa sa_len i + round_up_long H (sa_len (rtaddr_offset H addrs sa sa_len i))
    else rtaddr_offset H addrs sa sa_len i

/-- The sa_len fields of a block of two addresses: 16 bytes at offset 0, then 6 bytes. -/
def sample_sa_len (o : Nat) : Nat := if o = 0 then 16 else 6

/-! ## Interfaces, descriptors and messages -/

/-- The bits of a C int as a natural number (two's complement, 32 bits). -/
def int_bits (x : Int) : Nat := (x % 4294967296).toNat

/-- A struct event of libevent as far as frontend.c uses it: the descriptor EVENT_FD reads, the
flag event_initialized tests (set by event_set) and whether event_add put it on the loop. -/
structure event where
  ev_fd : Int
  initialized : Bool
  added : Bool
deriving DecidableEq, Repr

/-- A struct event in zeroed memory. -/
def event_zero : event := { ev_fd := 0, initialized := false, added := false }

/-- event_set(ev, fd, ...). -/
def event_set (_ev : event) (fd : Int) : event :=
  { ev_fd := fd, initialized := true, added := false }

/-- event_add(ev, NULL). -/
def event_add (ev : event) : event := { ev with added := true }

/-- event_del(ev). -/
def event_del (ev : event) : event := { ev with added := false }

/-- struct iface (frontend.c 66-78); bpfev_ev and bpfev_buf are the members of bpfev. -/
structure iface where
  bpfev_ev : event
  bpfev_buf : List Nat
  hw_address : ether_addr
  if_index : Nat
  rdomain : Int
  send_discover : Int
  xid : Nat
  requested_ip : Nat
  server_identifier : Nat
  dhcp_server : Nat
  udpsock : Int
deriving DecidableEq, Repr

/-- struct imsg_ifinfo of dhcpleased.h. -/
structure imsg_ifinfo where
  if_index : Nat
  rdomain : Int
  running : Bool
  link_state : Nat
  hw_address : ether_addr
deriving DecidableEq, Repr

/-- A message composed to the main or the engine process. -/
inductive imsg_out where
  | OPEN_BPFSOCK (if_index : Nat)
  | UPDATE_IF (ifinfo : imsg_ifinfo)
  | REMOVE_IF (if_index : Nat)
  | DHCP (dhcp : imsg_dhcp)
  | REPROPOSE_RDNS
deriving DecidableEq, Repr

/-- A call on a descriptor, or into control.c, that the frontend makes. -/
inductive call where
  | close (fd : Int)
  | writev (fd : Int) (iov : List (List Nat))
  | sendto (fd : Int) (packet : List Nat) (sin_addr sin_port : Nat)
  | control_listen (fd : Int)
  | control_imsg_relay
deriving DecidableEq, Repr

/-- The globals of frontend.c and what the process has done so far: the interface list, the
scratch packet buffer, the engine channel (its descriptor once IMSG_SOCKET_IPC arrived), the
routing socket event, the messages composed to main and to the engine, and the calls made, each
list oldest first. -/
structure frontend where
  interfaces : List iface
  dhcp_packet : List Nat
  iev_engine : Option Int
  ev_route : event
  to_main : List imsg_out
  to_engine : List imsg_out
  calls : List call
deriving DecidableEq, Repr

/-- One entry of getifaddrs as update_iface reads it: the name and, unless ifa_addr is NULL, the
address family and the link-layer fields. -/
structure ifaddrs where
  ifa_name : String
  ifa_addr : Option (Nat × Nat × Nat × Nat × ether_addr)
deriving DecidableEq, Repr

/-- What the kernel and libc answer: the three ioctl queries by interface name (none when the
ioctl fails), getifaddrs (none when it fails), if_nameindex (none when it fails) and the
gethostname call of build_packet. An ifa_addr is (sa_family, ifi_link_state, sdl_type, sdl_alen,
LLADDR). -/
structure kernel where
  SIOCGIFFLAGS : String → Option Int
  SIOCGIFXFLAGS : String → Option Int
  SIOCGIFRDOMAIN : String → Option Int
  getifaddrs : Option (List ifaddrs)
  if_nameindex : Option (List (Nat × String))
  gethostname : Option (List Nat)

/-- get_flags (frontend.c 440-451). -/
def get_flags (K : kernel) (if_name : String) : Int :=
  match K.SIOCGIFFLAGS if_name with
  | none => -1
  | some ifr_flags => ifr_flags

/-- get_xflags (frontend.c 453-464). -/
def get_xflags (K : kernel) (if_name : String) : Int :=
  match K.SIOCGIFXFLAGS if_name with
  | none => -1
  | some ifr_flags => ifr_flags

/-- get_ifrdomain (frontend.c 466-477). -/
def get_ifrdomain (K : kernel) (if_name : String) : Int :=
  match K.SIOCGIFRDOMAIN if_name with
  | none => -1
  | some ifr_rdomainid => ifr_rdomainid

/-- get_iface_by_id (frontend.c 927-938): the position in the list of the first interface with
the index, which stands for the pointer returned; none for NULL. -/
def get_iface_by_id : List iface → Nat → Option Nat
  | [], _ => none
  | iface :: rest, if_index =>
    if iface.if_index = if_index then some 0
    else (get_iface_by_id rest if_index).map (· + 1)

/-- Assignment through an interface pointer: the interface at position n becomes f of it. -/
def set_iface (interfaces : List iface) (n : Nat) (f : iface → iface) : List iface :=
  match interfaces[n]? with
  | some iface => interfaces.set n (f iface)
  | none => interfaces

/-- frontend_imsg_compose_main. -/
def frontend_imsg_compose_main (s : frontend) (m : imsg_out) : frontend :=
  { s with to_main := s.to_main ++ [m] }

/-- frontend_imsg_compose_engine. -/
def frontend_imsg_compose_engine (s : frontend) (m : imsg_out) : frontend :=
  { s with to_engine := s.to_engine ++ [m] }

/-- close(fd). -/
def close (s : frontend) (fd : Int) : frontend :=
  { s with calls := s.calls ++ [call.close fd] }

/-- An interface in zeroed memory, as calloc returns it. -/
def iface_zero (H : headers) : iface :=
  { bpfev_ev := event_zero, bpfev_buf := List.replicate H.BPFLEN 0,
    hw_address := ⟨0, 0, 0, 0, 0, 0⟩, if_index := 0, rdomain := 0, send_discover := 0, xid := 0,
    requested_ip := 0, server_identifier := 0, dhcp_server := 0, udpsock := 0 }

/-- The getifaddrs loop of update_iface (frontend.c 531-551): the link state found so far and,
when the loop left through the label out, the hardware address copied. -/
def scan_ifaddrs (H : headers) (if_name : String) : List ifaddrs → Nat → Nat × Option ether_addr
  | [], link_state => (link_state, none)
  | ifa :: rest, link_state =>
    if if_name ≠ ifa.ifa_name then scan_ifaddrs H if_name rest link_state
    else
      match ifa.ifa_addr with
      | none => scan_ifaddrs H if_name rest link_state
      | some (sa_family, ifi_link_state, sdl_type, sdl_alen, lladdr) =>
        if sa_family = H.AF_LINK then
          if sdl_type ≠ H.IFT_ETHER ∨ sdl_alen ≠ ETHER_ADDR_LEN then
            scan_ifaddrs H if_name rest ifi_link_state
          else (ifi_link_state, some lladdr)
        else scan_ifaddrs H if_name rest link_state

/-- update_iface (frontend.c 479-560). The interface pointer is the position n in the list. The
result is none when the process exits through fatal (getifaddrs failed); calloc is taken to
succeed. -/
def update_iface (H : headers) (K : kernel) (s : frontend) (if_index : Nat) (if_name : String) :
    Option frontend :=
  let flags := get_flags K if_name
  if flags = -1 then some s
  else
    let xflags := get_xflags K if_name
    if xflags = -1 then some s
    else if int_bits xflags &&& H.IFXF_AUTOCONF4 = 0 then some s
    else
      let ifrdomain := get_ifrdomain K if_name
      if ifrdomain = -1 then some s
      else
        let (s, n) :=
          match get_iface_by_id s.interfaces if_index with
          | some n =>
            match s.interfaces[n]? with
            | some iface =>
              if iface.rdomain ≠ ifrdomain then
                let s := { s with
                  interfaces := set_iface s.interfaces n (fun i => { i with rdomain := ifrdomain }) }
                if iface.udpsock ≠ -1 then
                  let s := close s iface.udpsock
                  ({ s with
                    interfaces := set_iface s.interfaces n (fun i => { i with udpsock := -1 }) }, n)
                else (s, n)
              else (s, n)
            | none => (s, n)
          | none =>
            let iface := { iface_zero H with
              if_index := if_index, rdomain := ifrdomain, udpsock := -1 }
            let s := { s with interfaces := iface :: s.interfaces }
            (frontend_imsg_compose_main s (imsg_out.OPEN_BPFSOCK if_index), 0)
        let running := int_bits flags &&& (H.IFF_UP ||| H.IFF_RUNNING) =
          (H.IFF_UP ||| H.IFF_RUNNING)
        match K.getifaddrs with
        | none => none
        | some ifap =>
          let (link_state, lladdr) := scan_ifaddrs H if_name ifap 0
          let s :=
            match lladdr with
            | some a =>
              { s with
                interfaces := set_iface s.interfaces n (fun i => { i with hw_address := a }) }
            | none => s
          match s.interfaces[n]? with
          | none => some s
          | some iface =>
            some (frontend_imsg_compose_main s (imsg_out.UPDATE_IF
              { if_index := if_index, rdomain := ifrdomain, running := running,
                link_state := link_state, hw_address := iface.hw_address }))

/-- frontend_startup (frontend.c 562-581) after event_add(&ev_route): update_iface for each entry
of if_nameindex up to the terminating one. -/
def frontend_startup_loop (H : headers) (K : kernel) :
    List (Nat × String) → frontend → Option frontend
  | [], s => some s
  | (if_index, if_name) :: rest, s =>
    if if_index = 0 then some s
    else
      match update_iface H K s if_index if_name with
      | none => none
      | some s => frontend_startup_loop H K rest s

/-- frontend_startup (frontend.c 562-581). -/
def frontend_startup (H : headers) (K : kernel) (s : frontend) : Option frontend :=
  if ¬ s.ev_route.initialized then none
  else
    let s := { s with ev_route := event_add s.ev_route }
    match K.if_nameindex with
    | none => none
    | some ifnidxp => frontend_startup_loop H K ifnidxp s

/-! ## Sending packets -/

/-- sizeof(struct ip). -/
def sizeof_ip : Nat := 20

/-- sizeof(struct udphdr). -/
def sizeof_udphdr : Nat := 8

/-- The struct ip of bpf_send_packet with the given checksum field. -/
def ip_bytes (H : headers) (len ip_sum : Nat) : List Nat :=
  [69, H.IPTOS_LOWDELAY] ++ be16 ((sizeof_ip + sizeof_udphdr + len) % 65536) ++ [0, 0] ++ [0, 0] ++
    [128, H.IPPROTO_UDP] ++ store16 H (ip_sum % 65536) ++ store32 H 0 ++
    store32 H H.INADDR_BROADCAST

/-- The struct udphdr of bpf_send_packet with the given checksum field. -/
def udp_bytes (H : headers) (len uh_sum : Nat) : List Nat :=
  be16 H.CLIENT_PORT ++ be16 H.SERVER_PORT ++ be16 ((sizeof_udphdr + len) % 65536) ++
    store16 H (uh_sum % 65536)

/-- bpf_send_packet (frontend.c 864-925): the Ethernet, IP and UDP headers and the packet go out
in one writev on EVENT_FD(&iface->bpfev.ev). -/
def bpf_send_packet (H : headers) (s : frontend) (iface : iface) (packet : List Nat) (len : Nat) :
    frontend :=
  let eh := [255, 255, 255, 255, 255, 255] ++ iface.hw_address.ether_addr_octet ++
    be16 H.ETHERTYPE_IP
  let ip := ip_bytes H len 0
  let ip := ip_bytes H len (H.wrapsum (H.checksum ip 0))
  let udp := udp_bytes H len 0
  let uh_sum := H.wrapsum (H.checksum udp
    (H.checksum (packet.take len)
      (H.checksum ((ip.drop 12).take 8) (H.IPPROTO_UDP + (sizeof_udphdr + len) % 65536))))
  let udp := udp_bytes H len uh_sum
  { s with calls := s.calls ++ [call.writev iface.bpfev_ev.ev_fd [eh, ip, udp, packet.take len]] }

/-- udp_send_packet (frontend.c 848-863). -/
def udp_send_packet (H : headers) (s : frontend) (iface : iface) (packet : List Nat) (len : Nat) :
    frontend :=
  { s with calls := s.calls ++
      [call.sendto iface.udpsock (packet.take len) iface.dhcp_server H.SERVER_PORT] }

/-- send_discover (frontend.c 817-832) on the interface at position n. The NULL server
identifier is passed as 0; build_packet reads it for DHCPREQUEST only. -/
def send_discover (H : headers) (K : kernel) (s : frontend) (n : Nat) : frontend :=
  match s.interfaces[n]? with
  | none => s
  | some iface =>
    if ¬ iface.bpfev_ev.initialized then
      { s with interfaces := set_iface s.interfaces n (fun i => { i with send_discover := 1 }) }
    else
      let s := { s with
        interfaces := set_iface s.interfaces n (fun i => { i with send_discover := 0 }) }
      let (pkt_len, dhcp_packet) := build_packet H K.gethostname s.dhcp_packet H.DHCPDISCOVER
        iface.xid iface.hw_address iface.requested_ip 0
      let s := { s with dhcp_packet := dhcp_packet }
      bpf_send_packet H s iface s.dhcp_packet pkt_len

/-- send_request (frontend.c 834-846) on the interface at position n. -/
def send_request (H : headers) (K : kernel) (s : frontend) (n : Nat) : frontend :=
  match s.interfaces[n]? with
  | none => s
  | some iface =>
    let (pkt_len, dhcp_packet) := build_packet H K.gethostname s.dhcp_packet H.DHCPREQUEST
      iface.xid iface.hw_address iface.requested_ip iface.server_identifier
    let s := { s with dhcp_packet := dhcp_packet }
    if iface.dhcp_server ≠ INADDR_ANY then udp_send_packet H s iface s.dhcp_packet pkt_len
    else bpf_send_packet H s iface s.dhcp_packet pkt_len

/-- remove_iface (frontend.c 940-956). -/
def remove_iface (s : frontend) (if_index : Nat) : frontend :=
  match get_iface_by_id s.interfaces if_index with
  | none => s
  | some n =>
    match s.interfaces[n]? with
    | none => s
    | some iface =>
      let s := { s with interfaces := s.interfaces.eraseIdx n }
      let s := close s (event_del iface.bpfev_ev).ev_fd
      if iface.udpsock ≠ -1 then close s iface.udpsock else s

/-- set_bpfsock (frontend.c 958-978). -/
def set_bpfsock (H : headers) (K : kernel) (s : frontend) (bpfsock : Int) (if_index : Nat) :
    frontend :=
  match get_iface_by_id s.interfaces if_index with
  | none => close s bpfsock
  | some n =>
    let s := { s with
      interfaces := set_iface s.interfaces n
        (fun i => { i with bpfev_ev := event_add (event_set i.bpfev_ev bpfsock) }) }
    match s.interfaces[n]? with
    | none => s
    | some iface => if iface.send_discover ≠ 0 then send_discover H K s n else s

/-- bpf_receive (frontend.c 691-742) for the interface at position n: read is what
read(fd, iface->bpfev.buf, BPFLEN) returned, none for -1 and the bytes read otherwise. The result
is none when the record loop is not left within fuel iterations. -/
def bpf_receive (H : headers) (s : frontend) (n : Nat) (read : Option (List Nat)) (fuel : Nat) :
    Option frontend :=
  match s.interfaces[n]? with
  | none => some s
  | some iface =>
    match read with
    | none => some s
    | some data =>
      let buf := memcpy iface.bpfev_buf 0 data
      let s := { s with interfaces := set_iface s.interfaces n (fun i => { i with bpfev_buf := buf }) }
      let len := data.length
      match bpf_receive_loop H buf fuel 0 len (imsg_dhcp_init H iface.if_index) with
      | none => none
      | some frames => some { s with to_engine := s.to_engine ++ frames.map imsg_out.DHCP }

/-! ## The imsg dispatchers -/

/-- A message from the main process as frontend_dispatch_main reads it: the descriptor that came
with it (-1 for none) and the payload, none when IMSG_DATA_SIZE is not the expected size. -/
inductive imsg_main where
  | SOCKET_IPC (fd : Int)
  | BPFSOCK (fd : Int) (if_index : Option Nat)
  | UDPSOCK (fd : Int) (if_index : Option Nat)
  | CLOSE_UDPSOCK (if_index : Option Nat)
  | ROUTESOCK (fd : Int)
  | STARTUP
  | CONTROLFD (fd : Int)
  | CTL_END
  | other
deriving DecidableEq, Repr

/-- struct imsg_req_discover of dhcpleased.h. -/
structure imsg_req_discover where
  if_index : Nat
  xid : Nat
deriving DecidableEq, Repr

/-- struct imsg_req_request of dhcpleased.h. -/
structure imsg_req_request where
  if_index : Nat
  xid : Nat
  requested_ip : Nat
  server_identifier : Nat
  dhcp_server : Nat
deriving DecidableEq, Repr

/-- A message from the engine process as frontend_dispatch_engine reads it; the payload is none
when IMSG_DATA_SIZE is not the expected size. -/
inductive imsg_engine where
  | CTL_END
  | CTL_SHOW_INTERFACE_INFO
  | SEND_DISCOVER (data : Option imsg_req_discover)
  | SEND_REQUEST (data : Option imsg_req_request)
  | other
deriving DecidableEq, Repr

/-- The for loop of frontend_dispatch_main (frontend.c 239-342) over the messages imsg_get
yields; fd is the local variable of that name, which starts as the descriptor of the event. The
result is none when the process exits through fatal. -/
def frontend_dispatch_main_loop (H : headers) (K : kernel) :
    List imsg_main → Int → frontend → Option frontend
  | [], _, s => some s
  | imsg :: rest, fd, s =>
    match imsg with
    | imsg_main.SOCKET_IPC imsg_fd =>
      if s.iev_engine.isSome then none
      else
        let fd := imsg_fd
        if fd = -1 then none
        else frontend_dispatch_main_loop H K rest fd { s with iev_engine := some fd }
    | imsg_main.BPFSOCK imsg_fd data =>
      let bpfsock := imsg_fd
      if bpfsock = -1 then none
      else
        match data with
        | none => none
        | some if_index =>
          frontend_dispatch_main_loop H K rest fd (set_bpfsock H K s bpfsock if_index)
    | imsg_main.UDPSOCK imsg_fd data =>
      let udpsock := imsg_fd
      if udpsock = -1 then none
      else
        match data with
        | none => none
        | some if_index =>
          match get_iface_by_id s.interfaces if_index with
          | none => frontend_dispatch_main_loop H K rest fd (close s fd)
          | some n =>
            match s.interfaces[n]? with
            | none => frontend_dispatch_main_loop H K rest fd s
            | some iface =>
              if iface.udpsock ≠ -1 then none
              else
                frontend_dispatch_main_loop H K rest fd { s with
                  interfaces := set_iface s.interfaces n (fun i => { i with udpsock := udpsock }) }
    | imsg_main.CLOSE_UDPSOCK data =>
      match data with
      | none => none
      | some if_index =>
        match get_iface_by_id s.interfaces if_index with
        | none => frontend_dispatch_main_loop H K rest fd s
        | some n =>
          match s.interfaces[n]? with
          | none => frontend_dispatch_main_loop H K rest fd s
          | some iface =>
            if iface.udpsock ≠ -1 then
              let s := close s iface.udpsock
              frontend_dispatch_main_loop H K rest fd { s with
                interfaces := set_iface s.interfaces n (fun i => { i with udpsock := -1 }) }
            else frontend_dispatch_main_loop H K rest fd s
    | imsg_main.ROUTESOCK imsg_fd =>
      let fd := imsg_fd
      if fd = -1 then none
      else frontend_dispatch_main_loop H K rest fd { s with ev_route := event_set s.ev_route fd }
    | imsg_main.STARTUP =>
      match frontend_startup H K s with
      | none => none
      | some s => frontend_dispatch_main_loop H K rest fd s
    | imsg_main.CONTROLFD imsg_fd =>
      let fd := imsg_fd
      if fd = -1 then none
      else
        frontend_dispatch_main_loop H K rest fd
          { s with calls := s.calls ++ [call.control_listen fd] }
    | imsg_main.CTL_END =>
      frontend_dispatch_main_loop H K rest fd
        { s with calls := s.calls ++ [call.control_imsg_relay] }
    | imsg_main.other => frontend_dispatch_main_loop H K rest fd s

/-- frontend_dispatch_main (frontend.c 216-350) called for the descriptor fd with the messages
msgs waiting on the channel. -/
def frontend_dispatch_main (H : headers) (K : kernel) (s : frontend) (fd : Int)
    (msgs : List imsg_main) : Option frontend :=
  frontend_dispatch_main_loop H K msgs fd s

/-- The for loop of frontend_dispatch_engine (frontend.c 375-430) over the messages imsg_get
yields. The result is none when the process exits through fatal. -/
def frontend_dispatch_engine_loop (H : headers) (K : kernel) :
    List imsg_engine → frontend → Option frontend
  | [], s => some s
  | imsg :: rest, s =>
    match imsg with
    | imsg_engine.CTL_END =>
      frontend_dispatch_engine_loop H K rest
        { s with calls := s.calls ++ [call.control_imsg_relay] }
    | imsg_engine.CTL_SHOW_INTERFACE_INFO =>
      frontend_dispatch_engine_loop H K rest
        { s with calls := s.calls ++ [call.control_imsg_relay] }
    | imsg_engine.SEND_DISCOVER data =>
      match data with
      | none => none
      | some imsg_req_discover =>
        match get_iface_by_id s.interfaces imsg_req_discover.if_index with
        | some n =>
          let s := { s with
            interfaces := set_iface s.interfaces n (fun i => { i with xid := imsg_req_discover.xid }) }
          frontend_dispatch_engine_loop H K rest (send_discover H K s n)
        | none => frontend_dispatch_engine_loop H K rest s
    | imsg_engine.SEND_REQUEST data =>
      match data with
      | none => none
      | some imsg_req_request =>
        match get_iface_by_id s.interfaces imsg_req_request.if_index with
        | some n =>
          let s := { s with
            interfaces := set_iface s.interfaces n (fun i => { i with
              xid := imsg_req_request.xid
              requested_ip := imsg_req_request.requested_ip
              server_identifier := imsg_req_request.server_identifier
              dhcp_server := imsg_req_request.dhcp_server }) }
          frontend_dispatch_engine_loop H K rest (send_request H K s n)
        | none => frontend_dispatch_engine_loop H K rest s
    | imsg_engine.other => frontend_dispatch_engine_loop H K rest s

/-- frontend_dispatch_engine (frontend.c 352-438) with the messages msgs waiting on the
channel. -/
def frontend_dispatch_engine (H : headers) (K : kernel) (s : frontend)
    (msgs : List imsg_engine) : Option frontend :=
  frontend_dispatch_engine_loop H K msgs s

/-! ## Concrete states for runs -/

/-- A kernel with the interface em0: up and running, autoconf4 set, routing domain 1, one
link-layer address; host name "host.lan". -/
def sample_kernel : kernel :=
  { SIOCGIFFLAGS := fun _ => some 65
    SIOCGIFXFLAGS := fun _ => some 128
    SIOCGIFRDOMAIN := fun _ => some 1
    getifaddrs := some [{ ifa_name := "em0", ifa_addr := some (18, 2, 6, 6, ⟨0, 17, 34, 51, 68, 85⟩) }]
    if_nameindex := some [(1, "em0")]
    gethostname := some [104, 111, 115, 116, 46, 108, 97, 110] }

/-- A frontend with no interface and nothing done yet. -/
def frontend_empty : frontend :=
  { interfaces := [], dhcp_packet := List.replicate 1500 0, iev_engine := none,
    ev_route := event_zero, to_main := [], to_engine := [], calls := [] }

/-- The interface em0 as update_iface creates it in routing domain 0, before any descriptor is
granted. -/
def sample_iface : iface :=
  { bpfev_ev := event_zero, bpfev_buf := [], hw_address := ⟨0, 17, 34, 51, 68, 85⟩, if_index := 1,
    rdomain := 0, send_discover := 0, xid := 0, requested_ip := 0, server_identifier := 0,
    dhcp_server := 0, udpsock := -1 }

/-- The interface em0 holding the capture descriptor 5 and the transmit descriptor 6. -/
def sample_iface_both : iface :=
  { sample_iface with bpfev_ev := event_add (event_set event_zero 5), udpsock := 6 }

/-! ## What frontend_startup is expected to do -/

/-- From the specification: an interface is eligible when its flag, extended-flag and
routing-domain queries succeed and its extended flags include IFXF_AUTOCONF4. -/
def spec_eligible (H : headers) (K : kernel) (if_name : String) : Bool :=
  match K.SIOCGIFFLAGS if_name, K.SIOCGIFXFLAGS if_name, K.SIOCGIFRDOMAIN if_name with
  | some _, some xflags, some _ => decide (int_bits xflags &&& H.IFXF_AUTOCONF4 ≠ 0)
  | _, _, _ => false

/-- The value -1, by which get_flags, get_xflags and get_ifrdomain report a failed ioctl, is
not the answer of a successful one. -/
@[reducible] def kernel.answers_valid (K : kernel) : Prop :=
  ∀ if_name : String, K.SIOCGIFFLAGS if_name ≠ some (-1) ∧
    K.SIOCGIFXFLAGS if_name ≠ some (-1) ∧ K.SIOCGIFRDOMAIN if_name ≠ some (-1)

/-- The interface indexes of the IMSG_OPEN_BPFSOCK messages in a list of messages, in order. -/
def open_bpfsock_indexes (ms : List imsg_out) : List Nat :=
  ms.filterMap fun m =>
    match m with
    | imsg_out.OPEN_BPFSOCK if_index => some if_index
    | _ => none

/-- The interface indexes of the IMSG_UPDATE_IF messages in a list of messages, in order. -/
def update_if_indexes (ms : List imsg_out) : List Nat :=
  ms.filterMap fun m =>
    match m with
    | imsg_out.UPDATE_IF ifinfo => some ifinfo.if_index
    | _ => none

/-- A kernel with two interfaces: lo0 (index 1) without autoconf4 and em0 (index 2) with
autoconf4 set, up and running, in routing domain 0. -/
def sample_kernel_two : kernel :=
  { SIOCGIFFLAGS := fun _ => some 65
    SIOCGIFXFLAGS := fun if_name => if if_name = "em0" then some 128 else some 0
    SIOCGIFRDOMAIN := fun _ => some 0
    getifaddrs := some [{ ifa_name := "lo0", ifa_addr := none },
      { ifa_name := "em0", ifa_addr := some (18, 2, 6, 6, ⟨0, 17, 34, 51, 68, 85⟩) }]
    if_nameindex := some [(1, "lo0"), (2, "em0")]
    gethostname := some [104, 111, 115, 116, 46, 108, 97, 110] }

/-- A frontend with no interface that has received the route socket, descriptor 3. -/
def frontend_routed : frontend :=
  { frontend_empty with ev_route := event_set event_zero 3 }

/-! ## Theorems: build_packet -/

theorem memcpy_length (dst : List Nat) (p : Nat) (src : List Nat)
    (h : p + src.length ≤ dst.length) : (memcpy dst p src).length = dst.length := by
  simp [memcpy]; omega

theorem memcpy_append_left (a b : List Nat) (p : Nat) (src : List Nat)
    (h : p + src.length ≤ a.length) : memcpy (a ++ b) p src = memcpy a p src ++ b := by
  have h1 : p ≤ a.length := by omega
  simp [memcpy, List.take_append_of_le_length h1, List.drop_append_of_le_length h]

theorem memcpy_zeros (pre tl : List Nat) (k : Nat) (src : List Nat) (p : Nat)
    (hp : p = pre.length) (h : src.length ≤ k) :
    memcpy (pre ++ (List.replicate k 0 ++ tl)) p src =
      (pre ++ src) ++ (List.replicate (k - src.length) 0 ++ tl) := by
  subst hp
  simp [memcpy, List.drop_append_of_le_length, h]

/-- The host name as a C string with its first dot replaced by NUL, as build_packet leaves it. -/
theorem strchr_cut (name rest : List Nat) (h0 : ∀ b ∈ name, b ≠ 0) :
    ∃ rest2, rest2.length = (name.dropWhile (fun b => b != 46)).length + rest.length ∧
      (match strchr (name ++ 0 :: rest) 46 with
        | some c => (name ++ 0 :: rest).set c 0
        | none => name ++ 0 :: rest) = name.takeWhile (fun b => b != 46) ++ 0 :: rest2 := by
  induction name with
  | nil => exact ⟨rest, by simp, by simp [strchr]⟩
  | cons b name ih =>
    have hb : b ≠ 0 := h0 b (by simp)
    obtain ⟨r2, hl, he⟩ := ih (fun x hx => h0 x (by simp [hx]))
    by_cases h46 : b = 46
    · subst h46
      exact ⟨name ++ 0 :: rest, by simp; omega, by simp [strchr]⟩
    · refine ⟨r2, by simpa [h46] using hl, ?_⟩
      simp only [List.cons_append, strchr, if_neg h46, if_neg hb]
      cases hs : strchr (name ++ 0 :: rest) 46 with
      | none => rw [hs] at he; simpa [h46] using he
      | some c => rw [hs] at he; simpa [h46] using he

theorem strlen_append_nul (a rest : List Nat) (h0 : ∀ b ∈ a, b ≠ 0) :
    strlen (a ++ 0 :: rest) = a.length := by
  induction a with
  | nil => simp [strlen]
  | cons b a ih =>
    have hb : b ≠ 0 := h0 b (by simp)
    simp [strlen, hb, ih (fun x hx => h0 x (by simp [hx]))]


theorem store32_length (H : headers) (v : Nat) : (store32 H v).length = 4 := by
  unfold store32 be32; split <;> simp

theorem store16_length (H : headers) (v : Nat) : (store16 H v).length = 2 := by
  unfold store16 be16; split <;> simp

theorem hostname_array (HOST : Nat) (name : List Nat) (hlen : name.length ≤ 252)
    (h0 : ∀ b ∈ name, b ≠ 0) :
    let a0 := memcpy (HOST :: List.replicate 254 0) 2 (name ++ [0])
    let a1 := match strchr (a0.drop 2) 46 with
      | some c => a0.set (2 + c) 0
      | none => a0
    let a2 := a1.set 1 (strlen (a1.drop 2) % 256)
    a2.getD 1 0 = (name.takeWhile (fun b => b != 46)).length ∧
    a2.take ((name.takeWhile (fun b => b != 46)).length + 2) =
      HOST :: (name.takeWhile (fun b => b != 46)).length :: name.takeWhile (fun b => b != 46) := by
  intro a0 a1 a2
  have htw : (name.takeWhile (fun b => b != 46)).length ≤ name.length :=
    (List.takeWhile_sublist _).length_le
  have e0 : a0 = HOST :: 0 :: (name ++ 0 :: List.replicate (252 - name.length) 0) := by
    have hrep : List.replicate 254 (0 : Nat) = 0 :: List.replicate 253 0 :=
      List.replicate_succ 0 253
    have hk : 253 - (name.length + 1) = 252 - name.length := by omega
    simp only [a0, memcpy, hrep, List.take_succ_cons, List.take_zero, List.length_append,
      List.length_cons, List.length_nil, Nat.add_comm 2 _, List.drop_succ_cons,
      List.drop_replicate, Nat.zero_add, hk]
    simp
  obtain ⟨r2, hr2, hcut⟩ := strchr_cut name (List.replicate (252 - name.length) 0) h0
  have e1 : a1 = HOST :: 0 :: (name.takeWhile (fun b => b != 46) ++ 0 :: r2) := by
    simp only [a1, e0, List.drop_succ_cons, List.drop_zero]
    rw [← hcut]
    cases strchr (name ++ 0 :: List.replicate (252 - name.length) 0) 46 with
    | none => rfl
    | some c => simp [Nat.add_comm 2 c]
  have hno : ∀ b ∈ name.takeWhile (fun b => b != 46), b ≠ 0 :=
    fun b hb => h0 b ((List.takeWhile_sublist _).subset hb)
  have e2 : a2 = HOST :: (name.takeWhile (fun b => b != 46)).length ::
      (name.takeWhile (fun b => b != 46) ++ 0 :: r2) := by
    simp only [a2, e1, List.drop_succ_cons, List.drop_zero, List.set_cons_succ, List.set_cons_zero]
    rw [strlen_append_nul _ _ hno, Nat.mod_eq_of_lt (by omega)]
  rw [e2]
  simp

theorem build_packet_eq_fold (H : headers) (gh : Option (List Nat)) (old : List Nat)
    (mt xid : Nat) (hw : ether_addr) (rip sid : Nat) :
    build_packet H gh old mt xid hw rip sid =
      (((packet_chunks H gh mt hw rip sid).foldl emit
          (header_stage H old xid hw, 0 + H.sizeof_dhcp_hdr)).2,
       ((packet_chunks H gh mt hw rip sid).foldl emit
          (header_stage H old xid hw, 0 + H.sizeof_dhcp_hdr)).1) := by
  unfold build_packet packet_chunks header_stage hostname_array_of
  cases gh <;> by_cases hmt : mt = H.DHCPREQUEST <;> by_cases hsid : sid = INADDR_ANY <;>
    simp only [hmt, hsid, ne_eq, not_true_eq_false, not_false_eq_true, if_false, if_true,
      List.cons_append, List.nil_append, List.foldl_cons, List.foldl_nil, emit,
      List.set_cons_succ, List.set_cons_zero, List.length_cons, List.length_nil, List.append_nil]


theorem foldl_emit (chunks : List (List Nat × Nat)) (tl : List Nat)
    (hc : ∀ c ∈ chunks, c.2 = c.1.length) :
    ∀ (pre : List Nat) (k : Nat), (chunks.map Prod.fst).flatten.length ≤ k →
      chunks.foldl emit (pre ++ (List.replicate k 0 ++ tl), pre.length) =
        ((pre ++ (chunks.map Prod.fst).flatten) ++
          (List.replicate (k - (chunks.map Prod.fst).flatten.length) 0 ++ tl),
          (pre ++ (chunks.map Prod.fst).flatten).length) := by
  induction chunks with
  | nil => intro pre k _; simp
  | cons c cs ih =>
    intro pre k hk
    simp only [List.map_cons, List.flatten_cons, List.length_append] at hk
    have hc1 : c.2 = c.1.length := hc c (by simp)
    have hstep : emit (pre ++ (List.replicate k 0 ++ tl), pre.length) c =
        ((pre ++ c.1) ++ (List.replicate (k - c.1.length) 0 ++ tl), (pre ++ c.1).length) := by
      simp only [emit, List.length_append, hc1]
      rw [memcpy_zeros pre tl k c.1 pre.length rfl (by omega)]
    rw [List.foldl_cons, hstep,
      ih (fun x hx => hc x (by simp [hx])) (pre ++ c.1) (k - c.1.length) (by omega)]
    simp only [List.map_cons, List.flatten_cons, List.append_assoc, List.length_append, Nat.sub_sub]

theorem hostname_array_eq (H : headers) (name : List Nat) (hlen : name.length ≤ 252)
    (h0 : ∀ b ∈ name, b ≠ 0) :
    (hostname_array_of H name).getD 1 0 = (name.takeWhile (fun b => b != 46)).length ∧
    (hostname_array_of H name).take ((name.takeWhile (fun b => b != 46)).length + 2) =
      H.DHO_HOST_NAME :: (name.takeWhile (fun b => b != 46)).length ::
        name.takeWhile (fun b => b != 46) :=
  hostname_array H.DHO_HOST_NAME name hlen h0

theorem packet_chunks_join (H : headers) (gh : Option (List Nat)) (mt : Nat) (hw : ether_addr)
    (rip sid : Nat) (hgh : ∀ name, gh = some name → name.length ≤ 252 ∧ ∀ b ∈ name, b ≠ 0) :
    ((packet_chunks H gh mt hw rip sid).map Prod.fst).flatten =
      H.DHCP_COOKIE ++ options_bytes H gh mt hw rip sid ++ [H.DHO_END] ∧
    ∀ c ∈ packet_chunks H gh mt hw rip sid, c.2 = c.1.length := by
  have hcid : memcpy [H.DHO_DHCP_CLIENT_IDENTIFIER, 7, H.HTYPE_ETHER, 0, 0, 0, 0, 0, 0] 3
      hw.ether_addr_octet =
      H.DHO_DHCP_CLIENT_IDENTIFIER :: 7 :: H.HTYPE_ETHER :: hw.ether_addr_octet := by
    simp [memcpy, ether_addr.ether_addr_octet]
  have hopt4 : ∀ (t v : Nat), memcpy [t, 4, 0, 0, 0, 0] 2 (store32 H v) = t :: 4 :: store32 H v := by
    intro t v
    simp [memcpy, store32_length]
  unfold packet_chunks options_bytes
  simp only [hcid, hopt4]
  cases gh with
  | none =>
    by_cases hmt : mt = H.DHCPREQUEST <;> by_cases hsid : sid = INADDR_ANY <;>
      simp [hmt, hsid]
  | some name =>
    obtain ⟨hl, h0⟩ := hgh name rfl
    obtain ⟨k1, k2⟩ := hostname_array_eq H name hl h0
    simp only [k1, k2]
    by_cases hmt : mt = H.DHCPREQUEST <;> by_cases hsid : sid = INADDR_ANY <;>
      simp [hmt, hsid]


theorem decode_encode (END : Nat) (os : List (Nat × List Nat)) (h : ∀ o ∈ os, o.1 ≠ END) :
    ∀ fuel, os.length < fuel → decode_options END fuel (encode_options os ++ [END]) = some os := by
  induction os with
  | nil =>
    intro fuel hf
    obtain ⟨f, rfl⟩ : ∃ f, fuel = f + 1 := ⟨fuel - 1, by simp at hf; omega⟩
    simp [encode_options, decode_options]
  | cons o os ih =>
    intro fuel hf
    obtain ⟨f, rfl⟩ : ∃ f, fuel = f + 1 := ⟨fuel - 1, by simp at hf; omega⟩
    have ho : o.1 ≠ END := h o (by simp)
    have ih2 := ih (fun x hx => h x (by simp [hx])) f (by simp at hf; omega)
    have hsplit : encode_options (o :: os) ++ [END] =
        o.1 :: o.2.length :: (o.2 ++ (encode_options os ++ [END])) := by
      simp [encode_options]
    rw [hsplit]
    simp [decode_options, ho, ih2]

theorem encode_options_length_ge (os : List (Nat × List Nat)) :
    os.length ≤ (encode_options os).length := by
  induction os with
  | nil => simp [encode_options]
  | cons o os ih =>
    simp only [encode_options, List.map_cons, List.flatten_cons, List.length_append,
      List.length_cons] at ih ⊢
    omega

theorem options_bytes_eq_encode (H : headers) (gh : Option (List Nat))
    (mt : Nat) (hw : ether_addr) (rip sid : Nat) :
    options_bytes H gh mt hw rip sid = encode_options (expected_options H gh mt hw rip sid) := by
  unfold options_bytes expected_options encode_options
  cases gh <;> by_cases hmt : mt = H.DHCPREQUEST <;> by_cases hsid : sid = INADDR_ANY <;>
    simp [hmt, hsid, store32_length, ether_addr.ether_addr_octet]

theorem hdr_write (n : Nat) (a Z : List Nat) (off : Nat) (src : List Nat) (ha : a.length = n)
    (h : off + src.length ≤ n) :
    ∃ a2, a2.length = n ∧ memcpy (a ++ Z) off src = a2 ++ Z :=
  ⟨memcpy a off src, by rw [memcpy_length a off src (by omega), ha],
    memcpy_append_left a Z off src (by omega)⟩

theorem hdr_write_uniform (n : Nat) (a : List Nat) (off : Nat) (src : List Nat)
    (ha : a.length = n) (h : off + src.length ≤ n) :
    ∃ a2, a2.length = n ∧ ∀ Z, memcpy (a ++ Z) off src = a2 ++ Z :=
  ⟨memcpy a off src, by rw [memcpy_length a off src (by omega), ha],
    fun Z => memcpy_append_left a Z off src (by omega)⟩

theorem header_stage_uniform (H : headers) (xid : Nat) (hw : ether_addr)
    (hin : H.dhcp_hdr_fields_inside) (hfit : H.sizeof_dhcp_hdr ≤ sizeof_dhcp_packet) :
    ∃ hdr : List Nat, hdr.length = H.sizeof_dhcp_hdr ∧ ∀ old : List Nat,
      header_stage H old xid hw = hdr ++ (List.replicate (sizeof_dhcp_packet - H.sizeof_dhcp_hdr) 0
        ++ old.drop sizeof_dhcp_packet) := by
  obtain ⟨h1, h2, h3, h4, h5, h6, h7⟩ := hin
  simp only [ETHER_ADDR_LEN, sizeof_dhcp_packet] at *
  have hmem : ∀ old, memset old 0 1500 = List.replicate H.sizeof_dhcp_hdr 0 ++
      (List.replicate (1500 - H.sizeof_dhcp_hdr) 0 ++ List.drop 1500 old) := by
    intro old
    rw [memset, ← List.append_assoc, ← List.replicate_add]
    congr 2; omega
  obtain ⟨a1, l1, e1⟩ := hdr_write_uniform H.sizeof_dhcp_hdr (List.replicate H.sizeof_dhcp_hdr 0)
    (0 + H.off_op) [H.DHCP_BOOTREQUEST] (by simp) (by simp; omega)
  obtain ⟨a2, l2, e2⟩ := hdr_write_uniform H.sizeof_dhcp_hdr a1 (0 + H.off_htype)
    [H.HTYPE_ETHER] l1 (by simp; omega)
  obtain ⟨a3, l3, e3⟩ := hdr_write_uniform H.sizeof_dhcp_hdr a2 (0 + H.off_hlen)
    [6] l2 (by simp; omega)
  obtain ⟨a4, l4, e4⟩ := hdr_write_uniform H.sizeof_dhcp_hdr a3 (0 + H.off_hops)
    [0] l3 (by simp; omega)
  obtain ⟨a5, l5, e5⟩ := hdr_write_uniform H.sizeof_dhcp_hdr a4 (0 + H.off_xid)
    (store32 H xid) l4 (by simp [store32_length]; omega)
  obtain ⟨a6, l6, e6⟩ := hdr_write_uniform H.sizeof_dhcp_hdr a5 (0 + H.off_secs)
    (store16 H 0) l5 (by simp [store16_length]; omega)
  obtain ⟨a7, l7, e7⟩ := hdr_write_uniform H.sizeof_dhcp_hdr a6 (0 + H.off_chaddr)
    hw.ether_addr_octet l6 (by simp [ether_addr.ether_addr_octet]; omega)
  refine ⟨a7, l7, fun old => ?_⟩
  unfold header_stage
  simp only [sizeof_dhcp_packet]
  rw [hmem, e1, e2, e3, e4, e5, e6, e7]

theorem header_stage_eq (H : headers) (old : List Nat) (xid : Nat) (hw : ether_addr)
    (hin : H.dhcp_hdr_fields_inside) (hfit : H.sizeof_dhcp_hdr ≤ sizeof_dhcp_packet) :
    ∃ hdr : List Nat, hdr.length = H.sizeof_dhcp_hdr ∧
      header_stage H old xid hw = hdr ++ (List.replicate (sizeof_dhcp_packet - H.sizeof_dhcp_hdr) 0
        ++ old.drop sizeof_dhcp_packet) := by
  obtain ⟨hdr, hl, he⟩ := header_stage_uniform H xid hw hin hfit
  exact ⟨hdr, hl, he old⟩

theorem options_bytes_length (H : headers) (gh : Option (List Nat))
    (mt : Nat) (hw : ether_addr) (rip sid : Nat) :
    (options_bytes H gh mt hw rip sid).length =
      3 + host_name_option_size gh + 9 + 10 + (if mt = H.DHCPREQUEST then 6 else 0) +
      (if mt = H.DHCPREQUEST ∧ sid ≠ INADDR_ANY then 6 else 0) := by
  unfold options_bytes host_name_option_size
  cases gh <;> by_cases hmt : mt = H.DHCPREQUEST <;> by_cases hsid : sid = INADDR_ANY <;>
    simp [hmt, hsid, store32_length, ether_addr.ether_addr_octet] <;> omega

theorem build_packet_layout_uniform (H : headers) (gh : Option (List Nat))
    (mt xid : Nat) (hw : ether_addr) (rip sid : Nat)
    (hin : H.dhcp_hdr_fields_inside)
    (hfit : H.sizeof_dhcp_hdr + H.DHCP_COOKIE.length + 289 ≤ sizeof_dhcp_packet)
    (hgh : gethostname_ok gh) :
    ∃ hdr : List Nat, hdr.length = H.sizeof_dhcp_hdr ∧ ∀ old : List Nat,
      build_packet H gh old mt xid hw rip sid =
        ((hdr ++ (H.DHCP_COOKIE ++ options_bytes H gh mt hw rip sid ++ [H.DHO_END])).length,
         (hdr ++ (H.DHCP_COOKIE ++ options_bytes H gh mt hw rip sid ++ [H.DHO_END])) ++
          (List.replicate (sizeof_dhcp_packet - H.sizeof_dhcp_hdr -
            (H.DHCP_COOKIE ++ options_bytes H gh mt hw rip sid ++ [H.DHO_END]).length) 0
            ++ old.drop sizeof_dhcp_packet)) := by
  have hgh2 : ∀ name, gh = some name → name.length ≤ 252 ∧ ∀ b ∈ name, b ≠ 0 := by
    intro name hn
    subst hn
    exact ⟨by have := hgh.1; omega, hgh.2⟩
  obtain ⟨hdr, hl, he⟩ := header_stage_uniform H xid hw hin (by omega)
  obtain ⟨hj, hc⟩ := packet_chunks_join H gh mt hw rip sid hgh2
  have hlen := options_bytes_length H gh mt hw rip sid
  have htw : host_name_option_size gh ≤ 254 := by
    cases gh with
    | none => simp [host_name_option_size]
    | some name =>
      have := (List.takeWhile_sublist (fun b => b != 46) (l := name)).length_le
      have := (hgh2 name rfl).1
      simp only [host_name_option_size]
      omega
  have hk : ((packet_chunks H gh mt hw rip sid).map Prod.fst).flatten.length ≤
      sizeof_dhcp_packet - H.sizeof_dhcp_hdr := by
    rw [hj]
    simp only [List.length_append, hlen, List.length_singleton]
    split_ifs <;> omega
  refine ⟨hdr, hl, fun old => ?_⟩
  rw [build_packet_eq_fold, he old, Nat.zero_add, ← hl,
    foldl_emit _ _ hc hdr _ (by rw [hl]; exact hk), hj]

theorem build_packet_layout (H : headers) (gh : Option (List Nat)) (old : List Nat)
    (mt xid : Nat) (hw : ether_addr) (rip sid : Nat)
    (hin : H.dhcp_hdr_fields_inside)
    (hfit : H.sizeof_dhcp_hdr + H.DHCP_COOKIE.length + 289 ≤ sizeof_dhcp_packet)
    (hgh : gethostname_ok gh) :
    ∃ hdr : List Nat, hdr.length = H.sizeof_dhcp_hdr ∧
      build_packet H gh old mt xid hw rip sid =
        ((hdr ++ (H.DHCP_COOKIE ++ options_bytes H gh mt hw rip sid ++ [H.DHO_END])).length,
         (hdr ++ (H.DHCP_COOKIE ++ options_bytes H gh mt hw rip sid ++ [H.DHO_END])) ++
          (List.replicate (sizeof_dhcp_packet - H.sizeof_dhcp_hdr -
            (H.DHCP_COOKIE ++ options_bytes H gh mt hw rip sid ++ [H.DHO_END]).length) 0
            ++ old.drop sizeof_dhcp_packet)) := by
  obtain ⟨hdr, hl, he⟩ := build_packet_layout_uniform H gh mt xid hw rip sid hin hfit hgh
  exact ⟨hdr, hl, he old⟩

theorem getElem?_end_marker (x rest : List Nat) (e : Nat) :
    (x ++ [e] ++ rest)[(x ++ [e]).length - 1]? = some e := by
  rw [List.append_assoc, List.length_append, List.length_singleton, Nat.add_sub_cancel,
    List.getElem?_append_right (Nat.le_refl _)]
  simp

theorem take_drop_layout (hdr cookie body rest : List Nat) :
    ((hdr ++ cookie ++ body ++ rest).take (hdr ++ cookie ++ body).length).drop
      (hdr.length + cookie.length) = body := by
  rw [List.take_left, ← List.length_append, List.drop_left]

theorem expected_options_tags (H : headers) (gh : Option (List Nat))
    (mt : Nat) (hw : ether_addr) (rip sid : Nat) (o : Nat × List Nat)
    (ho : o ∈ expected_options H gh mt hw rip sid) :
    o.1 = H.DHO_DHCP_MESSAGE_TYPE ∨ o.1 = H.DHO_HOST_NAME ∨
    o.1 = H.DHO_DHCP_CLIENT_IDENTIFIER ∨ o.1 = H.DHO_DHCP_PARAMETER_REQUEST_LIST ∨
    (mt = H.DHCPREQUEST ∧ o.1 = H.DHO_DHCP_REQUESTED_ADDRESS) ∨
    (mt = H.DHCPREQUEST ∧ sid ≠ INADDR_ANY ∧ o.1 = H.DHO_DHCP_SERVER_IDENTIFIER) := by
  unfold expected_options at ho
  simp only [List.mem_append, List.mem_cons, List.mem_singleton, List.not_mem_nil, or_false]
    at ho
  rcases ho with (((h | h) | h) | h) | h
  · left; rw [h]
  · cases gh with
    | none => simp at h
    | some name =>
      simp only [List.mem_singleton] at h
      right; left; rw [h]
  · rcases h with h | h
    · right; right; left; rw [h]
    · right; right; right; left; rw [h]
  · split_ifs at h with hmt
    · simp only [List.mem_singleton] at h
      right; right; right; right; left; exact ⟨hmt, by rw [h]⟩
    · simp at h
  · split_ifs at h with hmt
    · simp only [List.mem_singleton] at h
      right; right; right; right; right; exact ⟨hmt.1, hmt.2, by rw [h]⟩
    · simp at h

/-- C1: the length build_packet returns is sizeof(dhcp_hdr) + 4 (cookie) + 3 (message type) +
(2 + n when the host name was obtained, n the length of the name cut at its first dot) +
9 (client identifier) + 10 (parameter request list) + 6 for a REQUEST + 6 more for a REQUEST
whose server identifier is not 0.0.0.0 + 1, and the byte of dhcp_packet just before that length
is DHO_END. -/
theorem build_packet_length (H : headers) (gh : Option (List Nat)) (old : List Nat)
    (mt xid : Nat) (hw : ether_addr) (rip sid : Nat)
    (hin : H.dhcp_hdr_fields_inside) (hcookie : H.DHCP_COOKIE.length = 4)
    (hfit : H.sizeof_dhcp_hdr + 293 ≤ sizeof_dhcp_packet) (hgh : gethostname_ok gh) :
    (build_packet H gh old mt xid hw rip sid).1 =
      H.sizeof_dhcp_hdr + 4 + 3 + host_name_option_size gh + 9 + 10 +
        (if mt = H.DHCPREQUEST then 6 else 0) +
        (if mt = H.DHCPREQUEST ∧ sid ≠ INADDR_ANY then 6 else 0) + 1 ∧
    (build_packet H gh old mt xid hw rip sid).2[(build_packet H gh old mt xid hw rip sid).1 - 1]? =
      some H.DHO_END := by
  obtain ⟨hdr, hl, he⟩ := build_packet_layout H gh old mt xid hw rip sid hin
    (by rw [hcookie]; omega) hgh
  have hlen := options_bytes_length H gh mt hw rip sid
  rw [he]
  constructor
  · simp only [List.length_append, hl, hcookie, hlen, List.length_singleton]
    omega
  · simp only
    rw [← List.append_assoc hdr, ← List.append_assoc hdr]
    exact getElem?_end_marker _ _ _

/-- A run of C1: a REQUEST on OpenBSD/amd64 with host name "host.lan" and no server identifier. -/
theorem build_packet_length_witness :
    (openbsd_amd64.dhcp_hdr_fields_inside ∧ openbsd_amd64.DHCP_COOKIE.length = 4 ∧
      openbsd_amd64.sizeof_dhcp_hdr + 293 ≤ sizeof_dhcp_packet ∧
      gethostname_ok (some [104, 111, 115, 116, 46, 108, 97, 110])) ∧
    ((build_packet openbsd_amd64 (some [104, 111, 115, 116, 46, 108, 97, 110])
        (List.replicate 1500 170) 3 305419896 ⟨0, 17, 34, 51, 68, 85⟩ 16777226 0).1 =
      openbsd_amd64.sizeof_dhcp_hdr + 4 + 3 +
        host_name_option_size (some [104, 111, 115, 116, 46, 108, 97, 110]) + 9 + 10 +
        (if 3 = openbsd_amd64.DHCPREQUEST then 6 else 0) +
        (if 3 = openbsd_amd64.DHCPREQUEST ∧ 0 ≠ INADDR_ANY then 6 else 0) + 1 ∧
    (build_packet openbsd_amd64 (some [104, 111, 115, 116, 46, 108, 97, 110])
        (List.replicate 1500 170) 3 305419896 ⟨0, 17, 34, 51, 68, 85⟩ 16777226 0).2[
      (build_packet openbsd_amd64 (some [104, 111, 115, 116, 46, 108, 97, 110])
        (List.replicate 1500 170) 3 305419896 ⟨0, 17, 34, 51, 68, 85⟩ 16777226 0).1 - 1]? =
      some openbsd_amd64.DHO_END) :=
  ⟨⟨by decide, by decide, by decide, by decide⟩,
    build_packet_length openbsd_amd64 (some [104, 111, 115, 116, 46, 108, 97, 110])
      (List.replicate 1500 170) 3 305419896 ⟨0, 17, 34, 51, 68, 85⟩ 16777226 0
      (by decide) (by decide) (by decide) (by decide)⟩

/-- C2: the bytes between the cookie and the returned length decode, as tag-length-value
options closed by the end option as last byte, to exactly the expected options in order; a
REQUEST with server identifier 0.0.0.0 has no server-identifier option and any other message type
than REQUEST has neither a requested-address nor a server-identifier option. -/
theorem build_packet_options (H : headers) (gh : Option (List Nat)) (old : List Nat)
    (mt xid : Nat) (hw : ether_addr) (rip sid : Nat)
    (hin : H.dhcp_hdr_fields_inside) (hcookie : H.DHCP_COOKIE.length = 4)
    (hfit : H.sizeof_dhcp_hdr + 293 ≤ sizeof_dhcp_packet) (hgh : gethostname_ok gh)
    (htags : H.option_tags_distinct) :
    decode_options H.DHO_END (build_packet H gh old mt xid hw rip sid).1
        (((build_packet H gh old mt xid hw rip sid).2.take
          (build_packet H gh old mt xid hw rip sid).1).drop (H.sizeof_dhcp_hdr + 4)) =
      some (expected_options H gh mt hw rip sid) ∧
    (mt = H.DHCPREQUEST → sid = INADDR_ANY →
      ∀ o ∈ expected_options H gh mt hw rip sid, o.1 ≠ H.DHO_DHCP_SERVER_IDENTIFIER) ∧
    (mt ≠ H.DHCPREQUEST →
      ∀ o ∈ expected_options H gh mt hw rip sid,
        o.1 ≠ H.DHO_DHCP_REQUESTED_ADDRESS ∧ o.1 ≠ H.DHO_DHCP_SERVER_IDENTIFIER) := by
  obtain ⟨hdr, hl, he⟩ := build_packet_layout H gh old mt xid hw rip sid hin
    (by rw [hcookie]; omega) hgh
  simp only [headers.option_tags_distinct, List.nodup_cons, List.mem_cons, List.mem_singleton,
    not_or, List.not_mem_nil, not_false_eq_true, List.nodup_nil, and_true] at htags
  obtain ⟨⟨t12, t13, t14, t15, t16, t17⟩, ⟨t23, t24, t25, t26, t27⟩, ⟨t34, t35, t36, t37⟩,
    ⟨t45, t46, t47⟩, ⟨t56, t57⟩, t67⟩ := htags
  have hne : ∀ o ∈ expected_options H gh mt hw rip sid, o.1 ≠ H.DHO_END := by
    intro o ho
    rcases expected_options_tags H gh mt hw rip sid o ho with h | h | h | h | h | h
    · rw [h]; exact t17
    · rw [h]; exact t27
    · rw [h]; exact t37
    · rw [h]; exact t47
    · rw [h.2]; exact t57
    · rw [h.2.2]; exact t67
  refine ⟨?_, ?_, ?_⟩
  · rw [he]
    simp only
    rw [show H.sizeof_dhcp_hdr + 4 = hdr.length + H.DHCP_COOKIE.length by omega,
      List.append_assoc H.DHCP_COOKIE, ← List.append_assoc hdr, take_drop_layout,
      options_bytes_eq_encode]
    apply decode_encode _ _ hne
    have := encode_options_length_ge (expected_options H gh mt hw rip sid)
    simp only [List.length_append, List.length_singleton]
    omega
  · intro hmt hsid o ho
    rcases expected_options_tags H gh mt hw rip sid o ho with h | h | h | h | h | h
    · rw [h]; exact t16
    · rw [h]; exact t26
    · rw [h]; exact t36
    · rw [h]; exact t46
    · rw [h.2]; exact t56
    · exact absurd hsid h.2.1
  · intro hmt o ho
    rcases expected_options_tags H gh mt hw rip sid o ho with h | h | h | h | h | h
    · rw [h]; exact ⟨t15, t16⟩
    · rw [h]; exact ⟨t25, t26⟩
    · rw [h]; exact ⟨t35, t36⟩
    · rw [h]; exact ⟨t45, t46⟩
    · exact absurd h.1 hmt
    · exact absurd h.1 hmt

/-- A run of C2: a REQUEST on OpenBSD/amd64 with host name "host.lan" and server identifier
0.0.0.0. -/
theorem build_packet_options_witness :
    (openbsd_amd64.dhcp_hdr_fields_inside ∧ openbsd_amd64.DHCP_COOKIE.length = 4 ∧
      openbsd_amd64.sizeof_dhcp_hdr + 293 ≤ sizeof_dhcp_packet ∧
      gethostname_ok (some [104, 111, 115, 116, 46, 108, 97, 110]) ∧
      openbsd_amd64.option_tags_distinct) ∧
    (decode_options openbsd_amd64.DHO_END
        (build_packet openbsd_amd64 (some [104, 111, 115, 116, 46, 108, 97, 110])
          (List.replicate 1500 170) 3 305419896 ⟨0, 17, 34, 51, 68, 85⟩ 16777226 0).1
        (((build_packet openbsd_amd64 (some [104, 111, 115, 116, 46, 108, 97, 110])
          (List.replicate 1500 170) 3 305419896 ⟨0, 17, 34, 51, 68, 85⟩ 16777226 0).2.take
          (build_packet openbsd_amd64 (some [104, 111, 115, 116, 46, 108, 97, 110])
          (List.replicate 1500 170) 3 305419896 ⟨0, 17, 34, 51, 68, 85⟩ 16777226 0).1).drop
          (openbsd_amd64.sizeof_dhcp_hdr + 4)) =
      some (expected_options openbsd_amd64 (some [104, 111, 115, 116, 46, 108, 97, 110]) 3
        ⟨0, 17, 34, 51, 68, 85⟩ 16777226 0) ∧
    (3 = openbsd_amd64.DHCPREQUEST → 0 = INADDR_ANY →
      ∀ o ∈ expected_options openbsd_amd64 (some [104, 111, 115, 116, 46, 108, 97, 110]) 3
        ⟨0, 17, 34, 51, 68, 85⟩ 16777226 0, o.1 ≠ openbsd_amd64.DHO_DHCP_SERVER_IDENTIFIER) ∧
    (3 ≠ openbsd_amd64.DHCPREQUEST →
      ∀ o ∈ expected_options openbsd_amd64 (some [104, 111, 115, 116, 46, 108, 97, 110]) 3
        ⟨0, 17, 34, 51, 68, 85⟩ 16777226 0,
        o.1 ≠ openbsd_amd64.DHO_DHCP_REQUESTED_ADDRESS ∧
        o.1 ≠ openbsd_amd64.DHO_DHCP_SERVER_IDENTIFIER)) :=
  ⟨⟨by decide, by decide, by decide, by decide, by decide⟩,
    build_packet_options openbsd_amd64 (some [104, 111, 115, 116, 46, 108, 97, 110])
      (List.replicate 1500 170) 3 305419896 ⟨0, 17, 34, 51, 68, 85⟩ 16777226 0
      (by decide) (by decide) (by decide) (by decide) (by decide)⟩

/-- C13: two runs of build_packet with the same arguments and host-name outcome on two prior
contents of the 1500-byte scratch buffer leave the same buffer and return the same length L; L is
at most 1500, the buffer keeps its 1500 bytes and every byte from index L on is zero. -/
theorem build_packet_overwrites (H : headers) (gh : Option (List Nat)) (old1 old2 : List Nat)
    (mt xid : Nat) (hw : ether_addr) (rip sid : Nat)
    (hin : H.dhcp_hdr_fields_inside) (hcookie : H.DHCP_COOKIE.length = 4)
    (hfit : H.sizeof_dhcp_hdr + 293 ≤ sizeof_dhcp_packet) (hgh : gethostname_ok gh)
    (hold1 : old1.length = sizeof_dhcp_packet) (hold2 : old2.length = sizeof_dhcp_packet) :
    build_packet H gh old1 mt xid hw rip sid = build_packet H gh old2 mt xid hw rip sid ∧
    (build_packet H gh old1 mt xid hw rip sid).1 ≤ sizeof_dhcp_packet ∧
    (build_packet H gh old1 mt xid hw rip sid).2.length = sizeof_dhcp_packet ∧
    ∀ i, (build_packet H gh old1 mt xid hw rip sid).1 ≤ i → i < sizeof_dhcp_packet →
      (build_packet H gh old1 mt xid hw rip sid).2[i]? = some 0 := by
  obtain ⟨hdr, hl, he⟩ := build_packet_layout_uniform H gh mt xid hw rip sid hin
    (by rw [hcookie]; omega) hgh
  have hlen := options_bytes_length H gh mt hw rip sid
  have hd1 : old1.drop sizeof_dhcp_packet = [] := List.drop_eq_nil_of_le (by omega)
  have hd2 : old2.drop sizeof_dhcp_packet = [] := List.drop_eq_nil_of_le (by omega)
  have htw : host_name_option_size gh ≤ 254 := by
    cases gh with
    | none => simp [host_name_option_size]
    | some name =>
      have := (List.takeWhile_sublist (fun b => b != 46) (l := name)).length_le
      have := hgh.1
      simp only [host_name_option_size]
      omega
  have hL : (hdr ++ (H.DHCP_COOKIE ++ options_bytes H gh mt hw rip sid ++ [H.DHO_END])).length ≤
      sizeof_dhcp_packet := by
    simp only [List.length_append, hl, hcookie, hlen, List.length_singleton]
    split_ifs <;> omega
  have hbody : (H.DHCP_COOKIE ++ options_bytes H gh mt hw rip sid ++ [H.DHO_END]).length =
      (hdr ++ (H.DHCP_COOKIE ++ options_bytes H gh mt hw rip sid ++ [H.DHO_END])).length -
        H.sizeof_dhcp_hdr := by
    simp only [List.length_append, hl]
    omega
  refine ⟨by rw [he old1, he old2, hd1, hd2], ?_, ?_, ?_⟩
  · rw [he old1]; exact hL
  · rw [he old1, hd1]
    simp only [List.length_append, List.length_replicate, List.length_nil, Nat.add_zero] at hL ⊢
    omega
  · intro i h1 h2
    rw [he old1, hd1] at h1 ⊢
    simp only [List.append_nil] at h1 ⊢
    rw [List.getElem?_append_right h1, List.getElem?_replicate]
    simp only [List.length_append, List.length_replicate, List.length_nil, Nat.add_zero,
      List.length_singleton] at hL h1 ⊢
    rw [if_pos (by omega)]

/-- A run of C13 on OpenBSD/amd64: a REQUEST built over a buffer of 170s and over a buffer of
zeros. -/
theorem build_packet_overwrites_witness :
    (openbsd_amd64.dhcp_hdr_fields_inside ∧ openbsd_amd64.DHCP_COOKIE.length = 4 ∧
      openbsd_amd64.sizeof_dhcp_hdr + 293 ≤ sizeof_dhcp_packet ∧
      gethostname_ok (some [104, 111, 115, 116, 46, 108, 97, 110]) ∧
      (List.replicate 1500 170).length = sizeof_dhcp_packet ∧
      (List.replicate 1500 0).length = sizeof_dhcp_packet) ∧
    (build_packet openbsd_amd64 (some [104, 111, 115, 116, 46, 108, 97, 110])
        (List.replicate 1500 170) 3 305419896 ⟨0, 17, 34, 51, 68, 85⟩ 16777226 0 =
      build_packet openbsd_amd64 (some [104, 111, 115, 116, 46, 108, 97, 110])
        (List.replicate 1500 0) 3 305419896 ⟨0, 17, 34, 51, 68, 85⟩ 16777226 0 ∧
    (build_packet openbsd_amd64 (some [104, 111, 115, 116, 46, 108, 97, 110])
        (List.replicate 1500 170) 3 305419896 ⟨0, 17, 34, 51, 68, 85⟩ 16777226 0).1 ≤
      sizeof_dhcp_packet ∧
    (build_packet openbsd_amd64 (some [104, 111, 115, 116, 46, 108, 97, 110])
        (List.replicate 1500 170) 3 305419896 ⟨0, 17, 34, 51, 68, 85⟩ 16777226 0).2.length =
      sizeof_dhcp_packet ∧
    ∀ i, (build_packet openbsd_amd64 (some [104, 111, 115, 116, 46, 108, 97, 110])
        (List.replicate 1500 170) 3 305419896 ⟨0, 17, 34, 51, 68, 85⟩ 16777226 0).1 ≤ i →
      i < sizeof_dhcp_packet →
      (build_packet openbsd_amd64 (some [104, 111, 115, 116, 46, 108, 97, 110])
        (List.replicate 1500 170) 3 305419896 ⟨0, 17, 34, 51, 68, 85⟩ 16777226 0).2[i]? =
        some 0) :=
  ⟨⟨by decide, by decide, by decide, by decide, List.length_replicate 1500 170,
      List.length_replicate 1500 0⟩,
    build_packet_overwrites openbsd_amd64 (some [104, 111, 115, 116, 46, 108, 97, 110])
      (List.replicate 1500 170) (List.replicate 1500 0) 3 305419896 ⟨0, 17, 34, 51, 68, 85⟩
      16777226 0 (by decide) (by decide) (by decide) (by decide) (List.length_replicate 1500 170)
      (List.length_replicate 1500 0)⟩

/-! ## Theorems: bpf_receive -/

theorem ssize_max_ge (H : headers) (hlong : 4 ≤ H.sizeof_long) :
    2147483648 ≤ H.SSIZE_MAX + 1 := by
  unfold headers.SSIZE_MAX
  have h1 : 2 ^ 31 ≤ 2 ^ (8 * H.sizeof_long - 1) :=
    Nat.pow_le_pow_right (by decide) (by omega)
  have h2 : 0 < 2 ^ (8 * H.sizeof_long - 1) := Nat.two_pow_pos _
  omega

theorem to_ssize_t_id (H : headers) (x : Int) (h1 : -((H.SSIZE_MAX + 1 : Nat) : Int) ≤ x)
    (h2 : x < ((H.SSIZE_MAX + 1 : Nat) : Int)) : to_ssize_t H x = x := by
  unfold to_ssize_t
  rw [Int.emod_eq_of_lt (by omega) (by omega)]
  omega

theorem bpf_loop_short (H : headers) (buf : List Nat) (fuel p : Nat) (rem : Int)
    (imsg : imsg_dhcp) (h1 : rem > 0) (h2 : rem.toNat < H.sizeof_bpf_hdr) :
    bpf_receive_loop H buf (fuel + 1) p rem imsg = some [] := by
  rw [bpf_receive_loop, if_pos h1, if_pos h2]

theorem bpf_loop_truncated (H : headers) (buf : List Nat) (fuel p : Nat) (rem : Int)
    (imsg : imsg_dhcp) (h1 : rem > 0) (h2 : ¬ rem.toNat < H.sizeof_bpf_hdr)
    (h3 : bh_caplen H buf p ≠ bh_datalen H buf p) :
    bpf_receive_loop H buf (fuel + 1) p rem imsg =
      bpf_receive_loop H buf fuel (p + H.BPF_WORDALIGN (bh_sum H buf p))
        (to_ssize_t H (rem - H.BPF_WORDALIGN (bh_sum H buf p))) imsg := by
  rw [bpf_receive_loop, if_pos h1, if_neg h2, if_pos h3]

theorem bpf_loop_forward (H : headers) (buf : List Nat) (fuel p : Nat) (rem : Int)
    (imsg : imsg_dhcp) (h1 : rem > 0) (h2 : ¬ rem.toNat < H.sizeof_bpf_hdr)
    (h3 : bh_caplen H buf p = bh_datalen H buf p) (h4 : ¬ rem < bh_sum H buf p)
    (h5 : bh_caplen H buf p ≤ H.sizeof_imsg_dhcp_packet) :
    bpf_receive_loop H buf (fuel + 1) p rem imsg =
      (bpf_receive_loop H buf fuel (p + H.BPF_WORDALIGN (bh_sum H buf p))
        (to_ssize_t H (rem - H.BPF_WORDALIGN (bh_sum H buf p)))
        { imsg with
          packet := memcpy imsg.packet 0
            ((buf.drop (p + bh_hdrlen H buf p)).take (bh_caplen H buf p))
          len := bh_caplen H buf p }).map
        (fun rest => { imsg with
          packet := memcpy imsg.packet 0
            ((buf.drop (p + bh_hdrlen H buf p)).take (bh_caplen H buf p))
          len := bh_caplen H buf p } :: rest) := by
  rw [bpf_receive_loop, if_pos h1, if_neg h2, if_neg (not_not.mpr h3), if_neg h4,
    if_neg (Nat.not_lt.mpr h5)]

/-- C3: a capture buffer holding one complete record with captured length equal to actual
length, not above the payload capacity and wholly present, followed after the word-aligned stride
by k leftover bytes, 1 ≤ k < sizeof(struct bpf_hdr), makes the loop of bpf_receive compose exactly
one message, of length the captured length and with the bytes after the record header as payload,
and then leave. -/
theorem bpf_receive_one_record (H : headers) (buf : List Nat) (len k if_index fuel : Nat)
    (hlong : 4 ≤ H.sizeof_long) (hbpflen : H.BPFLEN < 2147483648)
    (hlen : len ≤ H.BPFLEN) (hbuf : len ≤ buf.length)
    (hhdr : H.sizeof_bpf_hdr ≤ len)
    (hcap : bh_caplen H buf 0 = bh_datalen H buf 0)
    (hL : bh_caplen H buf 0 ≤ H.sizeof_imsg_dhcp_packet)
    (hpresent : bh_hdrlen H buf 0 + bh_caplen H buf 0 ≤ len)
    (hstride : len = H.BPF_WORDALIGN (bh_hdrlen H buf 0 + bh_caplen H buf 0) + k)
    (hk1 : 1 ≤ k) (hk2 : k < H.sizeof_bpf_hdr) (hfuel : 2 ≤ fuel) :
    ∃ frame : imsg_dhcp,
      bpf_receive_loop H buf fuel 0 len (imsg_dhcp_init H if_index) = some [frame] ∧
      frame.if_index = if_index ∧ frame.len = bh_caplen H buf 0 ∧
      frame.packet.take (bh_caplen H buf 0) =
        (buf.drop (bh_hdrlen H buf 0)).take (bh_caplen H buf 0) ∧
      ((buf.drop (bh_hdrlen H buf 0)).take (bh_caplen H buf 0)).length = bh_caplen H buf 0 := by
  obtain ⟨f, rfl⟩ : ∃ f, fuel = f + 2 := ⟨fuel - 2, by omega⟩
  have hM := ssize_max_ge H hlong
  have hsum : bh_sum H buf 0 = bh_hdrlen H buf 0 + bh_caplen H buf 0 := by
    unfold bh_sum
    exact Nat.mod_eq_of_lt (by omega)
  have hpaylen : ((buf.drop (bh_hdrlen H buf 0)).take (bh_caplen H buf 0)).length =
      bh_caplen H buf 0 := by
    rw [List.length_take, List.length_drop]
    omega
  have hrem : to_ssize_t H ((len : Int) - (H.BPF_WORDALIGN (bh_hdrlen H buf 0 +
      bh_caplen H buf 0) : Nat)) = (k : Int) := by
    rw [to_ssize_t_id H _ (by omega) (by omega)]
    omega
  refine ⟨{ imsg_dhcp_init H if_index with
      packet := memcpy (imsg_dhcp_init H if_index).packet 0
        ((buf.drop (0 + bh_hdrlen H buf 0)).take (bh_caplen H buf 0))
      len := bh_caplen H buf 0 }, ?_, rfl, rfl, ?_, hpaylen⟩
  · rw [bpf_loop_forward H buf (f + 1) 0 len _ (by omega) (by rw [Int.toNat_ofNat]; omega) hcap
      (by rw [hsum]; omega) hL, hsum, hrem,
      bpf_loop_short H buf f _ k _ (by omega) (by rw [Int.toNat_ofNat]; exact hk2)]
    rfl
  · simp only [Nat.zero_add]
    simp only [memcpy, List.take_zero, List.nil_append, Nat.zero_add]
    rw [List.take_append_of_le_length (by omega), List.take_of_length_le (by omega)]

/-- A run of C3 on OpenBSD/amd64: one record of 5 bytes and 3 leftover bytes. -/
theorem bpf_receive_one_record_witness :
    (4 ≤ openbsd_amd64.sizeof_long ∧ openbsd_amd64.BPFLEN < 2147483648 ∧
      35 ≤ openbsd_amd64.BPFLEN ∧ 35 ≤ sample_one_record.length ∧
      openbsd_amd64.sizeof_bpf_hdr ≤ 35 ∧
      bh_caplen openbsd_amd64 sample_one_record 0 = bh_datalen openbsd_amd64 sample_one_record 0 ∧
      bh_caplen openbsd_amd64 sample_one_record 0 ≤ openbsd_amd64.sizeof_imsg_dhcp_packet ∧
      bh_hdrlen openbsd_amd64 sample_one_record 0 + bh_caplen openbsd_amd64 sample_one_record 0
        ≤ 35 ∧
      35 = openbsd_amd64.BPF_WORDALIGN (bh_hdrlen openbsd_amd64 sample_one_record 0 +
        bh_caplen openbsd_amd64 sample_one_record 0) + 3 ∧
      1 ≤ 3 ∧ 3 < openbsd_amd64.sizeof_bpf_hdr ∧ 2 ≤ 2) ∧
    ∃ frame : imsg_dhcp,
      bpf_receive_loop openbsd_amd64 sample_one_record 2 0 (35 : Nat)
        (imsg_dhcp_init openbsd_amd64 7) = some [frame] ∧
      frame.if_index = 7 ∧ frame.len = bh_caplen openbsd_amd64 sample_one_record 0 ∧
      frame.packet.take (bh_caplen openbsd_amd64 sample_one_record 0) =
        (sample_one_record.drop (bh_hdrlen openbsd_amd64 sample_one_record 0)).take
          (bh_caplen openbsd_amd64 sample_one_record 0) ∧
      ((sample_one_record.drop (bh_hdrlen openbsd_amd64 sample_one_record 0)).take
        (bh_caplen openbsd_amd64 sample_one_record 0)).length =
        bh_caplen openbsd_amd64 sample_one_record 0 :=
  ⟨⟨by decide, by decide, by decide, by decide, by decide, by decide, by decide, by decide,
      by decide, by decide, by decide, by decide⟩,
    bpf_receive_one_record openbsd_amd64 sample_one_record 35 3 7 2 (by decide) (by decide)
      (by decide) (by decide) (by decide) (by decide) (by decide) (by decide) (by decide)
      (by decide) (by decide) (by decide)⟩

/-- C4: when the first record of the capture buffer has a complete header and a captured length
different from its actual length, the loop of bpf_receive composes no message for it and goes on
at offset BPF_WORDALIGN(bh_hdrlen + bh_caplen) with the remaining count reduced by that stride:
the messages composed for the whole buffer are those composed from the next record on. -/
theorem bpf_receive_skips_truncated (H : headers) (buf : List Nat) (len : Nat) (imsg : imsg_dhcp)
    (hpos : 0 < len) (hhdr : H.sizeof_bpf_hdr ≤ len)
    (htrunc : bh_caplen H buf 0 ≠ bh_datalen H buf 0)
    (hlen : len ≤ H.SSIZE_MAX)
    (hstride : H.BPF_WORDALIGN (bh_sum H buf 0) ≤ H.SSIZE_MAX) :
    (∀ fuel, bpf_receive_loop H buf (fuel + 1) 0 len imsg =
      bpf_receive_loop H buf fuel (H.BPF_WORDALIGN (bh_sum H buf 0))
        ((len : Int) - H.BPF_WORDALIGN (bh_sum H buf 0)) imsg) ∧
    (∀ frames, bpf_forwards H buf 0 len imsg frames ↔
      bpf_forwards H buf (H.BPF_WORDALIGN (bh_sum H buf 0))
        ((len : Int) - H.BPF_WORDALIGN (bh_sum H buf 0)) imsg frames) := by
  have hstep : ∀ fuel, bpf_receive_loop H buf (fuel + 1) 0 len imsg =
      bpf_receive_loop H buf fuel (H.BPF_WORDALIGN (bh_sum H buf 0))
        ((len : Int) - H.BPF_WORDALIGN (bh_sum H buf 0)) imsg := by
    intro fuel
    rw [bpf_loop_truncated H buf fuel 0 len imsg (by omega) (by rw [Int.toNat_ofNat]; omega)
      htrunc, to_ssize_t_id H _ (by omega) (by omega), Nat.zero_add]
  refine ⟨hstep, fun frames => ⟨?_, ?_⟩⟩
  · rintro ⟨fuel, hf⟩
    cases fuel with
    | zero =>
      rw [bpf_receive_loop, if_pos (by omega)] at hf
      exact absurd hf (by simp)
    | succ f => exact ⟨f, by rw [← hstep f]; exact hf⟩
  · rintro ⟨fuel, hf⟩
    exact ⟨fuel + 1, by rw [hstep fuel]; exact hf⟩

/-- A run of C4 on OpenBSD/amd64: a truncated record followed by a complete one. -/
theorem bpf_receive_skips_truncated_witness :
    (0 < 60 ∧ openbsd_amd64.sizeof_bpf_hdr ≤ 60 ∧
      bh_caplen openbsd_amd64 sample_truncated_first 0 ≠
        bh_datalen openbsd_amd64 sample_truncated_first 0 ∧
      60 ≤ openbsd_amd64.SSIZE_MAX ∧
      openbsd_amd64.BPF_WORDALIGN (bh_sum openbsd_amd64 sample_truncated_first 0) ≤
        openbsd_amd64.SSIZE_MAX) ∧
    ((∀ fuel, bpf_receive_loop openbsd_amd64 sample_truncated_first (fuel + 1) 0 (60 : Nat)
        (imsg_dhcp_init openbsd_amd64 7) =
      bpf_receive_loop openbsd_amd64 sample_truncated_first fuel
        (openbsd_amd64.BPF_WORDALIGN (bh_sum openbsd_amd64 sample_truncated_first 0))
        (((60 : Nat) : Int) -
          openbsd_amd64.BPF_WORDALIGN (bh_sum openbsd_amd64 sample_truncated_first 0))
        (imsg_dhcp_init openbsd_amd64 7)) ∧
    (∀ frames, bpf_forwards openbsd_amd64 sample_truncated_first 0 (60 : Nat)
        (imsg_dhcp_init openbsd_amd64 7) frames ↔
      bpf_forwards openbsd_amd64 sample_truncated_first
        (openbsd_amd64.BPF_WORDALIGN (bh_sum openbsd_amd64 sample_truncated_first 0))
        (((60 : Nat) : Int) -
          openbsd_amd64.BPF_WORDALIGN (bh_sum openbsd_amd64 sample_truncated_first 0))
        (imsg_dhcp_init openbsd_amd64 7) frames)) :=
  ⟨⟨by decide, by decide, by decide, by decide, by decide⟩,
    bpf_receive_skips_truncated openbsd_amd64 sample_truncated_first 60
      (imsg_dhcp_init openbsd_amd64 7) (by decide) (by decide) (by decide) (by decide)
      (by decide)⟩

/-! ## Theorems: get_rtaddrs -/

theorem lor_two_pow_sub_one (x k : Nat) : x ||| (2 ^ k - 1) = 2 ^ k * (x / 2 ^ k) + (2 ^ k - 1) := by
  apply Nat.eq_of_testBit_eq
  intro j
  have hlt : 2 ^ k - 1 < 2 ^ k := Nat.sub_lt (Nat.two_pow_pos k) (by decide)
  rw [Nat.testBit_or, Nat.testBit_mul_pow_two_add _ hlt, Nat.testBit_two_pow_sub_one]
  by_cases hj : j < k
  · simp [hj]
  · have hjk : k + (j - k) = j := by omega
    simp only [hj, decide_False, Bool.or_false, if_false]
    rw [← Nat.shiftRight_eq_div_pow, Nat.testBit_shiftRight, hjk]

theorem ROUNDUP_eq (H : headers) (k : Nat) (hlong : H.sizeof_long = 2 ^ k) (a : Nat) :
    ROUNDUP H a = round_up_long H a := by
  unfold ROUNDUP round_up_long
  have hpos : 0 < 2 ^ k := Nat.two_pow_pos k
  by_cases ha : a = 0
  · simp [ha]
  · rw [if_pos (by omega), if_neg ha, hlong, lor_two_pow_sub_one]
    have h1 : a + 2 ^ k - 1 = (a - 1) + 2 ^ k := by omega
    rw [h1, Nat.add_div_right _ hpos, Nat.succ_mul, Nat.mul_comm]
    omega

theorem and_one_shiftLeft_ne_zero (addrs i : Nat) :
    addrs &&& (1 <<< i) ≠ 0 ↔ addrs.testBit i = true := by
  rw [Nat.one_shiftLeft, Nat.and_two_pow]
  cases h : addrs.testBit i
  · simp
  · simp [Nat.two_pow_pos]

theorem get_rtaddrs_from_spec (H : headers) (k : Nat) (hlong : H.sizeof_long = 2 ^ k)
    (addrs sa : Nat) (sa_len : Nat → Nat) :
    ∀ (n i : Nat),
      (get_rtaddrs_from H addrs sa_len n i (rtaddr_offset H addrs sa sa_len i)).length = n ∧
      ∀ j, j < n →
        (get_rtaddrs_from H addrs sa_len n i (rtaddr_offset H addrs sa sa_len i))[j]? =
          some (if addrs.testBit (i + j) then some (rtaddr_offset H addrs sa sa_len (i + j))
            else none) := by
  intro n
  induction n with
  | zero => intro i; exact ⟨rfl, fun j hj => absurd hj (Nat.not_lt_zero j)⟩
  | succ n ih =>
    intro i
    have hnext := ih (i + 1)
    by_cases hb : addrs.testBit i = true
    · have hc : addrs &&& (1 <<< i) ≠ 0 := (and_one_shiftLeft_ne_zero addrs i).mpr hb
      have hoff : rtaddr_offset H addrs sa sa_len (i + 1) =
          rtaddr_offset H addrs sa sa_len i +
            ROUNDUP H (sa_len (rtaddr_offset H addrs sa sa_len i)) := by
        rw [rtaddr_offset, if_pos hb, ROUNDUP_eq H k hlong]
      rw [get_rtaddrs_from, if_pos hc, ← hoff]
      refine ⟨by rw [List.length_cons, hnext.1], fun j hj => ?_⟩
      cases j with
      | zero => simp [hb]
      | succ j =>
        rw [List.getElem?_cons_succ, hnext.2 j (by omega)]
        have : i + 1 + j = i + (j + 1) := by omega
        rw [this]
    · have hc : ¬ addrs &&& (1 <<< i) ≠ 0 := fun h => hb ((and_one_shiftLeft_ne_zero addrs i).mp h)
      have hoff : rtaddr_offset H addrs sa sa_len (i + 1) = rtaddr_offset H addrs sa sa_len i := by
        rw [rtaddr_offset, if_neg hb]
      rw [get_rtaddrs_from, if_neg hc, ← hoff]
      refine ⟨by rw [List.length_cons, hnext.1], fun j hj => ?_⟩
      cases j with
      | zero => simp [hb]
      | succ j =>
        rw [List.getElem?_cons_succ, hnext.2 j (by omega)]
        have : i + 1 + j = i + (j + 1) := by omega
        rw [this]

theorem rtaddr_offset_sum (H : headers) (addrs sa : Nat) (sa_len : Nat → Nat) (i : Nat) :
    rtaddr_offset H addrs sa sa_len i =
      sa + (((List.range i).filter (fun j => addrs.testBit j)).map
        (fun j => round_up_long H (sa_len (rtaddr_offset H addrs sa sa_len j)))).sum := by
  induction i with
  | zero => simp [rtaddr_offset]
  | succ i ih =>
    rw [rtaddr_offset, List.range_succ, List.filter_append]
    by_cases hb : addrs.testBit i = true
    · rw [if_pos hb]
      simp only [List.filter_cons, List.filter_nil, hb, if_true, List.map_append, List.map_cons,
        List.map_nil, List.sum_append, List.sum_cons, List.sum_nil, Nat.add_zero]
      omega
    · rw [if_neg hb]
      simp only [List.filter_cons, List.filter_nil, hb, List.append_nil, Bool.false_eq_true,
        if_false]
      exact ih

/-- C5: get_rtaddrs fills the RTAX_MAX slots so that slot i is a pointer exactly when bit i of
the bitmask is set, and then points at the block start plus the sum, over the set bits below i,
of the sa_len found there rounded up to a multiple of sizeof(long) (zero counting as
sizeof(long)), which is what ROUNDUP computes. -/
theorem get_rtaddrs_table (H : headers) (k : Nat) (hlong : H.sizeof_long = 2 ^ k)
    (addrs sa : Nat) (sa_len : Nat → Nat) :
    (get_rtaddrs H addrs sa sa_len).length = H.RTAX_MAX ∧
    (∀ i, i < H.RTAX_MAX →
      (get_rtaddrs H addrs sa sa_len)[i]? =
        some (if addrs.testBit i then some (rtaddr_offset H addrs sa sa_len i) else none)) ∧
    (∀ i, rtaddr_offset H addrs sa sa_len i =
      sa + (((List.range i).filter (fun j => addrs.testBit j)).map
        (fun j => round_up_long H (sa_len (rtaddr_offset H addrs sa sa_len j)))).sum) ∧
    (∀ a, ROUNDUP H a = round_up_long H a) := by
  have h := get_rtaddrs_from_spec H k hlong addrs sa sa_len H.RTAX_MAX 0
  refine ⟨h.1, fun i hi => ?_, rtaddr_offset_sum H addrs sa sa_len, ROUNDUP_eq H k hlong⟩
  have := h.2 i hi
  rw [Nat.zero_add] at this
  exact this

/-- A run of C5 on OpenBSD/amd64: the mask with bits 0 and 2 over a block of two addresses
fills exactly slots 0 and 2, the second address lying 16 bytes into the block. -/
theorem get_rtaddrs_table_witness :
    openbsd_amd64.sizeof_long = 2 ^ 3 ∧
    ((get_rtaddrs openbsd_amd64 5 0 sample_sa_len).length = openbsd_amd64.RTAX_MAX ∧
    (∀ i, i < openbsd_amd64.RTAX_MAX →
      (get_rtaddrs openbsd_amd64 5 0 sample_sa_len)[i]? =
        some (if (5 : Nat).testBit i then some (rtaddr_offset openbsd_amd64 5 0 sample_sa_len i)
          else none)) ∧
    (∀ i, rtaddr_offset openbsd_amd64 5 0 sample_sa_len i =
      0 + (((List.range i).filter (fun j => (5 : Nat).testBit j)).map
        (fun j => round_up_long openbsd_amd64
          (sample_sa_len (rtaddr_offset openbsd_amd64 5 0 sample_sa_len j)))).sum) ∧
    (∀ a, ROUNDUP openbsd_amd64 a = round_up_long openbsd_amd64 a)) ∧
    get_rtaddrs openbsd_amd64 5 0 sample_sa_len =
      [some 0, none, some 16, none, none, none, none, none, none, none, none, none, none, none,
        none] :=
  ⟨by decide, get_rtaddrs_table openbsd_amd64 3 (by decide) 5 0 sample_sa_len, by decide⟩

/-! ## Theorems: the interface list and the dispatchers -/

theorem set_iface_getElem? (l : List iface) (n m : Nat) (f : iface → iface) :
    (set_iface l n f)[m]? = if m = n then (l[n]?).map f else l[m]? := by
  unfold set_iface
  cases h : l[n]? with
  | none =>
    by_cases hm : m = n
    · subst hm; simp [h]
    · simp [hm]
  | some x =>
    by_cases hm : m = n
    · subst hm
      have hlt : m < l.length := by
        rcases Nat.lt_or_ge m l.length with h1 | h1
        · exact h1
        · rw [List.getElem?_eq_none h1] at h; exact absurd h (by simp)
      simp [List.getElem?_set_self, hlt]
    · simp only [hm, if_false]
      rw [List.getElem?_set_ne (Ne.symm hm)]

theorem set_iface_length (l : List iface) (n : Nat) (f : iface → iface) :
    (set_iface l n f).length = l.length := by
  unfold set_iface
  cases l[n]? <;> simp

/-- C6: when the flags, extended-flags or routing-domain query fails, or the extended flags lack
IFXF_AUTOCONF4, update_iface returns with the frontend exactly as it was: the interface list and
every field of every entry, the messages composed to main and to the engine, and the calls made
are unchanged. -/
theorem update_iface_not_eligible (H : headers) (K : kernel) (s : frontend) (if_index : Nat)
    (if_name : String)
    (h : K.SIOCGIFFLAGS if_name = none ∨ K.SIOCGIFXFLAGS if_name = none ∨
      K.SIOCGIFRDOMAIN if_name = none ∨
      ∃ xflags, K.SIOCGIFXFLAGS if_name = some xflags ∧
        int_bits xflags &&& H.IFXF_AUTOCONF4 = 0) :
    update_iface H K s if_index if_name = some s := by
  unfold update_iface
  by_cases h1 : get_flags K if_name = -1
  · simp only [h1, if_true]
  · by_cases h2 : get_xflags K if_name = -1
    · simp only [h1, h2, if_true, if_false]
    · by_cases h3 : int_bits (get_xflags K if_name) &&& H.IFXF_AUTOCONF4 = 0
      · simp only [h1, h2, h3, if_true, if_false]
      · by_cases h4 : get_ifrdomain K if_name = -1
        · simp only [h1, h2, h3, h4, if_true, if_false]
        · exfalso
          rcases h with h | h | h | ⟨x, hx, hb⟩
          · exact h1 (by simp [get_flags, h])
          · exact h2 (by simp [get_xflags, h])
          · exact h4 (by simp [get_ifrdomain, h])
          · exact h3 (by simpa [get_xflags, hx] using hb)

/-- A run of C6: an interface whose extended flags are 0 on a frontend holding em0. -/
theorem update_iface_not_eligible_witness :
    ({ sample_kernel with SIOCGIFXFLAGS := fun _ => some 0 }.SIOCGIFFLAGS "em0" = none ∨
      { sample_kernel with SIOCGIFXFLAGS := fun _ => some 0 }.SIOCGIFXFLAGS "em0" = none ∨
      { sample_kernel with SIOCGIFXFLAGS := fun _ => some 0 }.SIOCGIFRDOMAIN "em0" = none ∨
      ∃ xflags, { sample_kernel with SIOCGIFXFLAGS := fun _ => some 0 }.SIOCGIFXFLAGS "em0" =
          some xflags ∧
        int_bits xflags &&& openbsd_amd64.IFXF_AUTOCONF4 = 0) ∧
    update_iface openbsd_amd64 { sample_kernel with SIOCGIFXFLAGS := fun _ => some 0 }
      { frontend_empty with interfaces := [sample_iface_both] } 1 "em0" =
      some { frontend_empty with interfaces := [sample_iface_both] } :=
  ⟨Or.inr (Or.inr (Or.inr ⟨0, rfl, by decide⟩)),
    update_iface_not_eligible openbsd_amd64 { sample_kernel with SIOCGIFXFLAGS := fun _ => some 0 }
      { frontend_empty with interfaces := [sample_iface_both] } 1 "em0"
      (Or.inr (Or.inr (Or.inr ⟨0, rfl, by decide⟩)))⟩

/-- C7 fails on the code: updating em0, which holds capture descriptor 5 and transmit descriptor
6 in routing domain 0, to routing domain 1 closes descriptor 6 only; descriptor 5 is not closed
and the capture event is still set on descriptor 5 and still added. -/
theorem update_iface_domain_change_counterexample :
    (update_iface openbsd_amd64 sample_kernel
        { frontend_empty with interfaces := [sample_iface_both] } 1 "em0").map
      (fun s => s.calls) = some [call.close 6] ∧
    (update_iface openbsd_amd64 sample_kernel
        { frontend_empty with interfaces := [sample_iface_both] } 1 "em0").map
      (fun s => decide (call.close 5 ∈ s.calls)) = some false ∧
    (update_iface openbsd_amd64 sample_kernel
        { frontend_empty with interfaces := [sample_iface_both] } 1 "em0").map
      (fun s => s.interfaces.map (fun i => (i.rdomain, i.udpsock, i.bpfev_ev))) =
      some [(1, -1, { ev_fd := 5, initialized := true, added := true })] := by
  decide

/-- C7 as amended: a routing-domain change of an interface that holds a transmit handle leaves
the interface with the new routing domain and with the transmit handle closed and cleared
(udpsock = -1); the capture event of the interface is left as it was, close is called on the
transmit descriptor and on nothing else, and no interface is added or removed. -/
theorem update_iface_domain_change (H : headers) (K : kernel) (s : frontend) (if_index : Nat)
    (if_name : String) (n : Nat) (iface : iface) (ifap : List ifaddrs)
    (hflags : get_flags K if_name ≠ -1) (hxflags : get_xflags K if_name ≠ -1)
    (hauto : int_bits (get_xflags K if_name) &&& H.IFXF_AUTOCONF4 ≠ 0)
    (hdomain : get_ifrdomain K if_name ≠ -1) (hifap : K.getifaddrs = some ifap)
    (hget : get_iface_by_id s.interfaces if_index = some n)
    (hn : s.interfaces[n]? = some iface)
    (hchange : iface.rdomain ≠ get_ifrdomain K if_name) (hudp : iface.udpsock ≠ -1) :
    ∃ s2 iface2, update_iface H K s if_index if_name = some s2 ∧
      s2.interfaces[n]? = some iface2 ∧
      iface2.rdomain = get_ifrdomain K if_name ∧ iface2.udpsock = -1 ∧
      iface2.bpfev_ev = iface.bpfev_ev ∧
      s2.calls = s.calls ++ [call.close iface.udpsock] ∧
      s2.interfaces.length = s.interfaces.length := by
  unfold update_iface
  simp only [hflags, hxflags, hauto, hdomain, hifap, hget, hn, if_false, ne_eq, hchange, hudp,
    not_false_eq_true, if_true, close]
  cases hscan : scan_ifaddrs H if_name ifap 0 with
  | mk link_state lladdr =>
    cases lladdr with
    | none =>
      simp only [set_iface_getElem?, hn, if_true, Option.map_some', frontend_imsg_compose_main]
      refine ⟨_, { iface with rdomain := get_ifrdomain K if_name, udpsock := -1 }, rfl, ?_, rfl,
        rfl, rfl, rfl, ?_⟩
      · simp [set_iface_getElem?, hn]
      · simp [set_iface_length]
    | some a =>
      simp only [set_iface_getElem?, hn, if_true, Option.map_some', frontend_imsg_compose_main]
      refine ⟨_, { iface with hw_address := a, rdomain := get_ifrdomain K if_name, udpsock := -1 },
        rfl, ?_, rfl, rfl, rfl, rfl, ?_⟩
      · simp [set_iface_getElem?, hn]
      · simp [set_iface_length]

/-- A run of the amended C7: em0 with both descriptors moves from routing domain 0 to 1. -/
theorem update_iface_domain_change_witness :
    (get_flags sample_kernel "em0" ≠ -1 ∧ get_xflags sample_kernel "em0" ≠ -1 ∧
      int_bits (get_xflags sample_kernel "em0") &&& openbsd_amd64.IFXF_AUTOCONF4 ≠ 0 ∧
      get_ifrdomain sample_kernel "em0" ≠ -1 ∧
      sample_kernel.getifaddrs =
        some [{ ifa_name := "em0", ifa_addr := some (18, 2, 6, 6, ⟨0, 17, 34, 51, 68, 85⟩) }] ∧
      get_iface_by_id [sample_iface_both] 1 = some 0 ∧
      [sample_iface_both][0]? = some sample_iface_both ∧
      sample_iface_both.rdomain ≠ get_ifrdomain sample_kernel "em0" ∧
      sample_iface_both.udpsock ≠ -1) ∧
    ∃ s2 iface2, update_iface openbsd_amd64 sample_kernel
        { frontend_empty with interfaces := [sample_iface_both] } 1 "em0" = some s2 ∧
      s2.interfaces[0]? = some iface2 ∧
      iface2.rdomain = get_ifrdomain sample_kernel "em0" ∧ iface2.udpsock = -1 ∧
      iface2.bpfev_ev = sample_iface_both.bpfev_ev ∧
      s2.calls = { frontend_empty with interfaces := [sample_iface_both] }.calls ++
        [call.close sample_iface_both.udpsock] ∧
      s2.interfaces.length =
        { frontend_empty with interfaces := [sample_iface_both] }.interfaces.length :=
  ⟨⟨by decide, by decide, by decide, by decide, rfl, by decide, rfl, by decide, by decide⟩,
    update_iface_domain_change openbsd_amd64 sample_kernel
      { frontend_empty with interfaces := [sample_iface_both] } 1 "em0" 0 sample_iface_both
      [{ ifa_name := "em0", ifa_addr := some (18, 2, 6, 6, ⟨0, 17, 34, 51, 68, 85⟩) }]
      (by decide) (by decide) (by decide) (by decide) rfl (by decide) rfl (by decide)
      (by decide)⟩

theorem get_iface_by_id_set (f : iface → iface) (hf : ∀ i, (f i).if_index = i.if_index)
    (if_index : Nat) :
    ∀ (l : List iface) (n : Nat) (x : iface), l[n]? = some x →
      get_iface_by_id (l.set n (f x)) if_index = get_iface_by_id l if_index := by
  intro l
  induction l with
  | nil => intro n x _; rfl
  | cons a l ih =>
    intro n x h
    cases n with
    | zero =>
      simp only [List.getElem?_cons_zero, Option.some.injEq] at h
      subst h
      simp only [List.set_cons_zero, get_iface_by_id, hf]
    | succ n =>
      simp only [List.getElem?_cons_succ] at h
      simp only [List.set_cons_succ, get_iface_by_id, ih n x h]

theorem get_iface_by_id_set_iface (l : List iface) (n if_index : Nat) (f : iface → iface)
    (hf : ∀ i, (f i).if_index = i.if_index) :
    get_iface_by_id (set_iface l n f) if_index = get_iface_by_id l if_index := by
  unfold set_iface
  cases h : l[n]? with
  | none => rfl
  | some x => exact get_iface_by_id_set f hf if_index l n x h

theorem send_discover_deferred (H : headers) (K : kernel) (s : frontend) (n : Nat)
    (iface : iface) (hn : s.interfaces[n]? = some iface)
    (hnone : iface.bpfev_ev.initialized = false) :
    send_discover H K s n =
      { s with interfaces := set_iface s.interfaces n (fun i => { i with send_discover := 1 }) } := by
  unfold send_discover
  simp only [hn, hnone, Bool.false_eq_true, not_false_eq_true, if_true]

theorem set_bpfsock_pending (H : headers) (K : kernel) (s : frontend) (n : Nat)
    (iface : iface) (bpfsock : Int)
    (hget : get_iface_by_id s.interfaces iface.if_index = some n)
    (hn : s.interfaces[n]? = some iface) (hflag : iface.send_discover ≠ 0) :
    ∃ eh ip udp,
      (set_bpfsock H K s bpfsock iface.if_index).calls = s.calls ++ [call.writev bpfsock [eh, ip, udp,
        (build_packet H K.gethostname s.dhcp_packet H.DHCPDISCOVER iface.xid iface.hw_address
          iface.requested_ip 0).2.take
        (build_packet H K.gethostname s.dhcp_packet H.DHCPDISCOVER iface.xid iface.hw_address
          iface.requested_ip 0).1]] ∧
      (set_bpfsock H K s bpfsock iface.if_index).interfaces[n]? =
        some { iface with
          bpfev_ev := { ev_fd := bpfsock, initialized := true, added := true }
          send_discover := 0 } := by
  unfold set_bpfsock
  simp only [hget, set_iface_getElem?, hn, if_true, Option.map_some', hflag, ne_eq,
    not_false_eq_true]
  unfold send_discover
  simp only [set_iface_getElem?, hn, if_true, Option.map_some', event_add, event_set,
    not_true_eq_false, if_false]
  rcases hb : build_packet H K.gethostname s.dhcp_packet H.DHCPDISCOVER iface.xid
    iface.hw_address iface.requested_ip 0 with ⟨len, buf⟩
  simp only [bpf_send_packet]
  refine ⟨_, _, _, rfl, ?_⟩
  simp [set_iface_getElem?, hn]

theorem set_bpfsock_not_pending (H : headers) (K : kernel) (s : frontend) (n : Nat)
    (iface : iface) (bpfsock : Int)
    (hget : get_iface_by_id s.interfaces iface.if_index = some n)
    (hn : s.interfaces[n]? = some iface) (hflag : iface.send_discover = 0) :
    (set_bpfsock H K s bpfsock iface.if_index).calls = s.calls := by
  unfold set_bpfsock
  simp only [hget, set_iface_getElem?, hn, if_true, Option.map_some', hflag, ne_eq,
    not_true_eq_false, if_false]

/-- C8: for an interface without capture handle send_discover sets the discover-pending flag and
makes no call; when set_bpfsock then installs a handle, exactly one writev goes to that handle
during the call, carrying the DISCOVER packet build_packet makes from the interface's transaction
id and hardware address, and the flag is cleared; and set_bpfsock for an interface whose flag is
clear makes no call. DHCPDISCOVER differs from DHCPREQUEST, so build_packet does not read the
NULL server identifier send_discover passes. -/
theorem discover_deferred_until_bpfsock (H : headers) (K : kernel) (s : frontend) (n : Nat)
    (iface : iface) (bpfsock : Int) (_hmt : H.DHCPDISCOVER ≠ H.DHCPREQUEST)
    (hget : get_iface_by_id s.interfaces iface.if_index = some n)
    (hn : s.interfaces[n]? = some iface) :
    (iface.bpfev_ev.initialized = false →
      (send_discover H K s n).calls = s.calls ∧
      (send_discover H K s n).interfaces[n]? = some { iface with send_discover := 1 } ∧
      ∃ eh ip udp,
        (set_bpfsock H K (send_discover H K s n) bpfsock iface.if_index).calls =
          s.calls ++ [call.writev bpfsock [eh, ip, udp,
            (build_packet H K.gethostname s.dhcp_packet H.DHCPDISCOVER iface.xid iface.hw_address
              iface.requested_ip 0).2.take
            (build_packet H K.gethostname s.dhcp_packet H.DHCPDISCOVER iface.xid iface.hw_address
              iface.requested_ip 0).1]] ∧
        (set_bpfsock H K (send_discover H K s n) bpfsock iface.if_index).interfaces[n]? =
          some { iface with
            bpfev_ev := { ev_fd := bpfsock, initialized := true, added := true }
            send_discover := 0 }) ∧
    (iface.send_discover = 0 → (set_bpfsock H K s bpfsock iface.if_index).calls = s.calls) := by
  refine ⟨fun hnone => ?_, set_bpfsock_not_pending H K s n iface bpfsock hget hn⟩
  have h1 := send_discover_deferred H K s n iface hn hnone
  have hn1 : (send_discover H K s n).interfaces[n]? = some { iface with send_discover := 1 } := by
    rw [h1]
    simp [set_iface_getElem?, hn]
  have hget1 : get_iface_by_id (send_discover H K s n).interfaces iface.if_index = some n := by
    rw [h1]
    simp only
    rw [get_iface_by_id_set_iface s.interfaces n iface.if_index
      (fun i => { i with send_discover := 1 }) (fun _ => rfl)]
    exact hget
  refine ⟨by rw [h1], hn1, ?_⟩
  obtain ⟨eh, ip, udp, hc, hi⟩ := set_bpfsock_pending H K (send_discover H K s n) n
    { iface with send_discover := 1 } bpfsock hget1 hn1 (by simp)
  refine ⟨eh, ip, udp, ?_, hi⟩
  rw [hc, h1]

/-- A run of C8: em0 without capture handle, then descriptor 5 is granted. -/
theorem discover_deferred_until_bpfsock_witness :
    (openbsd_amd64.DHCPDISCOVER ≠ openbsd_amd64.DHCPREQUEST ∧
      get_iface_by_id ({ frontend_empty with interfaces := [sample_iface] }).interfaces
        sample_iface.if_index = some 0 ∧
      ({ frontend_empty with interfaces := [sample_iface] }).interfaces[0]? = some sample_iface) ∧
    ((sample_iface.bpfev_ev.initialized = false →
      (send_discover openbsd_amd64 sample_kernel
        { frontend_empty with interfaces := [sample_iface] } 0).calls =
        ({ frontend_empty with interfaces := [sample_iface] }).calls ∧
      (send_discover openbsd_amd64 sample_kernel
        { frontend_empty with interfaces := [sample_iface] } 0).interfaces[0]? =
        some { sample_iface with send_discover := 1 } ∧
      ∃ eh ip udp,
        (set_bpfsock openbsd_amd64 sample_kernel (send_discover openbsd_amd64 sample_kernel
          { frontend_empty with interfaces := [sample_iface] } 0) 5 sample_iface.if_index).calls =
          ({ frontend_empty with interfaces := [sample_iface] }).calls ++
          [call.writev 5 [eh, ip, udp,
            (build_packet openbsd_amd64 sample_kernel.gethostname
              ({ frontend_empty with interfaces := [sample_iface] }).dhcp_packet
              openbsd_amd64.DHCPDISCOVER sample_iface.xid sample_iface.hw_address
              sample_iface.requested_ip 0).2.take
            (build_packet openbsd_amd64 sample_kernel.gethostname
              ({ frontend_empty with interfaces := [sample_iface] }).dhcp_packet
              openbsd_amd64.DHCPDISCOVER sample_iface.xid sample_iface.hw_address
              sample_iface.requested_ip 0).1]] ∧
        (set_bpfsock openbsd_amd64 sample_kernel (send_discover openbsd_amd64 sample_kernel
          { frontend_empty with interfaces := [sample_iface] } 0) 5
            sample_iface.if_index).interfaces[0]? =
          some { sample_iface with
            bpfev_ev := { ev_fd := 5, initialized := true, added := true }
            send_discover := 0 }) ∧
    (sample_iface.send_discover = 0 →
      (set_bpfsock openbsd_amd64 sample_kernel
        { frontend_empty with interfaces := [sample_iface] } 5 sample_iface.if_index).calls =
        ({ frontend_empty with interfaces := [sample_iface] }).calls)) :=
  ⟨⟨by decide, by decide, rfl⟩,
    discover_deferred_until_bpfsock openbsd_amd64 sample_kernel
      { frontend_empty with interfaces := [sample_iface] } 0 sample_iface 5 (by decide)
      (by decide) rfl⟩

/-- C9 on the code: SEND_REQUEST with DHCP server 0.0.0.0 for em0, which has no capture handle
(its capture event was never set), makes send_request call bpf_send_packet, which does a writev
on descriptor 0, the EVENT_FD of the zeroed event. -/
theorem send_request_without_capture_handle :
    sample_iface.bpfev_ev.initialized = false ∧
    ∃ iov, (frontend_dispatch_engine openbsd_amd64 sample_kernel
        { frontend_empty with interfaces := [sample_iface] }
        [imsg_engine.SEND_REQUEST (some
          { if_index := 1, xid := 7, requested_ip := 16777226, server_identifier := 0,
            dhcp_server := 0 })]).map (fun s => s.calls) = some [call.writev 0 iov] :=
  ⟨rfl, _, rfl⟩

/-- The defect behind C9 in general: send_request for an interface whose DHCP server is 0.0.0.0
does a writev on EVENT_FD of the capture event whether or not that event was ever set. -/
theorem send_request_writes_unguarded (H : headers) (K : kernel) (s : frontend) (n : Nat)
    (iface : iface) (hn : s.interfaces[n]? = some iface) (hserver : iface.dhcp_server = INADDR_ANY) :
    ∃ iov, (send_request H K s n).calls = s.calls ++ [call.writev iface.bpfev_ev.ev_fd iov] := by
  unfold send_request
  simp only [hn, hserver, ne_eq, not_true_eq_false, if_false]
  rcases build_packet H K.gethostname s.dhcp_packet H.DHCPREQUEST iface.xid iface.hw_address
    iface.requested_ip iface.server_identifier with ⟨len, buf⟩
  exact ⟨_, rfl⟩

/-- C10 on the code: a UDPSOCK message carrying descriptor 7 for the unknown interface index 5
makes frontend_dispatch_main, called for the channel descriptor 3, close descriptor 3 and not
descriptor 7; after a ROUTESOCK message of the same batch that carried descriptor 4 it closes
descriptor 4, the routing socket. -/
theorem udpsock_unknown_interface_closes_fd :
    (frontend_dispatch_main openbsd_amd64 sample_kernel frontend_empty 3
      [imsg_main.UDPSOCK 7 (some 5)]).map (fun s => s.calls) = some [call.close 3] ∧
    (frontend_dispatch_main openbsd_amd64 sample_kernel frontend_empty 3
      [imsg_main.ROUTESOCK 4, imsg_main.UDPSOCK 7 (some 5)]).map (fun s => s.calls) =
      some [call.close 4] := by
  decide

/-- The part of C10 the code keeps: a UDPSOCK message for a known interface without transmit
handle installs the descriptor as its udpsock, changes no other interface and makes no call. -/
theorem udpsock_known_interface (H : headers) (K : kernel) (s : frontend) (fd udpsock : Int)
    (if_index n : Nat) (iface : iface) (hfd : udpsock ≠ -1)
    (hget : get_iface_by_id s.interfaces if_index = some n)
    (hn : s.interfaces[n]? = some iface) (hudp : iface.udpsock = -1) :
    frontend_dispatch_main H K s fd [imsg_main.UDPSOCK udpsock (some if_index)] =
      some { s with interfaces := s.interfaces.set n { iface with udpsock := udpsock } } := by
  unfold frontend_dispatch_main
  simp only [frontend_dispatch_main_loop, hfd, if_false, hget, hn, hudp, ne_eq,
    not_true_eq_false, set_iface]

/-! ## Theorems: remove_iface -/

theorem remove_iface_unknown (s : frontend) (if_index : Nat)
    (hget : get_iface_by_id s.interfaces if_index = none) : remove_iface s if_index = s := by
  unfold remove_iface
  rw [hget]

theorem remove_iface_known (s : frontend) (if_index n : Nat) (iface : iface)
    (hget : get_iface_by_id s.interfaces if_index = some n)
    (hn : s.interfaces[n]? = some iface) :
    remove_iface s if_index =
      { s with
        interfaces := s.interfaces.eraseIdx n
        calls := s.calls ++ [call.close iface.bpfev_ev.ev_fd] ++
          (if iface.udpsock ≠ -1 then [call.close iface.udpsock] else []) } := by
  unfold remove_iface
  simp only [hget, hn, close, event_del]
  split_ifs <;> simp

theorem get_iface_by_id_none_of_forall (l : List iface) (i : Nat)
    (h : ∀ x ∈ l, x.if_index ≠ i) : get_iface_by_id l i = none := by
  induction l with
  | nil => rfl
  | cons a rest ih =>
    have ha : a.if_index ≠ i := h a (List.mem_cons_self _ _)
    have hr := ih (fun x hx => h x (List.mem_cons_of_mem _ hx))
    simp only [get_iface_by_id, if_neg ha, hr, Option.map_none']

theorem lookup_cons_succ (a : iface) (rest : List iface) (o : Option Nat) :
    (o.map (· + 1)).bind (fun k => (a :: rest)[k]?) = o.bind (fun k => rest[k]?) := by
  cases o with
  | none => rfl
  | some k => simp only [Option.map_some', Option.some_bind, List.getElem?_cons_succ]

/-- What remove_iface keeps: the interface found for another index is the same, with all its
fields, before and after the removal. -/
theorem remove_iface_others (l : List iface) (i j : Nat) (hj : j ≠ i) :
    ∀ n, get_iface_by_id l i = some n →
      (get_iface_by_id (l.eraseIdx n) j).bind (fun k => (l.eraseIdx n)[k]?) =
        (get_iface_by_id l j).bind (fun k => l[k]?) := by
  induction l with
  | nil => intro n h; exact absurd h (by simp [get_iface_by_id])
  | cons a rest ih =>
    intro n h
    rw [get_iface_by_id] at h
    by_cases ha : a.if_index = i
    · rw [if_pos ha] at h
      have hn : n = 0 := by simpa using h.symm
      subst hn
      have haj : a.if_index ≠ j := fun e => hj (by rw [← e, ha])
      rw [List.eraseIdx_cons_zero]
      conv_rhs => rw [get_iface_by_id, if_neg haj, lookup_cons_succ]
    · rw [if_neg ha] at h
      cases hm : get_iface_by_id rest i with
      | none => rw [hm] at h; exact absurd h (by simp)
      | some m =>
        rw [hm] at h
        have hn : n = m + 1 := by simpa using h.symm
        subst hn
        rw [List.eraseIdx_cons_succ]
        by_cases haj : a.if_index = j
        · simp only [get_iface_by_id, if_pos haj, Option.some_bind, List.getElem?_cons_zero]
        · rw [get_iface_by_id, if_neg haj, lookup_cons_succ]
          conv_rhs => rw [get_iface_by_id, if_neg haj, lookup_cons_succ]
          exact ih m hm

/-- What remove_iface achieves on a list in which the index occurs once: the index is not found
afterwards. -/
theorem remove_iface_lookup_gone (l : List iface) (i : Nat) :
    ∀ n, get_iface_by_id l i = some n → (l.map (fun x => x.if_index)).Nodup →
      get_iface_by_id (l.eraseIdx n) i = none := by
  induction l with
  | nil => intro n h; exact absurd h (by simp [get_iface_by_id])
  | cons a rest ih =>
    intro n h hnd
    rw [List.map_cons, List.nodup_cons] at hnd
    rw [get_iface_by_id] at h
    by_cases ha : a.if_index = i
    · rw [if_pos ha] at h
      have hn : n = 0 := by simpa using h.symm
      subst hn
      rw [List.eraseIdx_cons_zero]
      apply get_iface_by_id_none_of_forall
      intro x hx e
      exact hnd.1 (by rw [ha, ← e]; exact List.mem_map_of_mem _ hx)
    · rw [if_neg ha] at h
      cases hm : get_iface_by_id rest i with
      | none => rw [hm] at h; exact absurd h (by simp)
      | some m =>
        rw [hm] at h
        have hn : n = m + 1 := by simpa using h.symm
        subst hn
        rw [List.eraseIdx_cons_succ, get_iface_by_id, if_neg ha, ih m hm hnd.2]
        rfl

/-- C11 on the code: removing an interface that never received a capture handle (its capture
event was never set) and has no transmit handle makes remove_iface call close on descriptor 0,
the EVENT_FD of the zeroed event, a descriptor the interface never held. This is so for em0 as
update_iface creates it, and for the interface list frontend_startup leaves on a system with lo0
and em0 when em0 is removed before its capture descriptor arrives. -/
theorem remove_iface_without_capture_handle :
    sample_iface.bpfev_ev.initialized = false ∧ sample_iface.udpsock = -1 ∧
    (remove_iface { frontend_empty with interfaces := [sample_iface] } 1).calls =
      [call.close 0] ∧
    (remove_iface { frontend_empty with interfaces := [sample_iface] } 1).interfaces = [] ∧
    (frontend_startup openbsd_amd64 sample_kernel_two frontend_routed).map
        (fun s => (s.interfaces.map (fun i => (i.if_index, i.bpfev_ev.initialized, i.udpsock)),
          s.calls, (remove_iface s 2).calls, (remove_iface s 2).interfaces)) =
      some ([(2, false, -1)], [], [call.close 0], []) := by
  decide

/-! ## Theorems: the loop of bpf_receive, iteration by iteration -/

theorem bpf_loop_step (H : headers) (buf : List Nat) (fuel p : Nat) (rem : Int)
    (imsg : imsg_dhcp) :
    bpf_receive_loop H buf (fuel + 1) p rem imsg =
      match bpf_receive_step H buf p rem imsg with
      | none => some []
      | some ((p2, rem2, imsg2), fr) =>
        (bpf_receive_loop H buf fuel p2 rem2 imsg2).map (fun rest => fr.toList ++ rest) := by
  rw [bpf_receive_loop]
  unfold bpf_receive_step
  by_cases h1 : rem > 0
  · by_cases h2 : rem.toNat < H.sizeof_bpf_hdr
    · simp only [if_pos h1, if_pos h2]
    · by_cases h3 : bh_caplen H buf p ≠ bh_datalen H buf p
      · simp only [if_pos h1, if_neg h2, if_pos h3, Option.toList_none, List.nil_append]
        cases bpf_receive_loop H buf fuel _ _ imsg <;> rfl
      · by_cases h4 : rem < bh_sum H buf p
        · simp only [if_pos h1, if_neg h2, if_neg h3, if_pos h4]
        · by_cases h5 : bh_caplen H buf p > H.sizeof_imsg_dhcp_packet
          · simp only [if_pos h1, if_neg h2, if_neg h3, if_neg h4, if_pos h5,
              Option.toList_none, List.nil_append]
            cases bpf_receive_loop H buf fuel _ _ imsg <;> rfl
          · simp only [if_pos h1, if_neg h2, if_neg h3, if_neg h4, if_neg h5,
              Option.toList_some, List.singleton_append]
  · simp only [if_neg h1]

theorem bpf_step_some (H : headers) (buf : List Nat) (p : Nat) (rem : Int) (imsg : imsg_dhcp)
    (st : Nat × Int × imsg_dhcp) (fr : Option imsg_dhcp)
    (h : bpf_receive_step H buf p rem imsg = some (st, fr)) :
    0 < rem ∧ (H.sizeof_bpf_hdr : Int) ≤ rem ∧
    st.1 = p + H.BPF_WORDALIGN (bh_sum H buf p) ∧
    st.2.1 = to_ssize_t H (rem - H.BPF_WORDALIGN (bh_sum H buf p)) ∧
    ∀ f, fr = some f →
      bh_caplen H buf p = bh_datalen H buf p ∧ ¬ rem < bh_sum H buf p ∧
      bh_caplen H buf p ≤ H.sizeof_imsg_dhcp_packet ∧
      f = { imsg with
        packet := memcpy imsg.packet 0
          ((buf.drop (p + bh_hdrlen H buf p)).take (bh_caplen H buf p))
        len := bh_caplen H buf p } := by
  unfold bpf_receive_step at h
  by_cases h1 : rem > 0
  · by_cases h2 : rem.toNat < H.sizeof_bpf_hdr
    · simp only [if_pos h1, if_pos h2] at h
      exact absurd h (by simp)
    · have h2b : (H.sizeof_bpf_hdr : Int) ≤ rem := by omega
      by_cases h3 : bh_caplen H buf p ≠ bh_datalen H buf p
      · simp only [if_pos h1, if_neg h2, if_pos h3, Option.some.injEq, Prod.mk.injEq] at h
        obtain ⟨hst, hfr⟩ := h
        subst hst; subst hfr
        exact ⟨h1, h2b, rfl, rfl, fun f hf => absurd hf (by simp)⟩
      · by_cases h4 : rem < bh_sum H buf p
        · simp only [if_pos h1, if_neg h2, if_neg h3, if_pos h4] at h
          exact absurd h (by simp)
        · by_cases h5 : bh_caplen H buf p > H.sizeof_imsg_dhcp_packet
          · simp only [if_pos h1, if_neg h2, if_neg h3, if_neg h4, if_pos h5, Option.some.injEq,
              Prod.mk.injEq] at h
            obtain ⟨hst, hfr⟩ := h
            subst hst; subst hfr
            exact ⟨h1, h2b, rfl, rfl, fun f hf => absurd hf (by simp)⟩
          · simp only [if_pos h1, if_neg h2, if_neg h3, if_neg h4, if_neg h5, Option.some.injEq,
              Prod.mk.injEq] at h
            obtain ⟨hst, hfr⟩ := h
            subst hst; subst hfr
            refine ⟨h1, h2b, rfl, rfl, fun f hf => ?_⟩
            simp only [Option.some.injEq] at hf
            exact ⟨not_not.mp h3, h4, Nat.not_lt.mp h5, hf.symm⟩
  · simp only [if_neg h1] at h
    exact absurd h (by simp)

theorem bpf_step_inv (H : headers) (buf : List Nat) (len p : Nat) (rem : Int) (imsg : imsg_dhcp)
    (st : Nat × Int × imsg_dhcp) (fr : Option imsg_dhcp)
    (hfit : ∀ x, x < 4294967296 → H.BPF_WORDALIGN x ≤ H.SSIZE_MAX)
    (hlen : len ≤ H.SSIZE_MAX) (hinv : (p : Int) + rem = len)
    (h : bpf_receive_step H buf p rem imsg = some (st, fr)) :
    (st.1 : Int) + st.2.1 = len ∧ st.2.1 = rem - H.BPF_WORDALIGN (bh_sum H buf p) ∧
    p + H.sizeof_bpf_hdr ≤ len := by
  obtain ⟨h1, h2, h3, h4, _⟩ := bpf_step_some H buf p rem imsg st fr h
  have hs : bh_sum H buf p < 4294967296 := Nat.mod_lt _ (by decide)
  have hw := hfit _ hs
  have hid : to_ssize_t H (rem - H.BPF_WORDALIGN (bh_sum H buf p)) =
      rem - H.BPF_WORDALIGN (bh_sum H buf p) :=
    to_ssize_t_id H _ (by omega) (by omega)
  rw [hid] at h4
  refine ⟨by rw [h3, h4]; push_cast; omega, h4, by omega⟩

theorem bpf_run_succ (H : headers) (buf : List Nat) :
    ∀ (n p : Nat) (rem : Int) (imsg : imsg_dhcp) (p1 : Nat) (rem1 : Int) (imsg1 : imsg_dhcp)
      (st : Nat × Int × imsg_dhcp) (fr : Option imsg_dhcp),
      bpf_receive_run H buf n p rem imsg = some (p1, rem1, imsg1) →
      bpf_receive_step H buf p1 rem1 imsg1 = some (st, fr) →
      bpf_receive_run H buf (n + 1) p rem imsg = some st := by
  intro n
  induction n with
  | zero =>
    intro p rem imsg p1 rem1 imsg1 st fr h hs
    simp only [bpf_receive_run, Option.some.injEq, Prod.mk.injEq] at h
    obtain ⟨rfl, rfl, rfl⟩ := h
    obtain ⟨p2, rem2, imsg2⟩ := st
    simp only [bpf_receive_run, hs]
  | succ n ih =>
    intro p rem imsg p1 rem1 imsg1 st fr h hs
    rw [bpf_receive_run] at h ⊢
    cases hstep : bpf_receive_step H buf p rem imsg with
    | none => rw [hstep] at h; exact absurd h (by simp)
    | some x =>
      obtain ⟨⟨p2, rem2, imsg2⟩, fr2⟩ := x
      rw [hstep] at h
      simp only at h ⊢
      exact ih p2 rem2 imsg2 p1 rem1 imsg1 st fr h hs

theorem bpf_run_inv (H : headers) (buf : List Nat) (len : Nat)
    (hfit : ∀ x, x < 4294967296 → H.BPF_WORDALIGN x ≤ H.SSIZE_MAX)
    (hlen : len ≤ H.SSIZE_MAX) :
    ∀ (n p : Nat) (rem : Int) (imsg : imsg_dhcp) (p1 : Nat) (rem1 : Int) (imsg1 : imsg_dhcp),
      (p : Int) + rem = len →
      bpf_receive_run H buf n p rem imsg = some (p1, rem1, imsg1) →
      (p1 : Int) + rem1 = len := by
  intro n
  induction n with
  | zero =>
    intro p rem imsg p1 rem1 imsg1 hinv h
    simp only [bpf_receive_run, Option.some.injEq, Prod.mk.injEq] at h
    obtain ⟨rfl, rfl, rfl⟩ := h
    exact hinv
  | succ n ih =>
    intro p rem imsg p1 rem1 imsg1 hinv h
    rw [bpf_receive_run] at h
    cases hstep : bpf_receive_step H buf p rem imsg with
    | none => rw [hstep] at h; exact absurd h (by simp)
    | some x =>
      obtain ⟨⟨p2, rem2, imsg2⟩, fr2⟩ := x
      rw [hstep] at h
      simp only at h
      exact ih p2 rem2 imsg2 p1 rem1 imsg1
        (bpf_step_inv H buf len p rem imsg _ fr2 hfit hlen hinv hstep).1 h

theorem frame_of_step (H : headers) (buf : List Nat) (len p : Nat) (rem : Int) (imsg : imsg_dhcp)
    (st : Nat × Int × imsg_dhcp) (f : imsg_dhcp)
    (hcap : H.sizeof_imsg_dhcp_packet + 65536 ≤ 4294967296) (hbuf : len ≤ buf.length)
    (hinv : (p : Int) + rem = len)
    (h : bpf_receive_step H buf p rem imsg = some (st, some f)) :
    frame_from_record H buf len p f := by
  obtain ⟨h1, h2, _, _, hf⟩ := bpf_step_some H buf p rem imsg st (some f) h
  obtain ⟨hc, hs, hL, hfe⟩ := hf f rfl
  have hh : bh_hdrlen H buf p < 65536 := Nat.mod_lt _ (by decide)
  have hsum : bh_sum H buf p = bh_hdrlen H buf p + bh_caplen H buf p := by
    unfold bh_sum
    exact Nat.mod_eq_of_lt (by omega)
  rw [hsum] at hs
  have hpay : ((buf.drop (p + bh_hdrlen H buf p)).take (bh_caplen H buf p)).length =
      bh_caplen H buf p := by
    rw [List.length_take, List.length_drop]
    omega
  refine ⟨by omega, hc, hL, by omega, by omega, by rw [hfe], ?_, hpay⟩
  rw [hfe]
  simp only [memcpy, List.take_zero, List.nil_append, Nat.zero_add]
  rw [List.take_append_of_le_length (by omega), List.take_of_length_le (by omega)]

theorem bpf_loop_frames (H : headers) (buf : List Nat) (len : Nat)
    (hfit : ∀ x, x < 4294967296 → H.BPF_WORDALIGN x ≤ H.SSIZE_MAX)
    (hlen : len ≤ H.SSIZE_MAX)
    (hcap : H.sizeof_imsg_dhcp_packet + 65536 ≤ 4294967296) (hbuf : len ≤ buf.length) :
    ∀ (fuel p : Nat) (rem : Int) (imsg : imsg_dhcp) (frames : List imsg_dhcp),
      (p : Int) + rem = len →
      bpf_receive_loop H buf fuel p rem imsg = some frames →
      ∀ f ∈ frames, ∃ o, frame_from_record H buf len o f := by
  intro fuel
  induction fuel with
  | zero =>
    intro p rem imsg frames _ h f hf
    rw [bpf_receive_loop] at h
    split_ifs at h
    simp only [Option.some.injEq] at h
    subst h
    exact absurd hf (List.not_mem_nil f)
  | succ fuel ih =>
    intro p rem imsg frames hinv h f hf
    rw [bpf_loop_step] at h
    cases hstep : bpf_receive_step H buf p rem imsg with
    | none =>
      rw [hstep] at h
      simp only [Option.some.injEq] at h
      subst h
      exact absurd hf (List.not_mem_nil f)
    | some x =>
      obtain ⟨⟨p2, rem2, imsg2⟩, fr⟩ := x
      rw [hstep] at h
      simp only at h
      have hinv2 := (bpf_step_inv H buf len p rem imsg _ fr hfit hlen hinv hstep).1
      cases hrest : bpf_receive_loop H buf fuel p2 rem2 imsg2 with
      | none => rw [hrest] at h; exact absurd h (by simp)
      | some rest =>
        rw [hrest] at h
        simp only [Option.map_some', Option.some.injEq] at h
        subst h
        rcases List.mem_append.mp hf with hm | hm
        · cases fr with
          | none => exact absurd hm (by simp)
          | some f2 =>
            simp only [Option.toList_some, List.mem_singleton] at hm
            subst hm
            exact ⟨p, frame_of_step H buf len p rem imsg _ f hcap hbuf hinv hstep⟩
        · exact ih p2 rem2 imsg2 rest hinv2 hrest f hm

theorem take_drop_congr (buf buf2 : List Nat) (len a b : Nat)
    (h : buf2.take len = buf.take len) (hab : a + b ≤ len) :
    (buf2.drop a).take b = (buf.drop a).take b := by
  have e : ∀ l : List Nat, (l.drop a).take b = ((l.take len).drop a).take b := by
    intro l
    rw [List.drop_take, List.take_take]
    congr 1
    omega
  rw [e buf2, e buf, h]

theorem bpf_step_congr (H : headers) (buf buf2 : List Nat) (len p : Nat) (rem : Int)
    (imsg : imsg_dhcp) (hcap : H.sizeof_imsg_dhcp_packet + 65536 ≤ 4294967296)
    (h : buf2.take len = buf.take len) (hinv : (p : Int) + rem = len) :
    bpf_receive_step H buf2 p rem imsg = bpf_receive_step H buf p rem imsg := by
  unfold bpf_receive_step
  by_cases h1 : rem > 0
  · by_cases h2 : rem.toNat < H.sizeof_bpf_hdr
    · simp only [if_pos h1, if_pos h2]
    · have hhdr : bpf_hdr_at H buf2 p = bpf_hdr_at H buf p :=
        take_drop_congr buf buf2 len p H.sizeof_bpf_hdr h (by omega)
      have hc : bh_caplen H buf2 p = bh_caplen H buf p := by unfold bh_caplen; rw [hhdr]
      have hd : bh_datalen H buf2 p = bh_datalen H buf p := by unfold bh_datalen; rw [hhdr]
      have hh : bh_hdrlen H buf2 p = bh_hdrlen H buf p := by unfold bh_hdrlen; rw [hhdr]
      have hs : bh_sum H buf2 p = bh_sum H buf p := by unfold bh_sum; rw [hc, hh]
      rw [hc, hd, hh, hs]
      by_cases h3 : bh_caplen H buf p ≠ bh_datalen H buf p
      · simp only [if_pos h1, if_neg h2, if_pos h3]
      · by_cases h4 : rem < bh_sum H buf p
        · simp only [if_pos h1, if_neg h2, if_neg h3, if_pos h4]
        · by_cases h5 : bh_caplen H buf p > H.sizeof_imsg_dhcp_packet
          · simp only [if_pos h1, if_neg h2, if_neg h3, if_neg h4, if_pos h5]
          · have hlt : bh_hdrlen H buf p < 65536 := Nat.mod_lt _ (by decide)
            have hsum : bh_sum H buf p = bh_hdrlen H buf p + bh_caplen H buf p := by
              unfold bh_sum
              exact Nat.mod_eq_of_lt (by omega)
            have h4b : ¬ rem < ((bh_hdrlen H buf p + bh_caplen H buf p : Nat) : Int) := by
              rw [← hsum]; exact h4
            have hpay := take_drop_congr buf buf2 len (p + bh_hdrlen H buf p)
              (bh_caplen H buf p) h (by omega)
            simp only [if_pos h1, if_neg h2, if_neg h3, if_neg h4, if_neg h5, hpay]
  · simp only [if_neg h1]

theorem bpf_loop_congr (H : headers) (buf buf2 : List Nat) (len : Nat)
    (hfit : ∀ x, x < 4294967296 → H.BPF_WORDALIGN x ≤ H.SSIZE_MAX)
    (hlen : len ≤ H.SSIZE_MAX)
    (hcap : H.sizeof_imsg_dhcp_packet + 65536 ≤ 4294967296)
    (h : buf2.take len = buf.take len) :
    ∀ (fuel p : Nat) (rem : Int) (imsg : imsg_dhcp), (p : Int) + rem = len →
      bpf_receive_loop H buf2 fuel p rem imsg = bpf_receive_loop H buf fuel p rem imsg := by
  intro fuel
  induction fuel with
  | zero => intro p rem imsg _; rw [bpf_receive_loop, bpf_receive_loop]
  | succ fuel ih =>
    intro p rem imsg hinv
    rw [bpf_loop_step, bpf_loop_step, bpf_step_congr H buf buf2 len p rem imsg hcap h hinv]
    cases hstep : bpf_receive_step H buf p rem imsg with
    | none => rfl
    | some x =>
      obtain ⟨⟨p2, rem2, imsg2⟩, fr⟩ := x
      simp only
      rw [ih p2 rem2 imsg2 (bpf_step_inv H buf len p rem imsg _ fr hfit hlen hinv hstep).1]

/-- C14: for a read of len ≤ BPFLEN bytes into the capture buffer, every record header the loop
of bpf_receive reads lies within the first len bytes, every message it composes comes from a
record at an offset o with o + sizeof(struct bpf_hdr) ≤ len, captured length equal to actual
length and within the payload capacity, o + bh_hdrlen + bh_caplen ≤ len without 32-bit wrap, and
carries exactly the bytes [o + bh_hdrlen, o + bh_hdrlen + bh_caplen); and the loop does the same
on any buffer that agrees on the first len bytes, so no byte beyond them is read. This holds for
the messages of each single iteration, whether or not the loop is ever left. -/
theorem bpf_receive_safe (H : headers) (buf : List Nat) (len : Nat) (imsg : imsg_dhcp)
    (hlen : len ≤ H.BPFLEN) (hbpflen : H.BPFLEN ≤ H.SSIZE_MAX) (hbuf : len ≤ buf.length)
    (hfit : ∀ x, x < 4294967296 → H.BPF_WORDALIGN x ≤ H.SSIZE_MAX)
    (hcap : H.sizeof_imsg_dhcp_packet + 65536 ≤ 4294967296) :
    (∀ n p rem im, bpf_receive_run H buf n 0 len imsg = some (p, rem, im) →
      (0 < rem → (H.sizeof_bpf_hdr : Int) ≤ rem → p + H.sizeof_bpf_hdr ≤ len) ∧
      ∀ st f, bpf_receive_step H buf p rem im = some (st, some f) →
        frame_from_record H buf len p f) ∧
    (∀ fuel frames, bpf_receive_loop H buf fuel 0 len imsg = some frames →
      ∀ f ∈ frames, ∃ o, frame_from_record H buf len o f) ∧
    (∀ buf2 : List Nat, buf2.take len = buf.take len →
      ∀ fuel, bpf_receive_loop H buf2 fuel 0 len imsg = bpf_receive_loop H buf fuel 0 len imsg) := by
  have hl : len ≤ H.SSIZE_MAX := Nat.le_trans hlen hbpflen
  have h0 : ((0 : Nat) : Int) + (len : Int) = len := by simp
  refine ⟨fun n p rem im hrun => ?_, fun fuel frames h => ?_, fun buf2 h2 fuel => ?_⟩
  · have hinv := bpf_run_inv H buf len hfit hl n 0 len imsg p rem im h0 hrun
    exact ⟨fun _ hr => by omega,
      fun st f hs => frame_of_step H buf len p rem im st f hcap hbuf hinv hs⟩
  · exact bpf_loop_frames H buf len hfit hl hcap hbuf fuel 0 len imsg frames h0 h
  · exact bpf_loop_congr H buf buf2 len hfit hl hcap h2 fuel 0 len imsg h0

theorem openbsd_amd64_stride_fits (x : Nat) (_hx : x < 4294967296) :
    openbsd_amd64.BPF_WORDALIGN x ≤ openbsd_amd64.SSIZE_MAX := by
  have h : openbsd_amd64.SSIZE_MAX = 9223372036854775807 := by decide
  rw [h]
  show (x + 3) / 4 * 4 ≤ 9223372036854775807
  omega

/-- A run of C14 on OpenBSD/amd64: the buffer with one record of 5 bytes and 3 leftover
bytes. -/
theorem bpf_receive_safe_witness :
    (35 ≤ openbsd_amd64.BPFLEN ∧ openbsd_amd64.BPFLEN ≤ openbsd_amd64.SSIZE_MAX ∧
      35 ≤ sample_one_record.length ∧
      (∀ x, x < 4294967296 → openbsd_amd64.BPF_WORDALIGN x ≤ openbsd_amd64.SSIZE_MAX) ∧
      openbsd_amd64.sizeof_imsg_dhcp_packet + 65536 ≤ 4294967296) ∧
    ((∀ n p rem im, bpf_receive_run openbsd_amd64 sample_one_record n 0 (35 : Nat)
        (imsg_dhcp_init openbsd_amd64 7) = some (p, rem, im) →
      (0 < rem → (openbsd_amd64.sizeof_bpf_hdr : Int) ≤ rem →
        p + openbsd_amd64.sizeof_bpf_hdr ≤ 35) ∧
      ∀ st f, bpf_receive_step openbsd_amd64 sample_one_record p rem im = some (st, some f) →
        frame_from_record openbsd_amd64 sample_one_record 35 p f) ∧
    (∀ fuel frames, bpf_receive_loop openbsd_amd64 sample_one_record fuel 0 (35 : Nat)
        (imsg_dhcp_init openbsd_amd64 7) = some frames →
      ∀ f ∈ frames, ∃ o, frame_from_record openbsd_amd64 sample_one_record 35 o f) ∧
    (∀ buf2 : List Nat, buf2.take 35 = sample_one_record.take 35 →
      ∀ fuel, bpf_receive_loop openbsd_amd64 buf2 fuel 0 (35 : Nat)
          (imsg_dhcp_init openbsd_amd64 7) =
        bpf_receive_loop openbsd_amd64 sample_one_record fuel 0 (35 : Nat)
          (imsg_dhcp_init openbsd_amd64 7))) :=
  ⟨⟨by decide, by decide, by decide, openbsd_amd64_stride_fits, by decide⟩,
    bpf_receive_safe openbsd_amd64 sample_one_record 35 (imsg_dhcp_init openbsd_amd64 7)
      (by decide) (by decide) (by decide) openbsd_amd64_stride_fits (by decide)⟩

/-! ## Theorems: termination of the loop of bpf_receive -/

theorem bpf_step_zero_record (imsg : imsg_dhcp) :
    bpf_receive_step openbsd_amd64 sample_zero_record 0 24 imsg =
      some ((0, 24, { imsg with packet := memcpy imsg.packet 0 [], len := 0 }),
        some { imsg with packet := memcpy imsg.packet 0 [], len := 0 }) := by
  have hc : bh_caplen openbsd_amd64 sample_zero_record 0 = 0 := by decide
  have hd : bh_datalen openbsd_amd64 sample_zero_record 0 = 0 := by decide
  have hh : bh_hdrlen openbsd_amd64 sample_zero_record 0 = 0 := by decide
  have hs : bh_sum openbsd_amd64 sample_zero_record 0 = 0 := by decide
  have hw : openbsd_amd64.BPF_WORDALIGN 0 = 0 := by decide
  have ht : to_ssize_t openbsd_amd64 (24 - ((0 : Nat) : Int)) = 24 := by decide
  have h1 : (24 : Int) > 0 := by decide
  have h2 : ¬ (24 : Int).toNat < openbsd_amd64.sizeof_bpf_hdr := by decide
  have h4 : ¬ (24 : Int) < ((0 : Nat) : Int) := by decide
  have h5 : ¬ 0 > openbsd_amd64.sizeof_imsg_dhcp_packet := by decide
  unfold bpf_receive_step
  rw [hc, hd, hh, hs, hw, ht]
  simp only [if_pos h1, if_neg h2, if_neg h4, if_neg h5, ne_eq, not_true_eq_false, if_false,
    Nat.add_zero, List.drop_zero, List.take_zero]

theorem bpf_loop_zero_record :
    ∀ (fuel : Nat) (imsg : imsg_dhcp),
      bpf_receive_loop openbsd_amd64 sample_zero_record fuel 0 24 imsg = none := by
  intro fuel
  induction fuel with
  | zero => intro imsg; rfl
  | succ n ih =>
    intro imsg
    rw [bpf_loop_step, bpf_step_zero_record]
    simp only [ih, Option.map_none']

theorem bpf_step_wrapped_record (imsg : imsg_dhcp) :
    bpf_receive_step openbsd_amd64 sample_wrapped_record 0 24 imsg = some ((0, 24, imsg), none) := by
  have hc : bh_caplen openbsd_amd64 sample_wrapped_record 0 = 4294967272 := by decide
  have hd : bh_datalen openbsd_amd64 sample_wrapped_record 0 = 4294967272 := by decide
  have hs : bh_sum openbsd_amd64 sample_wrapped_record 0 = 0 := by decide
  have hw : openbsd_amd64.BPF_WORDALIGN 0 = 0 := by decide
  have ht : to_ssize_t openbsd_amd64 (24 - ((0 : Nat) : Int)) = 24 := by decide
  have h1 : (24 : Int) > 0 := by decide
  have h2 : ¬ (24 : Int).toNat < openbsd_amd64.sizeof_bpf_hdr := by decide
  have h4 : ¬ (24 : Int) < ((0 : Nat) : Int) := by decide
  have h5 : 4294967272 > openbsd_amd64.sizeof_imsg_dhcp_packet := by decide
  unfold bpf_receive_step
  rw [hc, hd, hs, hw, ht]
  simp only [if_pos h1, if_neg h2, if_neg h4, if_pos h5, ne_eq, not_true_eq_false, if_false,
    Nat.add_zero]

/-- A nonzero header length does not make the stride nonzero: a record with bh_hdrlen 24 and
bh_caplen = bh_datalen = 4294967272 has the sum 4294967296, which is zero as the unsigned int
the code computes; the iteration skips it as too big with stride 0 and the loop is not left for
any number of iterations. -/
theorem bpf_loop_wrapped_record :
    bh_hdrlen openbsd_amd64 sample_wrapped_record 0 = 24 ∧
    bh_hdrlen openbsd_amd64 sample_wrapped_record 0 +
      bh_caplen openbsd_amd64 sample_wrapped_record 0 = 4294967296 ∧
    bh_sum openbsd_amd64 sample_wrapped_record 0 = 0 ∧
    ∀ (fuel : Nat) (imsg : imsg_dhcp),
      bpf_receive_loop openbsd_amd64 sample_wrapped_record fuel 0 24 imsg = none := by
  refine ⟨by decide, by decide, by decide, ?_⟩
  intro fuel
  induction fuel with
  | zero => intro imsg; rfl
  | succ n ih =>
    intro imsg
    rw [bpf_loop_step, bpf_step_wrapped_record]
    simp only [ih, Option.map_none']

/-- C15 as stated fails: on a read of 24 zero bytes (one record header of OpenBSD/amd64 whose
bh_hdrlen, bh_caplen and bh_datalen are zero) an iteration of the loop of bpf_receive stays in
the loop and leaves the remaining count at 24, and the loop is not left for any number of
iterations. -/
theorem bpf_receive_zero_record_never_ends :
    sample_zero_record.length = 24 ∧ 24 ≤ openbsd_amd64.BPFLEN ∧
    bh_hdrlen openbsd_amd64 sample_zero_record 0 = 0 ∧
    bh_caplen openbsd_amd64 sample_zero_record 0 = 0 ∧
    (∃ st fr, bpf_receive_step openbsd_amd64 sample_zero_record 0 24
        (imsg_dhcp_init openbsd_amd64 7) = some (st, fr) ∧ st.1 = 0 ∧ st.2.1 = 24) ∧
    ∀ fuel, bpf_receive_loop openbsd_amd64 sample_zero_record fuel 0 24
      (imsg_dhcp_init openbsd_amd64 7) = none :=
  ⟨by decide, by decide, by decide, by decide,
    ⟨_, _, bpf_step_zero_record (imsg_dhcp_init openbsd_amd64 7), rfl, rfl⟩,
    fun fuel => bpf_loop_zero_record fuel (imsg_dhcp_init openbsd_amd64 7)⟩

theorem bpf_step_decreases (H : headers) (buf : List Nat) (len p : Nat) (rem : Int)
    (imsg : imsg_dhcp) (st : Nat × Int × imsg_dhcp) (fr : Option imsg_dhcp)
    (hpos : ∀ x, 0 < x → 0 < H.BPF_WORDALIGN x)
    (hfit : ∀ x, x < 4294967296 → H.BPF_WORDALIGN x ≤ H.SSIZE_MAX)
    (hlen : len ≤ H.SSIZE_MAX) (hinv : (p : Int) + rem = len)
    (hrec : bh_sum H buf p ≠ 0)
    (h : bpf_receive_step H buf p rem imsg = some (st, fr)) :
    st.2.1 < rem := by
  have h2 := (bpf_step_inv H buf len p rem imsg st fr hfit hlen hinv h).2.1
  have h3 := hpos _ (Nat.pos_of_ne_zero hrec)
  omega

theorem bpf_loop_ends (H : headers) (buf : List Nat) (len : Nat) (imsg : imsg_dhcp)
    (hpos : ∀ x, 0 < x → 0 < H.BPF_WORDALIGN x)
    (hfit : ∀ x, x < 4294967296 → H.BPF_WORDALIGN x ≤ H.SSIZE_MAX)
    (hlen : len ≤ H.SSIZE_MAX)
    (hrec : ∀ n p rem im, bpf_receive_run H buf n 0 len imsg = some (p, rem, im) →
      0 < rem → (H.sizeof_bpf_hdr : Int) ≤ rem → bh_sum H buf p ≠ 0) :
    ∀ (fuel n p : Nat) (rem : Int) (im : imsg_dhcp),
      bpf_receive_run H buf n 0 len imsg = some (p, rem, im) → rem ≤ fuel →
      ∃ frames, bpf_receive_loop H buf fuel p rem im = some frames := by
  intro fuel
  induction fuel with
  | zero =>
    intro n p rem im _ hr
    refine ⟨[], ?_⟩
    have : ¬ rem > 0 := by simpa using hr
    simp only [bpf_receive_loop, if_neg this]
  | succ k ih =>
    intro n p rem im hrun hr
    rw [bpf_loop_step]
    cases hstep : bpf_receive_step H buf p rem im with
    | none => exact ⟨[], rfl⟩
    | some x =>
      obtain ⟨⟨p2, rem2, im2⟩, fr⟩ := x
      have hinv := bpf_run_inv H buf len hfit hlen n 0 len imsg p rem im (by simp) hrun
      obtain ⟨h1, h2, _⟩ := bpf_step_some H buf p rem im _ fr hstep
      have hdec := bpf_step_decreases H buf len p rem im _ fr hpos hfit hlen hinv
        (hrec n p rem im hrun h1 h2) hstep
      have hnext := bpf_run_succ H buf n 0 len imsg p rem im _ fr hrun hstep
      simp only at hdec
      obtain ⟨frames, hf⟩ := ih (n + 1) p2 rem2 im2 hnext (by push_cast at hr ⊢; omega)
      exact ⟨fr.toList ++ frames, by simp only [hf, Option.map_some']⟩

/-- C15, amended: on a platform where BPFLEN and every stride BPF_WORDALIGN(x), x < 2^32, fit
ssize_t and the stride of a nonzero x is nonzero, for every capture buffer content and read
length len ≤ BPFLEN in which every record header the loop of bpf_receive reaches has a sum
bh_hdrlen + bh_caplen that is different from zero as the code computes it, in unsigned int, that
is modulo 2^32, each iteration that does not leave the loop strictly decreases the remaining
byte count, records skipped as truncated or too big included, and the loop is left after at
most len iterations. -/
theorem bpf_receive_terminates (H : headers) (buf : List Nat) (len : Nat) (imsg : imsg_dhcp)
    (hlen : len ≤ H.BPFLEN) (hbpflen : H.BPFLEN ≤ H.SSIZE_MAX)
    (hpos : ∀ x, 0 < x → 0 < H.BPF_WORDALIGN x)
    (hfit : ∀ x, x < 4294967296 → H.BPF_WORDALIGN x ≤ H.SSIZE_MAX)
    (hrec : ∀ n p rem im, bpf_receive_run H buf n 0 len imsg = some (p, rem, im) →
      0 < rem → (H.sizeof_bpf_hdr : Int) ≤ rem →
      (bh_hdrlen H buf p + bh_caplen H buf p) % 4294967296 ≠ 0) :
    (∀ n p rem im st fr, bpf_receive_run H buf n 0 len imsg = some (p, rem, im) →
      bpf_receive_step H buf p rem im = some (st, fr) → st.2.1 < rem) ∧
    ∀ fuel, len ≤ fuel → ∃ frames, bpf_receive_loop H buf fuel 0 len imsg = some frames := by
  have hl : len ≤ H.SSIZE_MAX := Nat.le_trans hlen hbpflen
  refine ⟨fun n p rem im st fr hrun hstep => ?_, fun fuel hfuel => ?_⟩
  · have hinv := bpf_run_inv H buf len hfit hl n 0 len imsg p rem im (by simp) hrun
    obtain ⟨h1, h2, _⟩ := bpf_step_some H buf p rem im st fr hstep
    exact bpf_step_decreases H buf len p rem im st fr hpos hfit hl hinv
      (hrec n p rem im hrun h1 h2) hstep
  · exact bpf_loop_ends H buf len imsg hpos hfit hl hrec fuel 0 0 len imsg rfl
      (by exact_mod_cast hfuel)

theorem openbsd_amd64_stride_pos (x : Nat) (hx : 0 < x) : 0 < openbsd_amd64.BPF_WORDALIGN x := by
  show 0 < (x + 3) / 4 * 4
  omega

theorem sample_one_record_reached (imsg : imsg_dhcp) :
    ∀ n p rem im, bpf_receive_run openbsd_amd64 sample_one_record n 0 (35 : Nat) imsg =
        some (p, rem, im) →
      0 < rem → (openbsd_amd64.sizeof_bpf_hdr : Int) ≤ rem →
      bh_sum openbsd_amd64 sample_one_record p ≠ 0 := by
  have hz : (openbsd_amd64.sizeof_bpf_hdr : Int) = 24 := by decide
  intro n p rem im hrun _ h2
  cases n with
  | zero =>
    simp only [bpf_receive_run, Option.some.injEq, Prod.mk.injEq] at hrun
    obtain ⟨rfl, _, _⟩ := hrun
    decide
  | succ n =>
    rw [bpf_receive_run] at hrun
    cases hstep : bpf_receive_step openbsd_amd64 sample_one_record 0 (35 : Nat) imsg with
    | none => rw [hstep] at hrun; exact absurd hrun (by simp)
    | some x =>
      obtain ⟨⟨p2, rem2, im2⟩, fr⟩ := x
      rw [hstep] at hrun
      simp only at hrun
      obtain ⟨_, _, _, h4, _⟩ := bpf_step_some _ _ _ _ _ _ _ hstep
      have hr : to_ssize_t openbsd_amd64 (((35 : Nat) : Int) -
          openbsd_amd64.BPF_WORDALIGN (bh_sum openbsd_amd64 sample_one_record 0)) = 3 := by
        decide
      simp only at h4
      rw [hr] at h4
      cases n with
      | zero =>
        simp only [bpf_receive_run, Option.some.injEq, Prod.mk.injEq] at hrun
        obtain ⟨_, rfl, _⟩ := hrun
        omega
      | succ n =>
        rw [bpf_receive_run] at hrun
        cases hstep2 : bpf_receive_step openbsd_amd64 sample_one_record p2 rem2 im2 with
        | none => rw [hstep2] at hrun; exact absurd hrun (by simp)
        | some y =>
          obtain ⟨_, h6, _⟩ := bpf_step_some _ _ _ _ _ _ _ hstep2
          omega

/-- A run of the amended C15 on OpenBSD/amd64: the buffer with one record of 5 bytes and 3
leftover bytes. -/
theorem bpf_receive_terminates_witness :
    (35 ≤ openbsd_amd64.BPFLEN ∧ openbsd_amd64.BPFLEN ≤ openbsd_amd64.SSIZE_MAX ∧
      (∀ x, 0 < x → 0 < openbsd_amd64.BPF_WORDALIGN x) ∧
      (∀ x, x < 4294967296 → openbsd_amd64.BPF_WORDALIGN x ≤ openbsd_amd64.SSIZE_MAX) ∧
      (∀ n p rem im, bpf_receive_run openbsd_amd64 sample_one_record n 0 (35 : Nat)
          (imsg_dhcp_init openbsd_amd64 7) = some (p, rem, im) →
        0 < rem → (openbsd_amd64.sizeof_bpf_hdr : Int) ≤ rem →
        (bh_hdrlen openbsd_amd64 sample_one_record p +
          bh_caplen openbsd_amd64 sample_one_record p) % 4294967296 ≠ 0)) ∧
    ((∀ n p rem im st fr, bpf_receive_run openbsd_amd64 sample_one_record n 0 (35 : Nat)
          (imsg_dhcp_init openbsd_amd64 7) = some (p, rem, im) →
        bpf_receive_step openbsd_amd64 sample_one_record p rem im = some (st, fr) →
        st.2.1 < rem) ∧
      ∀ fuel, 35 ≤ fuel → ∃ frames, bpf_receive_loop openbsd_amd64 sample_one_record fuel 0
        (35 : Nat) (imsg_dhcp_init openbsd_amd64 7) = some frames) :=
  ⟨⟨by decide, by decide, openbsd_amd64_stride_pos, openbsd_amd64_stride_fits,
      sample_one_record_reached (imsg_dhcp_init openbsd_amd64 7)⟩,
    bpf_receive_terminates openbsd_amd64 sample_one_record 35 (imsg_dhcp_init openbsd_amd64 7)
      (by decide) (by decide) openbsd_amd64_stride_pos openbsd_amd64_stride_fits
      (sample_one_record_reached (imsg_dhcp_init openbsd_amd64 7))⟩

/-! ## Theorems: frontend_startup -/

theorem spec_eligible_true (H : headers) (K : kernel) (if_name : String)
    (hk : K.answers_valid) (h : spec_eligible H K if_name = true) :
    get_flags K if_name ≠ -1 ∧ get_xflags K if_name ≠ -1 ∧
    int_bits (get_xflags K if_name) &&& H.IFXF_AUTOCONF4 ≠ 0 ∧
    get_ifrdomain K if_name ≠ -1 := by
  obtain ⟨h1, h2, h3⟩ := hk if_name
  unfold spec_eligible at h
  unfold get_flags get_xflags get_ifrdomain
  cases hf : K.SIOCGIFFLAGS if_name with
  | none => rw [hf] at h; simp at h
  | some f =>
    cases hx : K.SIOCGIFXFLAGS if_name with
    | none => rw [hf, hx] at h; simp at h
    | some x =>
      cases hr : K.SIOCGIFRDOMAIN if_name with
      | none => rw [hf, hx, hr] at h; simp at h
      | some r =>
        rw [hf, hx, hr] at h
        rw [hf] at h1; rw [hx] at h2; rw [hr] at h3
        simp only [decide_eq_true_eq] at h
        exact ⟨fun e => h1 (congrArg some (e : f = -1)), fun e => h2 (congrArg some (e : x = -1)), h,
          fun e => h3 (congrArg some (e : r = -1))⟩

theorem spec_eligible_false (H : headers) (K : kernel) (if_name : String)
    (h : spec_eligible H K if_name = false) :
    get_flags K if_name = -1 ∨ get_xflags K if_name = -1 ∨
    int_bits (get_xflags K if_name) &&& H.IFXF_AUTOCONF4 = 0 ∨
    get_ifrdomain K if_name = -1 := by
  unfold spec_eligible at h
  unfold get_flags get_xflags get_ifrdomain
  cases hf : K.SIOCGIFFLAGS if_name with
  | none => exact Or.inl rfl
  | some f =>
    cases hx : K.SIOCGIFXFLAGS if_name with
    | none => exact Or.inr (Or.inl rfl)
    | some x =>
      cases hr : K.SIOCGIFRDOMAIN if_name with
      | none => exact Or.inr (Or.inr (Or.inr rfl))
      | some r =>
        rw [hf, hx, hr] at h
        simp only [decide_eq_false_iff_not, not_not] at h
        exact Or.inr (Or.inr (Or.inl h))

theorem update_iface_skip (H : headers) (K : kernel) (s : frontend) (if_index : Nat)
    (if_name : String)
    (h : get_flags K if_name = -1 ∨ get_xflags K if_name = -1 ∨
      int_bits (get_xflags K if_name) &&& H.IFXF_AUTOCONF4 = 0 ∨
      get_ifrdomain K if_name = -1) :
    update_iface H K s if_index if_name = some s := by
  unfold update_iface
  by_cases h1 : get_flags K if_name = -1
  · simp only [if_pos h1]
  · by_cases h2 : get_xflags K if_name = -1
    · simp only [if_neg h1, if_pos h2]
    · by_cases h3 : int_bits (get_xflags K if_name) &&& H.IFXF_AUTOCONF4 = 0
      · simp only [if_neg h1, if_neg h2, if_pos h3]
      · have h4 : get_ifrdomain K if_name = -1 := by
          rcases h with h | h | h | h
          · exact absurd h h1
          · exact absurd h h2
          · exact absurd h h3
          · exact h
        simp only [if_neg h1, if_neg h2, if_neg h3, if_pos h4]

theorem update_iface_new (H : headers) (K : kernel) (s : frontend) (if_index : Nat)
    (if_name : String) (ifap : List ifaddrs)
    (h1 : get_flags K if_name ≠ -1) (h2 : get_xflags K if_name ≠ -1)
    (h3 : int_bits (get_xflags K if_name) &&& H.IFXF_AUTOCONF4 ≠ 0)
    (h4 : get_ifrdomain K if_name ≠ -1)
    (hnew : get_iface_by_id s.interfaces if_index = none)
    (hifap : K.getifaddrs = some ifap) :
    ∃ (iface : iface) (info : imsg_ifinfo),
      update_iface H K s if_index if_name = some { s with
        interfaces := iface :: s.interfaces
        to_main := s.to_main ++ [imsg_out.OPEN_BPFSOCK if_index, imsg_out.UPDATE_IF info] } ∧
      iface.if_index = if_index ∧ iface.udpsock = -1 ∧ iface.bpfev_ev = event_zero ∧
      info.if_index = if_index := by
  unfold update_iface
  simp only [if_neg h1, if_neg h2, if_neg h3, if_neg h4, hnew, hifap]
  cases hscan : scan_ifaddrs H if_name ifap 0 with
  | mk link_state lladdr =>
    cases lladdr with
    | none =>
      simp only [frontend_imsg_compose_main, List.getElem?_cons_zero, List.append_assoc,
        List.singleton_append]
      exact ⟨_, _, rfl, rfl, rfl, rfl, rfl⟩
    | some a =>
      simp only [frontend_imsg_compose_main, set_iface, List.getElem?_cons_zero, List.set_cons_zero,
        List.append_assoc, List.singleton_append]
      exact ⟨_, _, rfl, rfl, rfl, rfl, rfl⟩

theorem frontend_startup_loop_spec (H : headers) (K : kernel) (ifap : List ifaddrs)
    (hk : K.answers_valid) (hifap : K.getifaddrs = some ifap) :
    ∀ (l : List (Nat × String)) (s : frontend),
      (∀ x ∈ l, x.1 ≠ 0) → (l.map Prod.fst).Nodup →
      (∀ i ∈ s.interfaces, i.if_index ∉ l.map Prod.fst) →
      ∃ (s2 : frontend) (emitted : List imsg_out) (added : List iface),
        frontend_startup_loop H K l s = some s2 ∧
        s2.to_main = s.to_main ++ emitted ∧
        emitted.length = 2 * (l.filter (fun x => spec_eligible H K x.2)).length ∧
        open_bpfsock_indexes emitted =
          (l.filter (fun x => spec_eligible H K x.2)).map Prod.fst ∧
        update_if_indexes emitted =
          (l.filter (fun x => spec_eligible H K x.2)).map Prod.fst ∧
        s2.interfaces = added ++ s.interfaces ∧
        added.map (fun i => i.if_index) =
          ((l.filter (fun x => spec_eligible H K x.2)).map Prod.fst).reverse ∧
        (∀ i ∈ added, i.udpsock = -1 ∧ i.bpfev_ev = event_zero) ∧
        s2.calls = s.calls ∧ s2.to_engine = s.to_engine ∧ s2.ev_route = s.ev_route := by
  intro l
  induction l with
  | nil =>
    intro s _ _ _
    exact ⟨s, [], [], rfl, by simp, rfl, rfl, rfl, rfl, rfl, by simp, rfl, rfl, rfl⟩
  | cons a rest ih =>
    intro s hnz hnd hdis
    obtain ⟨if_index, if_name⟩ := a
    have h0 : if_index ≠ 0 := hnz (if_index, if_name) (List.mem_cons_self _ _)
    have hnz2 : ∀ x ∈ rest, x.1 ≠ 0 := fun x hx => hnz x (List.mem_cons_of_mem _ hx)
    rw [List.map_cons, List.nodup_cons] at hnd
    obtain ⟨hni, hnd2⟩ := hnd
    rw [frontend_startup_loop]
    simp only [if_neg h0]
    cases hel : spec_eligible H K if_name with
    | false =>
      rw [update_iface_skip H K s if_index if_name (spec_eligible_false H K if_name hel)]
      have hdis2 : ∀ i ∈ s.interfaces, i.if_index ∉ rest.map Prod.fst := fun i hi hm =>
        hdis i hi (by rw [List.map_cons]; exact List.mem_cons_of_mem _ hm)
      obtain ⟨s2, em, ad, hrun, hmain, hlen, hop, hup, hint, hidx, hud, hc, he, hr⟩ :=
        ih s hnz2 hnd2 hdis2
      have hf : (((if_index, if_name) :: rest).filter (fun x => spec_eligible H K x.2)) =
          rest.filter (fun x => spec_eligible H K x.2) := by
        rw [List.filter_cons]
        simp only [hel, Bool.false_eq_true, if_false]
      rw [hf]
      exact ⟨s2, em, ad, hrun, hmain, hlen, hop, hup, hint, hidx, hud, hc, he, hr⟩
    | true =>
      obtain ⟨e1, e2, e3, e4⟩ := spec_eligible_true H K if_name hk hel
      have hnew : get_iface_by_id s.interfaces if_index = none :=
        get_iface_by_id_none_of_forall _ _ (fun x hx e =>
          hdis x hx (by rw [List.map_cons, e]; exact List.mem_cons_self _ _))
      obtain ⟨iface, info, hupd, hi1, hi2, hi3, hi4⟩ :=
        update_iface_new H K s if_index if_name ifap e1 e2 e3 e4 hnew hifap
      rw [hupd]
      have hdis2 : ∀ i ∈ (iface :: s.interfaces), i.if_index ∉ rest.map Prod.fst := by
        intro i hi hm
        rcases List.mem_cons.mp hi with hi | hi
        · rw [hi, hi1] at hm; exact hni hm
        · exact hdis i hi (by rw [List.map_cons]; exact List.mem_cons_of_mem _ hm)
      obtain ⟨s2, em, ad, hrun, hmain, hlen, hop, hup, hint, hidx, hud, hc, he, hr⟩ :=
        ih { s with
          interfaces := iface :: s.interfaces
          to_main := s.to_main ++ [imsg_out.OPEN_BPFSOCK if_index, imsg_out.UPDATE_IF info] }
          hnz2 hnd2 hdis2
      have hf : (((if_index, if_name) :: rest).filter (fun x => spec_eligible H K x.2)) =
          (if_index, if_name) :: rest.filter (fun x => spec_eligible H K x.2) := by
        rw [List.filter_cons]
        simp only [hel, if_true]
      rw [hf]
      refine ⟨s2, [imsg_out.OPEN_BPFSOCK if_index, imsg_out.UPDATE_IF info] ++ em,
        ad ++ [iface], hrun, ?_, ?_, ?_, ?_, ?_, ?_, ?_, hc, he, hr⟩
      · rw [hmain, List.append_assoc]
      · simp only [List.length_append, List.length_cons, List.length_nil, hlen]
        omega
      · simp only [open_bpfsock_indexes, List.cons_append, List.nil_append, List.filterMap_cons,
          List.map_cons] at hop ⊢
        rw [hop]
      · simp only [update_if_indexes, List.cons_append, List.nil_append, List.filterMap_cons,
          List.map_cons, hi4] at hup ⊢
        rw [hup]
      · rw [hint, List.append_assoc, List.singleton_append]
      · simp only [List.map_append, hidx, List.map_cons, List.reverse_cons, List.map_nil, hi1]
      · intro i hi
        rcases List.mem_append.mp hi with hi | hi
        · exact hud i hi
        · rw [List.mem_singleton] at hi
          rw [hi]
          exact ⟨hi2, hi3⟩

theorem sample_kernel_two_valid : sample_kernel_two.answers_valid := by
  intro if_name
  have h1 : some (65 : Int) ≠ some (-1) := by decide
  have h3 : some (0 : Int) ≠ some (-1) := by decide
  refine ⟨h1, ?_, h3⟩
  show (if if_name = "em0" then some (128 : Int) else some 0) ≠ some (-1)
  by_cases h : if_name = "em0"
  · rw [if_pos h]; decide
  · rw [if_neg h]; decide

/-- C12: started with an empty interface list and the route socket received, on a system whose
interfaces have pairwise distinct nonzero indexes, frontend_startup composes to main, and only
these, one IMSG_OPEN_BPFSOCK and one IMSG_UPDATE_IF for each interface whose three queries
succeed and whose extended flags include IFXF_AUTOCONF4, none for any other interface; afterwards
the interface list holds exactly the indexes of those interfaces, each once, each with udpsock -1,
and no descriptor was closed. -/
theorem frontend_startup_registers_eligible (H : headers) (K : kernel) (s : frontend)
    (l : List (Nat × String)) (ifap : List ifaddrs)
    (hreg : s.interfaces = []) (hroute : s.ev_route.initialized = true)
    (hl : K.if_nameindex = some l) (hnz : ∀ x ∈ l, x.1 ≠ 0) (hnd : (l.map Prod.fst).Nodup)
    (hk : K.answers_valid) (hifap : K.getifaddrs = some ifap) :
    ∃ (s2 : frontend) (emitted : List imsg_out),
      frontend_startup H K s = some s2 ∧
      s2.to_main = s.to_main ++ emitted ∧
      emitted.length = 2 * (l.filter (fun x => spec_eligible H K x.2)).length ∧
      open_bpfsock_indexes emitted = (l.filter (fun x => spec_eligible H K x.2)).map Prod.fst ∧
      update_if_indexes emitted = (l.filter (fun x => spec_eligible H K x.2)).map Prod.fst ∧
      ((l.filter (fun x => spec_eligible H K x.2)).map Prod.fst).Nodup ∧
      s2.interfaces.map (fun i => i.if_index) =
        ((l.filter (fun x => spec_eligible H K x.2)).map Prod.fst).reverse ∧
      (∀ i ∈ s2.interfaces, i.udpsock = -1) ∧
      s2.calls = s.calls := by
  have hdis : ∀ i ∈ ({ s with ev_route := event_add s.ev_route } : frontend).interfaces,
      i.if_index ∉ l.map Prod.fst := by
    intro i hi
    rw [show ({ s with ev_route := event_add s.ev_route } : frontend).interfaces = [] from hreg]
      at hi
    exact absurd hi (List.not_mem_nil _)
  obtain ⟨s2, em, ad, hrun, hmain, hlen, hop, hup, hint, hidx, hud, hc, _, _⟩ :=
    frontend_startup_loop_spec H K ifap hk hifap l { s with ev_route := event_add s.ev_route }
      hnz hnd hdis
  have hsub : ((l.filter (fun x => spec_eligible H K x.2)).map Prod.fst).Nodup :=
    List.Nodup.sublist (List.Sublist.map _ (List.filter_sublist _)) hnd
  have hint2 : s2.interfaces = ad := by
    rw [hint]
    show ad ++ s.interfaces = ad
    rw [hreg, List.append_nil]
  refine ⟨s2, em, ?_, hmain, hlen, hop, hup, hsub, by rw [hint2, hidx], ?_, hc⟩
  · unfold frontend_startup
    simp only [hroute, not_true_eq_false, if_false, hl]
    exact hrun
  · intro i hi
    rw [hint2] at hi
    exact (hud i hi).1

/-- A run of C12 on OpenBSD/amd64 with two interfaces: lo0 without autoconf4 and em0 with it. -/
theorem frontend_startup_registers_eligible_witness :
    (frontend_routed.interfaces = [] ∧ frontend_routed.ev_route.initialized = true ∧
      sample_kernel_two.if_nameindex = some [(1, "lo0"), (2, "em0")] ∧
      (∀ x ∈ [(1, "lo0"), (2, "em0")], x.1 ≠ 0) ∧
      (([(1, "lo0"), (2, "em0")] : List (Nat × String)).map Prod.fst).Nodup ∧
      sample_kernel_two.answers_valid ∧
      sample_kernel_two.getifaddrs = some [{ ifa_name := "lo0", ifa_addr := none },
        { ifa_name := "em0", ifa_addr := some (18, 2, 6, 6, ⟨0, 17, 34, 51, 68, 85⟩) }]) ∧
    ∃ (s2 : frontend) (emitted : List imsg_out),
      frontend_startup openbsd_amd64 sample_kernel_two frontend_routed = some s2 ∧
      s2.to_main = frontend_routed.to_main ++ emitted ∧
      emitted.length = 2 * (([(1, "lo0"), (2, "em0")] : List (Nat × String)).filter
        (fun x => spec_eligible openbsd_amd64 sample_kernel_two x.2)).length ∧
      open_bpfsock_indexes emitted = (([(1, "lo0"), (2, "em0")] : List (Nat × String)).filter
        (fun x => spec_eligible openbsd_amd64 sample_kernel_two x.2)).map Prod.fst ∧
      update_if_indexes emitted = (([(1, "lo0"), (2, "em0")] : List (Nat × String)).filter
        (fun x => spec_eligible openbsd_amd64 sample_kernel_two x.2)).map Prod.fst ∧
      ((([(1, "lo0"), (2, "em0")] : List (Nat × String)).filter
        (fun x => spec_eligible openbsd_amd64 sample_kernel_two x.2)).map Prod.fst).Nodup ∧
      s2.interfaces.map (fun i => i.if_index) =
        ((([(1, "lo0"), (2, "em0")] : List (Nat × String)).filter
          (fun x => spec_eligible openbsd_amd64 sample_kernel_two x.2)).map Prod.fst).reverse ∧
      (∀ i ∈ s2.interfaces, i.udpsock = -1) ∧
      s2.calls = frontend_routed.calls :=
  ⟨⟨rfl, rfl, rfl, by decide, by decide, sample_kernel_two_valid, rfl⟩,
    frontend_startup_registers_eligible openbsd_amd64 sample_kernel_two frontend_routed
      [(1, "lo0"), (2, "em0")] _ rfl rfl rfl (by decide) (by decide) sample_kernel_two_valid rfl⟩

/-- The run of frontend_startup on the two interfaces lo0 and em0 of which only em0 has autoconf4
set: one IMSG_OPEN_BPFSOCK and one IMSG_UPDATE_IF, both for em0, and em0 alone on the interface
list. -/
theorem frontend_startup_two_interfaces :
    ([(1, "lo0"), (2, "em0")].filter
      (fun x => spec_eligible openbsd_amd64 sample_kernel_two x.2)) = [(2, "em0")] ∧
    (frontend_startup openbsd_amd64 sample_kernel_two frontend_routed).map
        (fun s => (s.to_main, s.interfaces.map (fun i => (i.if_index, i.udpsock)), s.calls)) =
      some ([imsg_out.OPEN_BPFSOCK 2,
          imsg_out.UPDATE_IF ⟨2, 0, true, 2, ⟨0, 17, 34, 51, 68, 85⟩⟩],
        [(2, -1)], []) := by
  decide

end Dhcpleased
